import Mathlib

/-!
# MetaNN: layer bookkeeping and evaluation units

A shallow embedding of

* `MetaNN/layers/elementary/sigmoid_layer.h` (`SigmoidLayer`),
* `MetaNN/layers/elementary/interpolate_layer.h` (`InterpolateLayer`),
* `MetaNN/operators/sigmoid_grad.h` (the `SigmoidGrad` builder, its evaluation unit and
  its registration),
* `MetaNN/operators/elementwise/negative.h` (the evaluation unit of `Negative`),

together with the facilities these files use and which the specification describes
(shapes, expression nodes, shape checkers, evaluation handles, the evaluation plan), and
with `TanhLayer`, which `LayerTest/elementary/test_tanh_layer.cpp` exercises and which is
modelled from the specification.

C++ exceptions are modelled by `Except Error _`; a member function of a layer returns its
result together with the state of the layer at the moment it returns or throws.
-/

namespace MetaNN

/-! ## Errors -/

/-- The exceptions thrown by the embedded code, one constructor per `throw` site. -/
inductive Error where
  /-- Thrown as `std::runtime_error("Cannot feed back in SigmoidLayer")`,
  sigmoid_layer.h:64. -/
  | cannotFeedBackSigmoid
  /-- Thrown as `std::runtime_error("Cannot do FeedBackward for InterpolateLayer")`,
  interpolate_layer.h:76. -/
  | cannotFeedBackInterpolate
  /-- Thrown as `std::runtime_error("NeutralInvariant Fail!")`, sigmoid_layer.h:88 and
  interpolate_layer.h:117. -/
  | neutralInvariantFail
  /-- Thrown by the builder `SigmoidGrad` when the operand shapes differ,
  sigmoid_grad.h:100. -/
  | sigmoidGradShapeMismatch
  /-- Raised by `ShapeChecker::CheckAndPop` on an empty stack (spec 4.3, error "empty"). -/
  | shapeStackEmpty
  /-- Raised by `ShapeChecker::CheckAndPop` when the popped shape differs from the given
  one (spec 4.3, error "mismatch"). -/
  | shapeMismatch
  /-- Raised by `ShapeChecker::AssertEmpty` on a non-empty stack (spec 4.3). -/
  | shapeStackNotEmpty
  /-- A required named item is absent from a bundle (`PickItemFromCont`); rejected at
  compile time in the source. -/
  | itemNotSet
  /-- Raised by `TanhLayer::FeedBackward` when no forward call is pending (spec 4.4,
  "backward without matching forward"). -/
  | cannotFeedBackTanh
  /-- Raised by the builder `TanhGrad` when the operand shapes differ (spec 4.1). -/
  | tanhGradShapeMismatch
  deriving DecidableEq, Repr

deriving instance DecidableEq for Except

/-! ## Shapes, tensors and expression nodes -/

/-- Modelled from the spec: the shape type is not in the analysed sources; spec 3 describes
a shape as an ordered tuple of non-negative extents. -/
abbrev Shape := List Nat

/-- Modelled from the spec: `Shape::Count()` is not in the analysed sources; it is the
number of elements of a dense array with these extents. -/
def Shape.Count (s : Shape) : Nat := s.prod

/-- Modelled from the spec: the dense tensor type is not in the analysed sources; spec 3
describes it as a contiguous dense buffer plus a shape. `mem` is the raw contiguous
memory that `LowerAccess(..).MutableRawMemory()` exposes. -/
structure Tensor (α : Type) where
  shape : Shape
  mem : List α
  deriving DecidableEq, Repr

/-- Modelled from the spec: the expression-node types are not in the analysed sources.
Spec 3: a node is either an already materialized tensor or a pending operator application
(operator tag and operand nodes). One constructor per operator builder the embedded code
calls; the operands are stored in the order the builder receives them. -/
inductive Node (α : Type) where
  /-- A leaf: an already materialized tensor. -/
  | tensor (t : Tensor α)
  /-- The node built by `Sigmoid(val)`. -/
  | Sigmoid (val : Node α)
  /-- The node `Operator<OpTags::SigmoidGrad, TGrad, TInput>(grad, input)`. -/
  | SigmoidGrad (grad input : Node α)
  /-- The node built by `Duplicate(val, shape)`. -/
  | Duplicate (val : Node α) (shape : Shape)
  /-- The node built by `Collapse(val, shape)`. -/
  | Collapse (val : Node α) (shape : Shape)
  /-- The node built by `Interpolate(v1, v2, lambda)`. -/
  | Interpolate (v1 v2 lambda : Node α)
  /-- The node built by `a * b`. -/
  | Multiply (a b : Node α)
  /-- The node built by `a - b`. -/
  | Substract (a b : Node α)
  /-- The node built by `num - a` with a scalar on the left, as in `1 - curLambda`. -/
  | SubstractFromNum (num : Int) (a : Node α)
  /-- The node built by `Tanh(val)` (spec 4.1). -/
  | Tanh (val : Node α)
  /-- The node built by `TanhGrad(grad, output)` (spec 4.1). -/
  | TanhGrad (grad output : Node α)
  deriving DecidableEq, Repr

/-- Modelled from the spec: `Shape()` of a node is not in the analysed sources. Spec 4.1:
it is pure and never forces computation; an elementwise operator has the shape of its
operands (the first one is reported), `Duplicate(x, s)` and `Collapse(x, s)` have the
target shape `s`, `Interpolate` works over the common shape of its promoted operands. -/
def Node.Shape {α : Type} : Node α → Shape
  | .tensor t => t.shape
  | .Sigmoid val => val.Shape
  | .SigmoidGrad grad _ => grad.Shape
  | .Duplicate _ shape => shape
  | .Collapse _ shape => shape
  | .Interpolate v1 _ _ => v1.Shape
  | .Multiply a _ => a.Shape
  | .Substract a _ => a.Shape
  | .SubstractFromNum _ a => a.Shape
  | .Tanh val => val.Shape
  | .TanhGrad grad _ => grad.Shape

/-- The `n`-th operand of an operator node (`GetOperand<n>()`), `none` for a leaf or an
index past the last operand. -/
def Node.GetOperand {α : Type} : Node α → Nat → Option (Node α)
  | .Sigmoid val, 0 => some val
  | .SigmoidGrad grad _, 0 => some grad
  | .SigmoidGrad _ input, 1 => some input
  | .Duplicate val _, 0 => some val
  | .Collapse val _, 0 => some val
  | .Interpolate v1 _ _, 0 => some v1
  | .Interpolate _ v2 _, 1 => some v2
  | .Interpolate _ _ lambda, 2 => some lambda
  | .Multiply a _, 0 => some a
  | .Multiply _ b, 1 => some b
  | .Substract a _, 0 => some a
  | .Substract _ b, 1 => some b
  | .SubstractFromNum _ a, 0 => some a
  | .Tanh val, 0 => some val
  | .TanhGrad grad _, 0 => some grad
  | .TanhGrad _ output, 1 => some output
  | _, _ => none

/-- The builder `SigmoidGrad(p_grad, p_input)` of sigmoid_grad.h:94-107: throws when the
two shapes differ, otherwise returns the operator node over the two operands. -/
def SigmoidGrad {α : Type} (p_grad p_input : Node α) : Except Error (Node α) :=
  if p_grad.Shape ≠ p_input.Shape then
    .error .sigmoidGradShapeMismatch
  else
    .ok (.SigmoidGrad p_grad p_input)

/-- Modelled from the spec: the `Interpolate` operator is not in the analysed sources.
Spec 4.1: over the common shape of its operands, forward = λ⊙v1 + (1−λ)⊙v2. The result
for three evaluated operands of one shape, element by element over the raw buffers. -/
def InterpolateEval {α : Type} [Add α] [Mul α] [Sub α] [One α] (v1 v2 lambda : Tensor α) :
    Tensor α :=
  ⟨v1.shape, List.zipWith3 (fun a b l => l * a + (1 - l) * b) v1.mem v2.mem lambda.mem⟩

/-- Modelled from the spec: the value of an `Interpolate` node from the values of its
operand nodes, taken in operand order (spec 4.1); `none` for any other node. -/
def Node.EvaluateInterpolate {α : Type} [Add α] [Mul α] [Sub α] [One α]
    (value : Node α → Tensor α) : Node α → Option (Tensor α)
  | .Interpolate v1 v2 lambda => some (InterpolateEval (value v1) (value v2) (value lambda))
  | _ => none

/-- Modelled from the spec: the builder `TanhGrad` is not in the analysed sources. Spec 4.1:
an elementwise operator requires identical operand shapes and raises the mismatch when the
node is built; the node holds the gradient and the forward output. -/
def TanhGrad {α : Type} (p_grad p_output : Node α) : Except Error (Node α) :=
  if p_grad.Shape ≠ p_output.Shape then
    .error .tanhGradShapeMismatch
  else
    .ok (.TanhGrad p_grad p_output)

/-- Modelled from the spec: the force operation `Evaluate(expression)` (spec 6) is not in
the analysed sources. The value of the nodes a `TanhLayer` builds over materialized
tensors, by spec 4.1: `Tanh` is `y = tanh(x)` elementwise, `TanhGrad(g, y)` is
`g⊙(1−y²)` elementwise; `tanh` is the hyperbolic tangent of the element type. Other
operators are not evaluated here (`none`). -/
def Node.Evaluate {α : Type} [Mul α] [Sub α] [One α] (tanh : α → α) :
    Node α → Option (Tensor α)
  | .tensor t => some t
  | .Tanh val =>
    match Evaluate tanh val with
    | some x => some ⟨x.shape, x.mem.map tanh⟩
    | none => none
  | .TanhGrad grad output =>
    match Evaluate tanh grad, Evaluate tanh output with
    | some g, some y => some ⟨g.shape, List.zipWith (fun g y => g * (1 - y * y)) g.mem y.mem⟩
    | _, _ => none
  | _ => none

/-! ## Layer facilities -/

namespace LayerTraits

/-- Modelled from the spec: `LayerTraits::ShapeChecker<TShape, true>` is not in the
analysed sources; spec 3 and 4.3 describe it as a stack of shapes. The head of the list
is the top of the stack. -/
structure ShapeChecker where
  m_buffer : List Shape := []
  deriving DecidableEq, Repr

/-- Modelled from the spec: `Push(shape)` appends to the stack (spec 4.3). -/
def ShapeChecker.Push (c : ShapeChecker) (shape : Shape) : ShapeChecker :=
  { m_buffer := shape :: c.m_buffer }

/-- Modelled from the spec: `CheckAndPop(shape)`: "pop top; error empty if the stack is
empty, error mismatch if popped ≠ given" (spec 4.3). The second component is the checker
after the call: untouched when it was empty, popped otherwise. -/
def ShapeChecker.CheckAndPop (c : ShapeChecker) (shape : Shape) :
    Except Error Unit × ShapeChecker :=
  match c.m_buffer with
  | [] => (.error .shapeStackEmpty, c)
  | top :: rest =>
    if top ≠ shape then (.error .shapeMismatch, { m_buffer := rest })
    else (.ok (), { m_buffer := rest })

/-- Modelled from the spec: `AssertEmpty()`: error if non-empty (spec 4.3). -/
def ShapeChecker.AssertEmpty (c : ShapeChecker) : Except Error Unit :=
  if c.m_buffer.isEmpty then .ok () else .error .shapeStackNotEmpty

/-- Modelled from the spec: `LayerTraits::LayerInternalBuf<T, true>` is not in the
analysed sources; the layers use it as a `std::stack` (`push`, `top`, `pop`, `empty`).
The head of the list is the top of the stack. -/
abbrev LayerInternalBuf (T : Type) := List T

end LayerTraits

open LayerTraits

/-! ## Named bundles -/

/-- Bundle with the key `LayerInput`: `LayerInputCont<SigmoidLayer>`. A key that was never
`Set` holds `NullParameter`, here `none`. -/
structure SigmoidLayerInputCont (α : Type) where
  LayerInput : Option (Node α) := none
  deriving DecidableEq, Repr

/-- Bundle with the key `LayerOutput`: `LayerOutputCont<...>`. -/
structure LayerOutputCont (α : Type) where
  LayerOutput : Option (Node α) := none
  deriving DecidableEq, Repr

/-- The call `LayerInputCont<SigmoidLayer>().Set<LayerInput>(v)`. -/
def SigmoidLayerInputCont.SetLayerInput {α : Type} (c : SigmoidLayerInputCont α)
    (v : Node α) : SigmoidLayerInputCont α :=
  { c with LayerInput := some v }

/-- The call `LayerOutputCont<...>().Set<LayerOutput>(v)`. -/
def LayerOutputCont.SetLayerOutput {α : Type} (c : LayerOutputCont α)
    (v : Node α) : LayerOutputCont α :=
  { c with LayerOutput := some v }

/-- The bundle `LayerInputCont<SigmoidLayer>().Set<LayerInput>(x)`. -/
abbrev sigIn {α : Type} (x : Node α) : SigmoidLayerInputCont α :=
  ({} : SigmoidLayerInputCont α).SetLayerInput x

/-- The bundle `LayerOutputCont<...>().Set<LayerOutput>(g)`. -/
abbrev outGrad {α : Type} (g : Node α) : LayerOutputCont α :=
  ({} : LayerOutputCont α).SetLayerOutput g

/-! ## SigmoidLayer -/

/-- The data members of `SigmoidLayer` (sigmoid_layer.h:95-101). The policy constant
`IsFeedbackOutput` is a parameter of the type, as it is of the class template. -/
structure SigmoidLayer (IsFeedbackOutput : Bool) (α : Type) where
  m_name : String
  m_data : LayerInternalBuf (Node α) := []
  m_inputShape : ShapeChecker := {}
  m_outputShape : ShapeChecker := {}
  deriving DecidableEq, Repr

namespace SigmoidLayer

variable {IsFeedbackOutput : Bool} {α : Type}

/-- The constructor `SigmoidLayer(std::string name)`: all stacks start empty. -/
def new (IsFeedbackOutput : Bool) (α : Type) (name : String) :
    SigmoidLayer IsFeedbackOutput α :=
  { m_name := name }

/-- Member `FeedForwardCal` (sigmoid_layer.h:32-35). -/
def FeedForwardCal (val : Node α) : Node α :=
  .Sigmoid val

/-- Member `FeedForward` (sigmoid_layer.h:42-55). The named input is fetched first; when
`IsFeedbackOutput`, the input shape, the output shape and the output node are pushed. -/
def FeedForward (self : SigmoidLayer IsFeedbackOutput α) (p_in : SigmoidLayerInputCont α) :
    Except Error (LayerOutputCont α) × SigmoidLayer IsFeedbackOutput α :=
  match p_in.LayerInput with
  | none => (.error .itemNotSet, self)
  | some val =>
    let res := FeedForwardCal val
    let self1 : SigmoidLayer IsFeedbackOutput α :=
      if IsFeedbackOutput then
        { self with
          m_inputShape := self.m_inputShape.Push val.Shape
          m_outputShape := self.m_outputShape.Push res.Shape
          m_data := res :: self.m_data }
      else self
    (.ok (({} : LayerOutputCont α).SetLayerOutput res), self1)

/-- Member `FeedBackward` (sigmoid_layer.h:57-80). The returned layer is the state of the
object when the call returns or throws. -/
def FeedBackward (self : SigmoidLayer IsFeedbackOutput α) (p_grad : LayerOutputCont α) :
    Except Error (SigmoidLayerInputCont α) × SigmoidLayer IsFeedbackOutput α :=
  if IsFeedbackOutput then
    match self.m_data with
    | [] => (.error .cannotFeedBackSigmoid, self)
    | input :: data =>
      match p_grad.LayerOutput with
      | none => (.error .itemNotSet, self)
      | some grad =>
        match self.m_outputShape.CheckAndPop grad.Shape with
        | (.error e, outputShape) => (.error e, { self with m_outputShape := outputShape })
        | (.ok (), outputShape) =>
          let self1 : SigmoidLayer IsFeedbackOutput α :=
            { self with m_outputShape := outputShape, m_data := data }
          match SigmoidGrad grad input with
          | .error e => (.error e, self1)
          | .ok res =>
            match self1.m_inputShape.CheckAndPop res.Shape with
            | (.error e, inputShape) => (.error e, { self1 with m_inputShape := inputShape })
            | (.ok (), inputShape) =>
              (.ok (({} : SigmoidLayerInputCont α).SetLayerInput res),
                { self1 with m_inputShape := inputShape })
  else
    (.ok {}, self)

/-- Member `NeutralInvariant` (sigmoid_layer.h:82-93); a `const` member, so no state is
returned. -/
def NeutralInvariant (self : SigmoidLayer IsFeedbackOutput α) : Except Error Unit :=
  if IsFeedbackOutput then
    if !self.m_data.isEmpty then
      .error .neutralInvariantFail
    else
      match self.m_inputShape.AssertEmpty with
      | .error e => .error e
      | .ok () => self.m_outputShape.AssertEmpty
  else
    .ok ()

/-- Successive `FeedForward` calls on one layer object, in list order, as a caller issues
them; the outputs are collected in call order and the first throw ends the sequence. -/
def FeedForwardSeq : SigmoidLayer IsFeedbackOutput α → List (SigmoidLayerInputCont α) →
    Except Error (List (LayerOutputCont α)) × SigmoidLayer IsFeedbackOutput α
  | self, [] => (.ok [], self)
  | self, p_in :: rest =>
    match self.FeedForward p_in with
    | (.error e, self1) => (.error e, self1)
    | (.ok out, self1) =>
      match FeedForwardSeq self1 rest with
      | (.error e, self2) => (.error e, self2)
      | (.ok outs, self2) => (.ok (out :: outs), self2)

/-- Successive `FeedBackward` calls on one layer object, in list order; the results are
collected in call order and the first throw ends the sequence. -/
def FeedBackwardSeq : SigmoidLayer IsFeedbackOutput α → List (LayerOutputCont α) →
    Except Error (List (SigmoidLayerInputCont α)) × SigmoidLayer IsFeedbackOutput α
  | self, [] => (.ok [], self)
  | self, p_grad :: rest =>
    match self.FeedBackward p_grad with
    | (.error e, self1) => (.error e, self1)
    | (.ok res, self1) =>
      match FeedBackwardSeq self1 rest with
      | (.error e, self2) => (.error e, self2)
      | (.ok ress, self2) => (.ok (res :: ress), self2)

end SigmoidLayer

/-! ## InterpolateLayer -/

/-- Bundle with the keys `InterpolateLayerWeight1`, `InterpolateLayerWeight2` and
`InterpolateLayerLambda`: `LayerInputCont<InterpolateLayer>`. -/
structure InterpolateLayerInputCont (α : Type) where
  InterpolateLayerWeight1 : Option (Node α) := none
  InterpolateLayerWeight2 : Option (Node α) := none
  InterpolateLayerLambda : Option (Node α) := none
  deriving DecidableEq, Repr

/-- The call `.Set<InterpolateLayerWeight1>(v)`. -/
def InterpolateLayerInputCont.SetWeight1 {α : Type} (c : InterpolateLayerInputCont α)
    (v : Node α) : InterpolateLayerInputCont α :=
  { c with InterpolateLayerWeight1 := some v }

/-- The call `.Set<InterpolateLayerWeight2>(v)`. -/
def InterpolateLayerInputCont.SetWeight2 {α : Type} (c : InterpolateLayerInputCont α)
    (v : Node α) : InterpolateLayerInputCont α :=
  { c with InterpolateLayerWeight2 := some v }

/-- The call `.Set<InterpolateLayerLambda>(v)`. -/
def InterpolateLayerInputCont.SetLambda {α : Type} (c : InterpolateLayerInputCont α)
    (v : Node α) : InterpolateLayerInputCont α :=
  { c with InterpolateLayerLambda := some v }

/-- The bundle `LayerInputCont<InterpolateLayer>()` with the three keys set to `v1`, `v2`
and `lambda`. -/
abbrev interpIn {α : Type} (v1 v2 lambda : Node α) : InterpolateLayerInputCont α :=
  ((({} : InterpolateLayerInputCont α).SetWeight1 v1).SetWeight2 v2).SetLambda lambda

/-- The data members of `InterpolateLayer` (interpolate_layer.h:126-134). -/
structure InterpolateLayer (IsFeedbackOutput : Bool) (α : Type) where
  m_name : String
  m_input1Stack : LayerInternalBuf (Node α) := []
  m_input2Stack : LayerInternalBuf (Node α) := []
  m_lambdaStack : LayerInternalBuf (Node α) := []
  m_weight1Shape : ShapeChecker := {}
  m_weight2Shape : ShapeChecker := {}
  m_lambdaShape : ShapeChecker := {}
  m_outputShape : ShapeChecker := {}
  deriving DecidableEq, Repr

namespace InterpolateLayer

variable {IsFeedbackOutput : Bool} {α : Type}

/-- The constructor `InterpolateLayer(std::string name)`: all stacks start empty. -/
def new (IsFeedbackOutput : Bool) (α : Type) (name : String) :
    InterpolateLayer IsFeedbackOutput α :=
  { m_name := name }

/-- Member `FeedForwardCal` (interpolate_layer.h:32-40). `LayerTraits::ShapePromote` is not
in the analysed sources and is taken as the parameter `ShapePromote`. -/
def FeedForwardCal (ShapePromote : Shape → Shape → Shape → Shape)
    (val1 val2 lambda : Node α) : Node α :=
  let proShape := ShapePromote val1.Shape val2.Shape lambda.Shape
  .Interpolate (.Duplicate val1 proShape) (.Duplicate val2 proShape)
    (.Duplicate lambda proShape)

/-- Member `FeedForward` (interpolate_layer.h:46-67). -/
def FeedForward (ShapePromote : Shape → Shape → Shape → Shape)
    (self : InterpolateLayer IsFeedbackOutput α) (p_in : InterpolateLayerInputCont α) :
    Except Error (LayerOutputCont α) × InterpolateLayer IsFeedbackOutput α :=
  match p_in.InterpolateLayerWeight1, p_in.InterpolateLayerWeight2,
      p_in.InterpolateLayerLambda with
  | some input1, some input2, some lambda =>
    let res := FeedForwardCal ShapePromote input1 input2 lambda
    let self1 : InterpolateLayer IsFeedbackOutput α :=
      if IsFeedbackOutput then
        { self with
          m_weight1Shape := self.m_weight1Shape.Push input1.Shape
          m_weight2Shape := self.m_weight2Shape.Push input2.Shape
          m_lambdaShape := self.m_lambdaShape.Push lambda.Shape
          m_outputShape := self.m_outputShape.Push res.Shape
          m_input1Stack := input1 :: self.m_input1Stack
          m_input2Stack := input2 :: self.m_input2Stack
          m_lambdaStack := lambda :: self.m_lambdaStack }
      else self
    (.ok (({} : LayerOutputCont α).SetLayerOutput res), self1)
  | _, _, _ => (.error .itemNotSet, self)

/-- Member `FeedBackward` (interpolate_layer.h:69-109). The returned layer is the state of
the object when the call returns or throws. -/
def FeedBackward (self : InterpolateLayer IsFeedbackOutput α) (p_grad : LayerOutputCont α) :
    Except Error (InterpolateLayerInputCont α) × InterpolateLayer IsFeedbackOutput α :=
  if IsFeedbackOutput then
    match self.m_input1Stack, self.m_input2Stack, self.m_lambdaStack with
    | curInput1 :: input1Stack, curInput2 :: input2Stack, curLambda :: lambdaStack =>
      match p_grad.LayerOutput with
      | none => (.error .itemNotSet, self)
      | some grad =>
        match self.m_outputShape.CheckAndPop grad.Shape with
        | (.error e, outputShape) => (.error e, { self with m_outputShape := outputShape })
        | (.ok (), outputShape) =>
          let self1 : InterpolateLayer IsFeedbackOutput α := { self with
            m_outputShape := outputShape
            m_lambdaStack := lambdaStack
            m_input1Stack := input1Stack
            m_input2Stack := input2Stack }
          let res2 : Node α :=
            .Multiply grad (.Duplicate (.SubstractFromNum 1 curLambda) grad.Shape)
          let res1 : Node α := .Multiply grad (.Duplicate curLambda grad.Shape)
          let resLambda : Node α :=
            .Multiply grad
              (.Substract (.Duplicate curInput1 grad.Shape) (.Duplicate curInput2 grad.Shape))
          let out1 : Node α := .Collapse res1 curInput1.Shape
          let out2 : Node α := .Collapse res2 curInput2.Shape
          let outLambda : Node α := .Collapse resLambda curLambda.Shape
          match self1.m_weight1Shape.CheckAndPop out1.Shape with
          | (.error e, weight1Shape) =>
            (.error e, { self1 with m_weight1Shape := weight1Shape })
          | (.ok (), weight1Shape) =>
            let self2 : InterpolateLayer IsFeedbackOutput α := { self1 with m_weight1Shape := weight1Shape }
            match self2.m_weight2Shape.CheckAndPop out2.Shape with
            | (.error e, weight2Shape) =>
              (.error e, { self2 with m_weight2Shape := weight2Shape })
            | (.ok (), weight2Shape) =>
              let self3 : InterpolateLayer IsFeedbackOutput α := { self2 with m_weight2Shape := weight2Shape }
              match self3.m_lambdaShape.CheckAndPop outLambda.Shape with
              | (.error e, lambdaShape) =>
                (.error e, { self3 with m_lambdaShape := lambdaShape })
              | (.ok (), lambdaShape) =>
                (.ok ((({} : InterpolateLayerInputCont α).SetWeight1 out1).SetWeight2 out2
                    |>.SetLambda outLambda),
                  { self3 with m_lambdaShape := lambdaShape })
    | _, _, _ => (.error .cannotFeedBackInterpolate, self)
  else
    (.ok {}, self)

/-- Member `NeutralInvariant` (interpolate_layer.h:111-124); it changes no member, so no
state is returned. -/
def NeutralInvariant (self : InterpolateLayer IsFeedbackOutput α) : Except Error Unit :=
  if IsFeedbackOutput then
    if !self.m_input1Stack.isEmpty || !self.m_input2Stack.isEmpty
        || !self.m_lambdaStack.isEmpty then
      .error .neutralInvariantFail
    else
      match self.m_weight1Shape.AssertEmpty with
      | .error e => .error e
      | .ok () =>
        match self.m_weight2Shape.AssertEmpty with
        | .error e => .error e
        | .ok () =>
          match self.m_lambdaShape.AssertEmpty with
          | .error e => .error e
          | .ok () => self.m_outputShape.AssertEmpty
  else
    .ok ()

/-- Successive `FeedForward` calls on one layer object, in list order; the outputs are
collected in call order and the first throw ends the sequence. -/
def FeedForwardSeq (ShapePromote : Shape → Shape → Shape → Shape) :
    InterpolateLayer IsFeedbackOutput α → List (InterpolateLayerInputCont α) →
    Except Error (List (LayerOutputCont α)) × InterpolateLayer IsFeedbackOutput α
  | self, [] => (.ok [], self)
  | self, p_in :: rest =>
    match self.FeedForward ShapePromote p_in with
    | (.error e, self1) => (.error e, self1)
    | (.ok out, self1) =>
      match FeedForwardSeq ShapePromote self1 rest with
      | (.error e, self2) => (.error e, self2)
      | (.ok outs, self2) => (.ok (out :: outs), self2)

/-- Successive `FeedBackward` calls on one layer object, in list order; the results are
collected in call order and the first throw ends the sequence. -/
def FeedBackwardSeq : InterpolateLayer IsFeedbackOutput α → List (LayerOutputCont α) →
    Except Error (List (InterpolateLayerInputCont α)) × InterpolateLayer IsFeedbackOutput α
  | self, [] => (.ok [], self)
  | self, p_grad :: rest =>
    match self.FeedBackward p_grad with
    | (.error e, self1) => (.error e, self1)
    | (.ok res, self1) =>
      match FeedBackwardSeq self1 rest with
      | (.error e, self2) => (.error e, self2)
      | (.ok ress, self2) => (.ok (res :: ress), self2)

end InterpolateLayer

/-! ## TanhLayer -/

/-- Bundle with the key `LayerInput`: `LayerInputCont<TanhLayer>`. -/
structure TanhLayerInputCont (α : Type) where
  LayerInput : Option (Node α) := none
  deriving DecidableEq, Repr

/-- The call `LayerInputCont<TanhLayer>().Set<LayerInput>(v)`. -/
def TanhLayerInputCont.SetLayerInput {α : Type} (c : TanhLayerInputCont α)
    (v : Node α) : TanhLayerInputCont α :=
  { c with LayerInput := some v }

/-- The bundle `LayerInputCont<TanhLayer>().Set<LayerInput>(x)`. -/
abbrev tanhIn {α : Type} (x : Node α) : TanhLayerInputCont α :=
  ({} : TanhLayerInputCont α).SetLayerInput x

/-- Modelled from the spec: `TanhLayer` is not in the analysed sources, only its test
`LayerTest/elementary/test_tanh_layer.cpp` is. Spec 3 and 4.4: a layer owns LIFO stacks of
forward-time operands and shapes; tanh buffers its output (spec 4.1: the backward pass is
`g⊙(1−y²)` over the forward output `y`). The members are those of the sibling
`SigmoidLayer`. -/
structure TanhLayer (IsFeedbackOutput : Bool) (α : Type) where
  m_name : String
  m_data : LayerInternalBuf (Node α) := []
  m_inputShape : ShapeChecker := {}
  m_outputShape : ShapeChecker := {}
  deriving DecidableEq, Repr

namespace TanhLayer

variable {IsFeedbackOutput : Bool} {α : Type}

/-- Modelled from the spec: the constructor `RootLayer layer("root")` of the test; all
stacks start empty. -/
def new (IsFeedbackOutput : Bool) (α : Type) (name : String) :
    TanhLayer IsFeedbackOutput α :=
  { m_name := name }

/-- Modelled from the spec: `FeedForward` (spec 4.4): fetch the named input, apply the
transform `Tanh`, and when `IsFeedbackOutput` push the input shape, the output shape and
the output; return the named output bundle. -/
def FeedForward (self : TanhLayer IsFeedbackOutput α) (p_in : TanhLayerInputCont α) :
    Except Error (LayerOutputCont α) × TanhLayer IsFeedbackOutput α :=
  match p_in.LayerInput with
  | none => (.error .itemNotSet, self)
  | some val =>
    let res : Node α := .Tanh val
    let self1 : TanhLayer IsFeedbackOutput α :=
      if IsFeedbackOutput then
        { self with
          m_inputShape := self.m_inputShape.Push val.Shape
          m_outputShape := self.m_outputShape.Push res.Shape
          m_data := res :: self.m_data }
      else self
    (.ok (({} : LayerOutputCont α).SetLayerOutput res), self1)

/-- Modelled from the spec: `FeedBackward` (spec 4.4): without `IsFeedbackOutput` return
the empty bundle; otherwise fail when the buffer is empty, else validate the gradient
shape at the output boundary, pop the most recent forward output, build the input
gradient `TanhGrad(grad, output)`, validate its shape at the input boundary and return
it. -/
def FeedBackward (self : TanhLayer IsFeedbackOutput α) (p_grad : LayerOutputCont α) :
    Except Error (TanhLayerInputCont α) × TanhLayer IsFeedbackOutput α :=
  if IsFeedbackOutput then
    match self.m_data with
    | [] => (.error .cannotFeedBackTanh, self)
    | output :: data =>
      match p_grad.LayerOutput with
      | none => (.error .itemNotSet, self)
      | some grad =>
        match self.m_outputShape.CheckAndPop grad.Shape with
        | (.error e, outputShape) => (.error e, { self with m_outputShape := outputShape })
        | (.ok (), outputShape) =>
          let self1 : TanhLayer IsFeedbackOutput α :=
            { self with m_outputShape := outputShape, m_data := data }
          match TanhGrad grad output with
          | .error e => (.error e, self1)
          | .ok res =>
            match self1.m_inputShape.CheckAndPop res.Shape with
            | (.error e, inputShape) => (.error e, { self1 with m_inputShape := inputShape })
            | (.ok (), inputShape) =>
              (.ok (({} : TanhLayerInputCont α).SetLayerInput res),
                { self1 with m_inputShape := inputShape })
  else
    (.ok {}, self)

/-- Modelled from the spec: `NeutralInvariant` (spec 4.4): asserts that every internal
stack and shape checker is empty. -/
def NeutralInvariant (self : TanhLayer IsFeedbackOutput α) : Except Error Unit :=
  if IsFeedbackOutput then
    if !self.m_data.isEmpty then
      .error .neutralInvariantFail
    else
      match self.m_inputShape.AssertEmpty with
      | .error e => .error e
      | .ok () => self.m_outputShape.AssertEmpty
  else
    .ok ()

/-- Successive `FeedForward` calls on one layer object, in list order; the outputs are
collected in call order and the first throw ends the sequence. -/
def FeedForwardSeq : TanhLayer IsFeedbackOutput α → List (TanhLayerInputCont α) →
    Except Error (List (LayerOutputCont α)) × TanhLayer IsFeedbackOutput α
  | self, [] => (.ok [], self)
  | self, p_in :: rest =>
    match self.FeedForward p_in with
    | (.error e, self1) => (.error e, self1)
    | (.ok out, self1) =>
      match FeedForwardSeq self1 rest with
      | (.error e, self2) => (.error e, self2)
      | (.ok outs, self2) => (.ok (out :: outs), self2)

/-- Successive `FeedBackward` calls on one layer object, in list order; the results are
collected in call order and the first throw ends the sequence. -/
def FeedBackwardSeq : TanhLayer IsFeedbackOutput α → List (LayerOutputCont α) →
    Except Error (List (TanhLayerInputCont α)) × TanhLayer IsFeedbackOutput α
  | self, [] => (.ok [], self)
  | self, p_grad :: rest =>
    match self.FeedBackward p_grad with
    | (.error e, self1) => (.error e, self1)
    | (.ok res, self1) =>
      match FeedBackwardSeq self1 rest with
      | (.error e, self2) => (.error e, self2)
      | (.ok ress, self2) => (.ok (res :: ress), self2)

end TanhLayer

/-! ## Call histories -/

/-- One call a client makes on a layer object whose input bundle has type `In`. -/
inductive LayerCall (In : Type) (α : Type) where
  | FeedForward (p_in : In)
  | FeedBackward (p_grad : LayerOutputCont α)
  | NeutralInvariant

/-- The number of unmatched forward calls after the calls of the list, when `depth` forward
calls were unmatched before; `none` when a backward call of the list finds no unmatched
forward call. `Unmatched calls 0 = some 0` says that the list pairs each of its backward
calls with an earlier forward call of the list and leaves no forward call unmatched. -/
def LayerCall.Unmatched {In α : Type} : List (LayerCall In α) → Nat → Option Nat
  | [], depth => some depth
  | .FeedForward _ :: rest, depth => Unmatched rest (depth + 1)
  | .FeedBackward _ :: _, 0 => none
  | .FeedBackward _ :: rest, depth + 1 => Unmatched rest depth
  | .NeutralInvariant :: rest, depth => Unmatched rest depth

/-- Whether a call of a history is a `FeedForward` call. -/
def LayerCall.IsForward {In α : Type} : LayerCall In α → Bool
  | .FeedForward _ => true
  | _ => false

/-- Whether a call of a history is a `FeedBackward` call. -/
def LayerCall.IsBackward {In α : Type} : LayerCall In α → Bool
  | .FeedBackward _ => true
  | _ => false

/-- The state of a `SigmoidLayer` after the calls of the list, issued in order, when each
of them returns normally; the first throw ends the history with that error. -/
def SigmoidLayer.Run {IsFeedbackOutput : Bool} {α : Type} :
    SigmoidLayer IsFeedbackOutput α → List (LayerCall (SigmoidLayerInputCont α) α) →
    Except Error (SigmoidLayer IsFeedbackOutput α)
  | self, [] => .ok self
  | self, .FeedForward p_in :: rest =>
    match self.FeedForward p_in with
    | (.error e, _) => .error e
    | (.ok _, self1) => Run self1 rest
  | self, .FeedBackward p_grad :: rest =>
    match self.FeedBackward p_grad with
    | (.error e, _) => .error e
    | (.ok _, self1) => Run self1 rest
  | self, .NeutralInvariant :: rest =>
    match self.NeutralInvariant with
    | .error e => .error e
    | .ok () => Run self rest

/-- The state of an `InterpolateLayer` after the calls of the list, issued in order, when
each of them returns normally; the first throw ends the history with that error. -/
def InterpolateLayer.Run {IsFeedbackOutput : Bool} {α : Type}
    (ShapePromote : Shape → Shape → Shape → Shape) :
    InterpolateLayer IsFeedbackOutput α → List (LayerCall (InterpolateLayerInputCont α) α) →
    Except Error (InterpolateLayer IsFeedbackOutput α)
  | self, [] => .ok self
  | self, .FeedForward p_in :: rest =>
    match self.FeedForward ShapePromote p_in with
    | (.error e, _) => .error e
    | (.ok _, self1) => Run ShapePromote self1 rest
  | self, .FeedBackward p_grad :: rest =>
    match self.FeedBackward p_grad with
    | (.error e, _) => .error e
    | (.ok _, self1) => Run ShapePromote self1 rest
  | self, .NeutralInvariant :: rest =>
    match self.NeutralInvariant with
    | .error e => .error e
    | .ok () => Run ShapePromote self rest

/-! ## Evaluation handles -/

/-- Modelled from the spec: the evaluation handle is not in the analysed sources. Spec 3 and
4.2: one handle per output slot, with the states Unallocated, Allocated (storage exists,
value undefined) and Evaluated (readable). -/
inductive HandleState (α : Type) where
  | Unallocated
  | Allocated (data : Tensor α)
  | Evaluated (data : Tensor α)
  deriving DecidableEq, Repr

/-- The fatal outcomes of running an evaluation unit. -/
inductive Fault where
  /-- A handle was read with `Data()` before it reached Evaluated (spec 4.2 and 7,
  UndefinedValue). -/
  | undefinedValue
  /-- A handle operation outside the order Unallocated, Allocated, Evaluated of the state
  machine of spec 4.2. -/
  | handleState
  /-- An `assert(...)` of the unit does not hold. -/
  | assertion
  /-- A raw-memory access `mem[i]` past the end of the buffer. -/
  | rawMemory
  /-- The plan met a dependency cycle while executing (spec 4.2, defensive check). -/
  | cycle
  deriving DecidableEq, Repr

/-- The operations a unit performs on handles and on raw output memory, in the order
they happen; a handle is named by its identity (`DataPtr()`). -/
inductive Event where
  | Data (handle : Nat)
  | Allocate (handle : Nat) (shape : Shape)
  | MutableData (handle : Nat)
  | Write (handle : Nat) (i : Nat)
  | SetEval (handle : Nat)
  deriving DecidableEq, Repr

/-- The handles a unit can reach, each named by its identity, and the log of the
operations performed so far. Copies of a handle share one slot, as they share one
`DataPtr()` in the source. -/
structure EvalState (α : Type) where
  handles : Nat → HandleState α
  log : List Event := []

namespace EvalHandle

variable {α : Type}

/-- Modelled from the spec: `Data()` reads the value of a handle; reading before
Evaluated is an UndefinedValue fault (spec 4.2). -/
def Data (st : EvalState α) (handle : Nat) : Except Fault (Tensor α × EvalState α) :=
  match st.handles handle with
  | .Evaluated data => .ok (data, { st with log := st.log ++ [.Data handle] })
  | _ => .error .undefinedValue

/-- Modelled from the spec: `Allocate(shape)` takes a handle from Unallocated to Allocated
(spec 4.2): storage for `shape.Count` elements exists, its content is undefined. The model
fills it with `default`; no theorem depends on that content. -/
def Allocate [Inhabited α] (st : EvalState α) (handle : Nat) (shape : Shape) :
    Except Fault (EvalState α) :=
  match st.handles handle with
  | .Unallocated =>
    .ok { handles := fun p =>
            if p = handle then .Allocated ⟨shape, List.replicate shape.Count default⟩
            else st.handles p
          log := st.log ++ [.Allocate handle shape] }
  | _ => .error .handleState

/-- Modelled from the spec: `MutableData()` gives the writer access to the storage of an
Allocated handle. -/
def MutableData (st : EvalState α) (handle : Nat) : Except Fault (Tensor α × EvalState α) :=
  match st.handles handle with
  | .Allocated data => .ok (data, { st with log := st.log ++ [.MutableData handle] })
  | _ => .error .handleState

/-- The assignment `mem_out[i] = v` through the raw pointer into the storage of an Allocated
handle; an index past the end of the buffer is a fault. -/
def RawWrite (st : EvalState α) (handle : Nat) (i : Nat) (v : α) :
    Except Fault (EvalState α) :=
  match st.handles handle with
  | .Allocated data =>
    if i < data.mem.length then
      .ok { handles := fun p =>
              if p = handle then .Allocated { data with mem := data.mem.set i v }
              else st.handles p
            log := st.log ++ [.Write handle i] }
    else .error .rawMemory
  | _ => .error .handleState

/-- Modelled from the spec: `SetEval()` takes a handle from Allocated to Evaluated
(spec 4.2). -/
def SetEval (st : EvalState α) (handle : Nat) : Except Fault (EvalState α) :=
  match st.handles handle with
  | .Allocated data =>
    .ok { handles := fun p => if p = handle then .Evaluated data else st.handles p
          log := st.log ++ [.SetEval handle] }
  | _ => .error .handleState

end EvalHandle

/-- The read `mem[i]` through a raw pointer; an index past the end of the buffer is a
fault. -/
def RawRead {α : Type} (mem : List α) (i : Nat) : Except Fault α :=
  match mem[i]? with
  | some v => .ok v
  | none => .error .rawMemory

/-! ## The SigmoidGrad evaluation unit -/

namespace OperSigmoidGrad

/-- The data members of `OperSigmoidGrad::NSCaseGen::EvalUnit` (sigmoid_grad.h:55-58),
each handle given by its identity. -/
structure EvalUnit where
  m_gradHandle : Nat
  m_inputHandle : Nat
  m_outputHandle : Nat
  deriving DecidableEq, Repr

variable {α : Type}

/-- The loop `for (size_t i = 0; i < count; ++i)` of sigmoid_grad.h:48-51, entered at
index `i` with `remaining = count - i` iterations to go. -/
def EvalUnit.EvalLoop [Mul α] [Sub α] [One α] (mem_grad mem_in : List α) (outputHandle : Nat) :
    (remaining i : Nat) → EvalState α → Except Fault (EvalState α)
  | 0, _, st => .ok st
  | remaining + 1, i, st =>
    match RawRead mem_grad i, RawRead mem_in i with
    | .ok g, .ok y =>
      match EvalHandle.RawWrite st outputHandle i (g * y * (1 - y)) with
      | .ok st1 => EvalLoop mem_grad mem_in outputHandle remaining (i + 1) st1
      | .error f => .error f
    | .error f, _ => .error f
    | _, .error f => .error f

/-- Member `Eval` of the SigmoidGrad unit (sigmoid_grad.h:24-53). -/
def EvalUnit.Eval [Inhabited α] [Mul α] [Sub α] [One α] (self : EvalUnit)
    (st : EvalState α) : Except Fault (EvalState α) :=
  match EvalHandle.Data st self.m_gradHandle with
  | .error f => .error f
  | .ok (grad, st1) =>
    match EvalHandle.Data st1 self.m_inputHandle with
    | .error f => .error f
    | .ok (in_, st2) =>
      if grad.shape ≠ in_.shape then .error .assertion
      else
        match EvalHandle.Allocate st2 self.m_outputHandle grad.shape with
        | .error f => .error f
        | .ok st3 =>
          match EvalHandle.MutableData st3 self.m_outputHandle with
          | .error f => .error f
          | .ok (out, st4) =>
            let count := in_.shape.Count
            if count ≠ out.shape.Count then .error .assertion
            else
              match EvalUnit.EvalLoop grad.mem in_.mem self.m_outputHandle count 0 st4 with
              | .error f => .error f
              | .ok st5 => EvalHandle.SetEval st5 self.m_outputHandle

end OperSigmoidGrad

/-! ## The Negative evaluation unit -/

namespace OperNegative

/-- The data members of `OperNegative::NSCaseGen::EvalUnit` (negative.h:55-57), each
handle given by its identity. -/
structure EvalUnit where
  m_inputHandle : Nat
  m_outputHandle : Nat
  deriving DecidableEq, Repr

variable {α : Type}

/-- The loop `for (size_t i = 0; i < count; ++i)` of negative.h:48-51, entered at index
`i` with `remaining = count - i` iterations to go. -/
def EvalUnit.EvalLoop [Neg α] (mem_in : List α) (outputHandle : Nat) :
    (remaining i : Nat) → EvalState α → Except Fault (EvalState α)
  | 0, _, st => .ok st
  | remaining + 1, i, st =>
    match RawRead mem_in i with
    | .ok x =>
      match EvalHandle.RawWrite st outputHandle i (-x) with
      | .ok st1 => EvalLoop mem_in outputHandle remaining (i + 1) st1
      | .error f => .error f
    | .error f => .error f

/-- Member `Eval` of the Negative unit (negative.h:29-53). -/
def EvalUnit.Eval [Inhabited α] [Neg α] (self : EvalUnit) (st : EvalState α) :
    Except Fault (EvalState α) :=
  match EvalHandle.Data st self.m_inputHandle with
  | .error f => .error f
  | .ok (in_, st1) =>
    match EvalHandle.Allocate st1 self.m_outputHandle in_.shape with
    | .error f => .error f
    | .ok st2 =>
      match EvalHandle.MutableData st2 self.m_outputHandle with
      | .error f => .error f
      | .ok (out, st3) =>
        let count := in_.shape.Count
        if count ≠ out.shape.Count then .error .assertion
        else
          match EvalUnit.EvalLoop in_.mem self.m_outputHandle count 0 st3 with
          | .error f => .error f
          | .ok st4 => EvalHandle.SetEval st4 self.m_outputHandle

end OperNegative

/-! ## Evaluation plan and registration -/

/-- Modelled from the spec: `BaseEvalUnit` is not in the analysed sources; the plan holds a
unit of any operator through its member `Eval`, here the state transformer itself. -/
abbrev BaseEvalUnit (α : Type) := EvalState α → Except Fault (EvalState α)

/-- Modelled from the spec: one row of the evaluation plan, spec 3: a unit with its output
identity and its dependency identities. -/
structure EvalPlanEntry (α : Type) where
  unit : BaseEvalUnit α
  dataPtr : Nat
  depVec : List Nat

/-- Modelled from the spec: `EvalPlan<TDevice>` is not in the analysed sources; spec 3
describes it as a table from output identity to unit and dependency identities. The rows
are kept in registration order. -/
structure EvalPlan (α : Type) where
  m_entries : List (EvalPlanEntry α) := []

/-- Whether the plan already has a producer for the output identity `dataPtr`. -/
def EvalPlan.HasProducer {α : Type} (plan : EvalPlan α) (dataPtr : Nat) : Bool :=
  plan.m_entries.any fun e => e.dataPtr == dataPtr

/-- Modelled from the spec: `Register(unit, outputIdentity, dependencyIdentities)`: "if
outputIdentity already has a producer, no-op; else store unit + dependencies"
(spec 4.2). -/
def EvalPlan.Register {α : Type} (plan : EvalPlan α) (unit : BaseEvalUnit α) (dataPtr : Nat)
    (depVec : List Nat) : EvalPlan α :=
  if plan.HasProducer dataPtr then plan
  else { m_entries := plan.m_entries ++ [⟨unit, dataPtr, depVec⟩] }

/-- Modelled from the spec: execution of the plan is not in the analysed sources. Spec 4.2:
resolve dependencies depth-first, run the compute step of each unit exactly once after
its dependencies are Evaluated, mark its own handle Evaluated. `Force plan fuel dataPtr st`
makes the value of the handle `dataPtr` readable: an Evaluated handle needs nothing;
otherwise the producer registered for it is looked up, its dependencies are forced in
order, and the unit is run. `fuel` bounds the depth of the dependency chain; running out
of it is the fatal cycle check of spec 4.2. -/
def EvalPlan.Force {α : Type} (plan : EvalPlan α) :
    (fuel : Nat) → (dataPtr : Nat) → EvalState α → Except Fault (EvalState α)
  | 0, _, _ => .error .cycle
  | fuel + 1, dataPtr, st =>
    match st.handles dataPtr with
    | .Evaluated _ => .ok st
    | _ =>
      match plan.m_entries.find? (fun e => e.dataPtr == dataPtr) with
      | none => .error .undefinedValue
      | some e =>
        match e.depVec.foldlM (fun s dep => Force plan fuel dep s) st with
        | .error f => .error f
        | .ok st1 => e.unit st1

namespace OperSigmoidGrad

/-- Member `Calculator::EvalRegister` (sigmoid_grad.h:63-84), acting on the plan of the
device. `evalRes` is the identity of the output handle `evalRes.Handle()`. The member
`EvalRegister()` of an operand is not in the analysed sources and is the parameter
`OperandEvalRegister`: it returns the identity of the operand handle and the plan after
whatever the operand registered. -/
def Calculator.EvalRegister {α : Type} [Inhabited α] [Mul α] [Sub α] [One α]
    (OperandEvalRegister : Node α → EvalPlan α → Nat × EvalPlan α)
    (evalRes : Nat) (oper : Node α) (plan : EvalPlan α) : EvalPlan α :=
  match oper.GetOperand 0, oper.GetOperand 1 with
  | some data1, some data2 =>
    let (handle1, plan1) := OperandEvalRegister data1 plan
    let (handle2, plan2) := OperandEvalRegister data2 plan1
    let outHandle := evalRes
    let dataPtr := outHandle
    let depVec := [handle1, handle2]
    let unit : EvalUnit := ⟨handle1, handle2, outHandle⟩
    plan2.Register unit.Eval dataPtr depVec
  | _, _ => plan

end OperSigmoidGrad

/-! ## Sample data -/

/-- A promotion rule for the samples: of three shapes, the one with the most axes (the
first such one). -/
def ShapePromoteByRank (s1 s2 s3 : Shape) : Shape :=
  if s2.length ≤ s1.length ∧ s3.length ≤ s1.length then s1
  else if s3.length ≤ s2.length then s2 else s3

/-- A 2 x 1 matrix. -/
def sampleX1 : Node Int := .tensor ⟨[2, 1], [3, 4]⟩

/-- A 1 x 3 matrix. -/
def sampleX2 : Node Int := .tensor ⟨[1, 3], [1, 2, 3]⟩

/-- A gradient with the shape of `sampleX1`. -/
def sampleG1 : Node Int := .tensor ⟨[2, 1], [5, 6]⟩

/-- A gradient with the shape of `sampleX2`. -/
def sampleG2 : Node Int := .tensor ⟨[1, 3], [7, 8, 9]⟩

/-- A one-element vector, used as interpolation weight. -/
def sampleLambda : Node Int := .tensor ⟨[1], [2]⟩

/-- A state with an Evaluated 2 x 1 gradient under identity 1, an Evaluated 2 x 1 forward
output under identity 2, and every other handle Unallocated. -/
def sampleEvalState : EvalState Int :=
  { handles := fun p =>
      if p = 1 then .Evaluated ⟨[2, 1], [3, 4]⟩
      else if p = 2 then .Evaluated ⟨[2, 1], [5, 6]⟩
      else .Unallocated }

/-- A state with an Evaluated 2 x 1 input under identity 1 and every other handle
Unallocated. -/
def sampleNegativeState : EvalState Int :=
  { handles := fun p => if p = 1 then .Evaluated ⟨[2, 1], [3, -4]⟩ else .Unallocated }

/-- The registration of operands that are already evaluated: it leaves the plan as it is
and returns the identity 2 for a `Sigmoid` node and 1 for any other node. -/
def sampleOperandEvalRegister (node : Node Int) (plan : EvalPlan Int) : Nat × EvalPlan Int :=
  (match node with
    | .Sigmoid _ => 2
    | _ => 1, plan)

/-! ## Theorems -/

/-! ### SigmoidLayer: one forward call and its matching backward call -/

section SigmoidLemmas

variable {α : Type}

/-- A forward call with the input set returns the bundle holding `Sigmoid(x)`. -/
theorem sigmoid_feedForward_fst (L : SigmoidLayer true α) (x : Node α) :
    (L.FeedForward (sigIn x)).1 = .ok (outGrad (.Sigmoid x)) := by
  simp [SigmoidLayer.FeedForward, SigmoidLayer.FeedForwardCal,
    SigmoidLayerInputCont.SetLayerInput]

/-- A backward call right after a forward call, with a gradient of the shape of the input,
returns `SigmoidGrad(g, Sigmoid(x))` and restores the state before the forward call. -/
theorem sigmoid_feedBackward_feedForward (L : SigmoidLayer true α) (x g : Node α)
    (h : g.Shape = x.Shape) :
    (L.FeedForward (sigIn x)).2.FeedBackward (outGrad g)
      = (.ok (sigIn (.SigmoidGrad g (.Sigmoid x))), L) := by
  simp [SigmoidLayer.FeedForward, SigmoidLayer.FeedForwardCal, SigmoidLayer.FeedBackward,
    SigmoidLayerInputCont.SetLayerInput, LayerOutputCont.SetLayerOutput,
    ShapeChecker.Push, ShapeChecker.CheckAndPop, SigmoidGrad, Node.Shape, h]

/-- The pair a forward call returns, split into its output and its state. -/
theorem sigmoid_feedForward_ok (L : SigmoidLayer true α) (x : Node α) :
    L.FeedForward (sigIn x) = (.ok (outGrad (.Sigmoid x)), (L.FeedForward (sigIn x)).2) := by
  rw [← sigmoid_feedForward_fst L x]

/-- Backward calls over a concatenated list: first the calls of the first list, then,
if none threw, those of the second. -/
theorem sigmoid_feedBackwardSeq_append (L : SigmoidLayer true α)
    (ps qs : List (LayerOutputCont α)) :
    L.FeedBackwardSeq (ps ++ qs) =
      match L.FeedBackwardSeq ps with
      | (.error e, L1) => (.error e, L1)
      | (.ok rs, L1) =>
        match L1.FeedBackwardSeq qs with
        | (.error e, L2) => (.error e, L2)
        | (.ok rs2, L2) => (.ok (rs ++ rs2), L2) := by
  induction ps generalizing L with
  | nil =>
    simp only [List.nil_append, SigmoidLayer.FeedBackwardSeq]
    rcases L.FeedBackwardSeq qs with ⟨_ | _, _⟩ <;> rfl
  | cons p ps ih =>
    rw [List.cons_append, SigmoidLayer.FeedBackwardSeq.eq_2, SigmoidLayer.FeedBackwardSeq.eq_2]
    rcases L.FeedBackward p with ⟨_ | r, L1⟩
    · rfl
    · simp only []
      rw [ih L1]
      rcases L1.FeedBackwardSeq ps with ⟨_ | rs, L2⟩
      · rfl
      · simp only []
        rcases L2.FeedBackwardSeq qs with ⟨_ | _, _⟩ <;> rfl

/-- Splitting a list whose image under `f` ends with a known element. -/
theorem map_eq_append_singleton {β γ : Type} (f : β → γ) (gs : List β) (ys : List γ) (y : γ)
    (h : gs.map f = ys ++ [y]) :
    ∃ gs1 g, gs = gs1 ++ [g] ∧ gs1.map f = ys ∧ f g = y := by
  rcases List.eq_nil_or_concat gs with rfl | ⟨gs1, g, hgs⟩
  · simp at h
  · rw [List.concat_eq_append] at hgs
    subst hgs
    refine ⟨gs1, g, rfl, ?_⟩
    rw [List.map_append, List.map_singleton] at h
    have hlen : (gs1.map f).length = ys.length := by
      have := congrArg List.length h
      simpa using this
    have := List.append_inj h hlen
    exact ⟨this.1, by simpa using this.2⟩

/-- After the forward calls `xs` from any state, the backward calls `gs` whose shapes are
those of `xs` in reverse order all succeed, return the `SigmoidGrad` nodes over the paired
forward outputs, and bring the layer back to the state it started from. -/
theorem sigmoid_seq_roundtrip (L : SigmoidLayer true α) (xs : List (Node α)) :
    (L.FeedForwardSeq (xs.map sigIn)).1 = .ok (xs.map fun x => outGrad (.Sigmoid x)) ∧
    ∀ gs : List (Node α), gs.map Node.Shape = (xs.map Node.Shape).reverse →
      (L.FeedForwardSeq (xs.map sigIn)).2.FeedBackwardSeq (gs.map outGrad)
        = (.ok (List.zipWith (fun g x => sigIn (.SigmoidGrad g (.Sigmoid x))) gs xs.reverse),
            L) := by
  induction xs generalizing L with
  | nil =>
    refine ⟨rfl, ?_⟩
    intro gs hgs
    have : gs = [] := by simpa using hgs
    subst this
    rfl
  | cons x xs ih =>
    obtain ⟨ihF, ihB⟩ := ih (L.FeedForward (sigIn x)).2
    have hF : L.FeedForwardSeq ((x :: xs).map sigIn)
        = (.ok ((x :: xs).map fun x => outGrad (.Sigmoid x)),
            ((L.FeedForward (sigIn x)).2.FeedForwardSeq (xs.map sigIn)).2) := by
      rw [List.map_cons, SigmoidLayer.FeedForwardSeq, sigmoid_feedForward_ok L x]
      simp only []
      generalize hR : (L.FeedForward (sigIn x)).2.FeedForwardSeq (xs.map sigIn) = R at ihF
      rcases R with ⟨r, L1⟩
      simp only at ihF
      subst ihF
      rfl
    refine ⟨by rw [hF], ?_⟩
    intro gs hgs
    rw [hF]
    simp only [List.map_cons, List.reverse_cons] at hgs
    obtain ⟨gs1, g, rfl, hgs1, hg⟩ := map_eq_append_singleton _ gs _ _ hgs
    have hlen : gs1.length = xs.reverse.length := by
      have := congrArg List.length hgs1
      simpa using this
    rw [List.map_append, sigmoid_feedBackwardSeq_append, ihB gs1 hgs1]
    simp only [List.map_singleton, SigmoidLayer.FeedBackwardSeq,
      sigmoid_feedBackward_feedForward L x g hg, List.reverse_cons]
    rw [List.zipWith_append _ _ _ _ _ hlen]
    rfl

end SigmoidLemmas

/-! ### TanhLayer: one forward call and its matching backward call -/

section TanhLemmas

variable {α : Type}

/-- A forward call with the input set returns the bundle holding `Tanh(x)`. -/
theorem tanh_feedForward_fst (L : TanhLayer true α) (x : Node α) :
    (L.FeedForward (tanhIn x)).1 = .ok (outGrad (.Tanh x)) := by
  simp [TanhLayer.FeedForward,
    TanhLayerInputCont.SetLayerInput]

/-- A backward call right after a forward call, with a gradient of the shape of the input,
returns `TanhGrad(g, Tanh(x))` and restores the state before the forward call. -/
theorem tanh_feedBackward_feedForward (L : TanhLayer true α) (x g : Node α)
    (h : g.Shape = x.Shape) :
    (L.FeedForward (tanhIn x)).2.FeedBackward (outGrad g)
      = (.ok (tanhIn (.TanhGrad g (.Tanh x))), L) := by
  simp [TanhLayer.FeedForward, TanhLayer.FeedBackward,
    TanhLayerInputCont.SetLayerInput, LayerOutputCont.SetLayerOutput,
    ShapeChecker.Push, ShapeChecker.CheckAndPop, TanhGrad, Node.Shape, h]

/-- The pair a forward call returns, split into its output and its state. -/
theorem tanh_feedForward_ok (L : TanhLayer true α) (x : Node α) :
    L.FeedForward (tanhIn x) = (.ok (outGrad (.Tanh x)), (L.FeedForward (tanhIn x)).2) := by
  rw [← tanh_feedForward_fst L x]

/-- Backward calls over a concatenated list: first the calls of the first list, then,
if none threw, those of the second. -/
theorem tanh_feedBackwardSeq_append (L : TanhLayer true α)
    (ps qs : List (LayerOutputCont α)) :
    L.FeedBackwardSeq (ps ++ qs) =
      match L.FeedBackwardSeq ps with
      | (.error e, L1) => (.error e, L1)
      | (.ok rs, L1) =>
        match L1.FeedBackwardSeq qs with
        | (.error e, L2) => (.error e, L2)
        | (.ok rs2, L2) => (.ok (rs ++ rs2), L2) := by
  induction ps generalizing L with
  | nil =>
    simp only [List.nil_append, TanhLayer.FeedBackwardSeq]
    rcases L.FeedBackwardSeq qs with ⟨_ | _, _⟩ <;> rfl
  | cons p ps ih =>
    rw [List.cons_append, TanhLayer.FeedBackwardSeq.eq_2, TanhLayer.FeedBackwardSeq.eq_2]
    rcases L.FeedBackward p with ⟨_ | r, L1⟩
    · rfl
    · simp only []
      rw [ih L1]
      rcases L1.FeedBackwardSeq ps with ⟨_ | rs, L2⟩
      · rfl
      · simp only []
        rcases L2.FeedBackwardSeq qs with ⟨_ | _, _⟩ <;> rfl

/-- After the forward calls `xs` from any state, the backward calls `gs` whose shapes are
those of `xs` in reverse order all succeed, return the `TanhGrad` nodes over the paired
forward outputs, and bring the layer back to the state it started from. -/
theorem tanh_seq_roundtrip (L : TanhLayer true α) (xs : List (Node α)) :
    (L.FeedForwardSeq (xs.map tanhIn)).1 = .ok (xs.map fun x => outGrad (.Tanh x)) ∧
    ∀ gs : List (Node α), gs.map Node.Shape = (xs.map Node.Shape).reverse →
      (L.FeedForwardSeq (xs.map tanhIn)).2.FeedBackwardSeq (gs.map outGrad)
        = (.ok (List.zipWith (fun g x => tanhIn (.TanhGrad g (.Tanh x))) gs xs.reverse),
            L) := by
  induction xs generalizing L with
  | nil =>
    refine ⟨rfl, ?_⟩
    intro gs hgs
    have : gs = [] := by simpa using hgs
    subst this
    rfl
  | cons x xs ih =>
    obtain ⟨ihF, ihB⟩ := ih (L.FeedForward (tanhIn x)).2
    have hF : L.FeedForwardSeq ((x :: xs).map tanhIn)
        = (.ok ((x :: xs).map fun x => outGrad (.Tanh x)),
            ((L.FeedForward (tanhIn x)).2.FeedForwardSeq (xs.map tanhIn)).2) := by
      rw [List.map_cons, TanhLayer.FeedForwardSeq, tanh_feedForward_ok L x]
      simp only []
      generalize hR : (L.FeedForward (tanhIn x)).2.FeedForwardSeq (xs.map tanhIn) = R at ihF
      rcases R with ⟨r, L1⟩
      simp only at ihF
      subst ihF
      rfl
    refine ⟨by rw [hF], ?_⟩
    intro gs hgs
    rw [hF]
    simp only [List.map_cons, List.reverse_cons] at hgs
    obtain ⟨gs1, g, rfl, hgs1, hg⟩ := map_eq_append_singleton _ gs _ _ hgs
    have hlen : gs1.length = xs.reverse.length := by
      have := congrArg List.length hgs1
      simpa using this
    rw [List.map_append, tanh_feedBackwardSeq_append, ihB gs1 hgs1]
    simp only [List.map_singleton, TanhLayer.FeedBackwardSeq,
      tanh_feedBackward_feedForward L x g hg, List.reverse_cons]
    rw [List.zipWith_append _ _ _ _ _ hlen]
    rfl

end TanhLemmas

/-! ### SigmoidLayer: call histories -/

section SigmoidHistory

variable {α : Type}

/-- A forward call that returns pushes one entry on each of the three stacks. -/
theorem sigmoid_feedForward_push (T : SigmoidLayer true α) (p : SigmoidLayerInputCont α)
    (out : LayerOutputCont α) (T1 : SigmoidLayer true α)
    (h : T.FeedForward p = (.ok out, T1)) :
    ∃ y i o, T1 = ⟨T.m_name, y :: T.m_data, ⟨i :: T.m_inputShape.m_buffer⟩,
      ⟨o :: T.m_outputShape.m_buffer⟩⟩ := by
  unfold SigmoidLayer.FeedForward at h
  split at h
  · simp at h
  · rename_i val _
    simp only [if_true, Prod.mk.injEq] at h
    exact ⟨_, _, _, h.2.symm⟩

/-- A backward call that returns pops one entry from each of the three stacks. -/
theorem sigmoid_feedBackward_pop (T : SigmoidLayer true α) (p : LayerOutputCont α)
    (r : SigmoidLayerInputCont α) (T1 : SigmoidLayer true α)
    (h : T.FeedBackward p = (.ok r, T1)) :
    ∃ y i o, T.m_data = y :: T1.m_data ∧
      T.m_inputShape.m_buffer = i :: T1.m_inputShape.m_buffer ∧
      T.m_outputShape.m_buffer = o :: T1.m_outputShape.m_buffer ∧ T1.m_name = T.m_name := by
  obtain ⟨name, data, ⟨ins⟩, ⟨outs⟩⟩ := T
  simp only [SigmoidLayer.FeedBackward, if_true] at h
  cases data with
  | nil => simp at h
  | cons y data =>
    cases hp : p.LayerOutput with
    | none => simp [hp] at h
    | some grad =>
      cases outs with
      | nil => simp [hp, ShapeChecker.CheckAndPop] at h
      | cons o outs =>
        by_cases ho : o = grad.Shape
        · by_cases hs : grad.Shape = y.Shape
          · cases ins with
            | nil => simp [hp, ShapeChecker.CheckAndPop, ho, SigmoidGrad, hs] at h
            | cons i ins =>
              by_cases hi : i = grad.Shape
              · simp [hp, ShapeChecker.CheckAndPop, ho, SigmoidGrad, hs, hi, Node.Shape] at h
                obtain ⟨_, h⟩ := h
                subst h
                exact ⟨y, i, o, rfl, rfl, rfl, rfl⟩
              · have hi1 : ¬ i = y.Shape := by rw [← hs]; exact hi
                simp [hp, ShapeChecker.CheckAndPop, ho, SigmoidGrad, hs, hi1, Node.Shape] at h
          · simp [hp, ShapeChecker.CheckAndPop, ho, SigmoidGrad, hs] at h
        · simp [hp, ShapeChecker.CheckAndPop, ho] at h

/-- A history that returns normally, started with `c` entries on top of the stacks of `S`
and never matching a backward call below them, ends with as many entries on top of the
stacks of `S` as it leaves forward calls unmatched. -/
theorem sigmoid_run_extends (S : SigmoidLayer true α) :
    ∀ (calls : List (LayerCall (SigmoidLayerInputCont α) α)) (c d : Nat)
      (T S1 : SigmoidLayer true α) (data : List (Node α)) (ins outs : List Shape),
      data.length = c → ins.length = c → outs.length = c →
      T = ⟨S.m_name, data ++ S.m_data, ⟨ins ++ S.m_inputShape.m_buffer⟩,
        ⟨outs ++ S.m_outputShape.m_buffer⟩⟩ →
      LayerCall.Unmatched calls c = some d → T.Run calls = .ok S1 →
      ∃ (data1 : List (Node α)) (ins1 outs1 : List Shape),
        data1.length = d ∧ ins1.length = d ∧ outs1.length = d ∧
        S1 = ⟨S.m_name, data1 ++ S.m_data, ⟨ins1 ++ S.m_inputShape.m_buffer⟩,
          ⟨outs1 ++ S.m_outputShape.m_buffer⟩⟩ := by
  intro calls
  induction calls with
  | nil =>
    intro c d T S1 data ins outs h1 h2 h3 hT hU hR
    simp only [LayerCall.Unmatched, Option.some.injEq] at hU
    simp only [SigmoidLayer.Run, Except.ok.injEq] at hR
    subst hU hR
    exact ⟨data, ins, outs, h1, h2, h3, hT⟩
  | cons call rest ih =>
    intro c d T S1 data ins outs h1 h2 h3 hT hU hR
    cases call with
    | FeedForward p_in =>
      simp only [LayerCall.Unmatched] at hU
      simp only [SigmoidLayer.Run] at hR
      rcases hF : T.FeedForward p_in with ⟨_ | out, T1⟩
      · simp [hF] at hR
      · simp only [hF] at hR
        obtain ⟨y, i, o, hT1⟩ := sigmoid_feedForward_push T p_in out T1 hF
        refine ih (c + 1) d T1 S1 (y :: data) (i :: ins) (o :: outs) (by simp [h1])
          (by simp [h2]) (by simp [h3]) ?_ hU hR
        rw [hT1, hT]
        rfl
    | FeedBackward p_grad =>
      cases c with
      | zero => simp [LayerCall.Unmatched] at hU
      | succ c =>
        simp only [LayerCall.Unmatched] at hU
        simp only [SigmoidLayer.Run] at hR
        rcases hB : T.FeedBackward p_grad with ⟨_ | r, T1⟩
        · simp [hB] at hR
        · simp only [hB] at hR
          obtain ⟨y, i, o, e1, e2, e3, e4⟩ := sigmoid_feedBackward_pop T p_grad r T1 hB
          cases data with
          | nil => simp at h1
          | cons y1 data =>
            cases ins with
            | nil => simp at h2
            | cons i1 ins =>
              cases outs with
              | nil => simp at h3
              | cons o1 outs =>
                refine ih c d T1 S1 data ins outs (by simpa using h1) (by simpa using h2)
                  (by simpa using h3) ?_ hU hR
                subst hT
                simp only [List.cons_append, List.cons.injEq] at e1 e2 e3
                obtain ⟨n1, d1, ⟨b1⟩, ⟨b2⟩⟩ := T1
                simp only at e1 e2 e3 e4
                rw [← e1.2, ← e2.2, ← e3.2, e4]
    | NeutralInvariant =>
      simp only [LayerCall.Unmatched] at hU
      simp only [SigmoidLayer.Run] at hR
      rcases hN : T.NeutralInvariant with _ | u
      · simp [hN] at hR
      · simp only [hN] at hR
        exact ih c d T S1 data ins outs h1 h2 h3 hT hU hR

/-- A history that returns normally and pairs all its calls leaves the layer in the state
it started from. -/
theorem sigmoid_run_balanced (S S1 : SigmoidLayer true α)
    (calls : List (LayerCall (SigmoidLayerInputCont α) α))
    (hU : LayerCall.Unmatched calls 0 = some 0) (hR : S.Run calls = .ok S1) : S1 = S := by
  obtain ⟨data1, ins1, outs1, h1, h2, h3, hS1⟩ :=
    sigmoid_run_extends S calls 0 0 S S1 [] [] [] rfl rfl rfl rfl hU hR
  rw [List.length_eq_zero] at h1 h2 h3
  subst h1 h2 h3
  rw [hS1]
  rfl

/-- A forward call that returns pushes the output node `Sigmoid(x)`, the shape of the
input `x` and the shape of the output. -/
theorem sigmoid_feedForward_push_val (T : SigmoidLayer true α) (p : SigmoidLayerInputCont α)
    (out : LayerOutputCont α) (T1 : SigmoidLayer true α)
    (h : T.FeedForward p = (.ok out, T1)) :
    ∃ x, p.LayerInput = some x ∧ T1 = ⟨T.m_name, Node.Sigmoid x :: T.m_data,
      ⟨x.Shape :: T.m_inputShape.m_buffer⟩,
      ⟨(Node.Sigmoid x).Shape :: T.m_outputShape.m_buffer⟩⟩ := by
  unfold SigmoidLayer.FeedForward at h
  split at h
  · simp at h
  · rename_i val hval
    simp only [if_true, Prod.mk.injEq] at h
    exact ⟨val, hval, h.2.symm⟩

/-- The stacks of a layer hold, top first, the pending forward inputs `xs`: the data stack
their output nodes, the input checker their shapes, the output checker the shapes of
their outputs. A history that returns normally keeps this form, and the number of
pending inputs moves with the forward and backward calls of the history. -/
theorem sigmoid_run_invariant :
    ∀ (calls : List (LayerCall (SigmoidLayerInputCont α) α)) (L L1 : SigmoidLayer true α)
      (xs : List (Node α)),
      L.m_data = xs.map Node.Sigmoid → L.m_inputShape.m_buffer = xs.map Node.Shape →
      L.m_outputShape.m_buffer = xs.map (fun x => (Node.Sigmoid x).Shape) →
      L.Run calls = .ok L1 →
      ∃ xs1 : List (Node α),
        xs1.length + calls.countP LayerCall.IsBackward
          = xs.length + calls.countP LayerCall.IsForward ∧
        L1.m_data = xs1.map Node.Sigmoid ∧ L1.m_inputShape.m_buffer = xs1.map Node.Shape ∧
        L1.m_outputShape.m_buffer = xs1.map (fun x => (Node.Sigmoid x).Shape) := by
  intro calls
  induction calls with
  | nil =>
    intro L L1 xs h1 h2 h3 hR
    simp only [SigmoidLayer.Run, Except.ok.injEq] at hR
    subst hR
    exact ⟨xs, by simp, h1, h2, h3⟩
  | cons call rest ih =>
    intro L L1 xs h1 h2 h3 hR
    cases call with
    | FeedForward p_in =>
      simp only [SigmoidLayer.Run] at hR
      rcases hF : L.FeedForward p_in with ⟨_ | out, T1⟩
      · simp [hF] at hR
      · simp only [hF] at hR
        obtain ⟨x, _, hT1⟩ := sigmoid_feedForward_push_val L p_in out T1 hF
        obtain ⟨xs1, hc, e1, e2, e3⟩ := ih T1 L1 (x :: xs)
          (by rw [hT1]; simp [h1]) (by rw [hT1]; simp [h2]) (by rw [hT1]; simp [h3]) hR
        refine ⟨xs1, ?_, e1, e2, e3⟩
        simp only [List.countP_cons, LayerCall.IsForward, LayerCall.IsBackward,
          List.length_cons] at hc ⊢
        simp at hc ⊢
        omega
    | FeedBackward p_grad =>
      simp only [SigmoidLayer.Run] at hR
      rcases hB : L.FeedBackward p_grad with ⟨_ | r, T1⟩
      · simp [hB] at hR
      · simp only [hB] at hR
        obtain ⟨y, i, o, e1, e2, e3, _⟩ := sigmoid_feedBackward_pop L p_grad r T1 hB
        cases xs with
        | nil => rw [h1] at e1; simp at e1
        | cons x xs =>
          rw [h1] at e1; rw [h2] at e2; rw [h3] at e3
          simp only [List.map_cons, List.cons.injEq] at e1 e2 e3
          obtain ⟨xs1, hc, f1, f2, f3⟩ := ih T1 L1 xs e1.2.symm e2.2.symm e3.2.symm hR
          refine ⟨xs1, ?_, f1, f2, f3⟩
          simp only [List.countP_cons, LayerCall.IsForward, LayerCall.IsBackward,
            List.length_cons] at hc ⊢
          simp at hc ⊢
          omega
    | NeutralInvariant =>
      simp only [SigmoidLayer.Run] at hR
      rcases hN : L.NeutralInvariant with _ | u
      · simp [hN] at hR
      · simp only [hN] at hR
        obtain ⟨xs1, hc, f1, f2, f3⟩ := ih L L1 xs h1 h2 h3 hR
        refine ⟨xs1, ?_, f1, f2, f3⟩
        simp only [List.countP_cons, LayerCall.IsForward, LayerCall.IsBackward] at hc ⊢
        simpa using hc

end SigmoidHistory

/-! ### InterpolateLayer: one forward call and its matching backward call -/

section InterpolateLemmas

variable {α : Type} (SP : Shape → Shape → Shape → Shape)

/-- A forward call with the three inputs set returns the bundle holding the node built by
`FeedForwardCal`. -/
theorem interpolate_feedForward_fst (L : InterpolateLayer true α) (v1 v2 lam : Node α) :
    (L.FeedForward SP (interpIn v1 v2 lam)).1
      = .ok (outGrad (InterpolateLayer.FeedForwardCal SP v1 v2 lam)) := by
  simp [InterpolateLayer.FeedForward, InterpolateLayerInputCont.SetWeight1,
    InterpolateLayerInputCont.SetWeight2, InterpolateLayerInputCont.SetLambda]

/-- The pair a forward call returns, split into its output and its state. -/
theorem interpolate_feedForward_ok (L : InterpolateLayer true α) (v1 v2 lam : Node α) :
    L.FeedForward SP (interpIn v1 v2 lam)
      = (.ok (outGrad (InterpolateLayer.FeedForwardCal SP v1 v2 lam)),
          (L.FeedForward SP (interpIn v1 v2 lam)).2) := by
  rw [← interpolate_feedForward_fst SP L v1 v2 lam]

/-- The node built by `FeedForwardCal` reports the promoted shape. -/
theorem interpolate_feedForwardCal_shape (v1 v2 lam : Node α) :
    (InterpolateLayer.FeedForwardCal SP v1 v2 lam).Shape = SP v1.Shape v2.Shape lam.Shape := by
  simp [InterpolateLayer.FeedForwardCal, Node.Shape]

/-- A backward call right after a forward call, with a gradient of the promoted shape,
returns the three collapsed gradients and restores the state before the forward call. -/
theorem interpolate_feedBackward_feedForward (L : InterpolateLayer true α)
    (v1 v2 lam g : Node α) (h : g.Shape = SP v1.Shape v2.Shape lam.Shape) :
    (L.FeedForward SP (interpIn v1 v2 lam)).2.FeedBackward (outGrad g)
      = (.ok (interpIn
            (.Collapse (.Multiply g (.Duplicate lam g.Shape)) v1.Shape)
            (.Collapse (.Multiply g (.Duplicate (.SubstractFromNum 1 lam) g.Shape)) v2.Shape)
            (.Collapse (.Multiply g
              (.Substract (.Duplicate v1 g.Shape) (.Duplicate v2 g.Shape))) lam.Shape)),
          L) := by
  simp [InterpolateLayer.FeedForward, InterpolateLayer.FeedForwardCal,
    InterpolateLayer.FeedBackward, InterpolateLayerInputCont.SetWeight1,
    InterpolateLayerInputCont.SetWeight2, InterpolateLayerInputCont.SetLambda,
    LayerOutputCont.SetLayerOutput, ShapeChecker.Push, ShapeChecker.CheckAndPop,
    Node.Shape, h]

/-- Backward calls over a concatenated list: first the calls of the first list, then,
if none threw, those of the second. -/
theorem interpolate_feedBackwardSeq_append (L : InterpolateLayer true α)
    (ps qs : List (LayerOutputCont α)) :
    L.FeedBackwardSeq (ps ++ qs) =
      match L.FeedBackwardSeq ps with
      | (.error e, L1) => (.error e, L1)
      | (.ok rs, L1) =>
        match L1.FeedBackwardSeq qs with
        | (.error e, L2) => (.error e, L2)
        | (.ok rs2, L2) => (.ok (rs ++ rs2), L2) := by
  induction ps generalizing L with
  | nil =>
    simp only [List.nil_append, InterpolateLayer.FeedBackwardSeq]
    rcases L.FeedBackwardSeq qs with ⟨_ | _, _⟩ <;> rfl
  | cons p ps ih =>
    rw [List.cons_append, InterpolateLayer.FeedBackwardSeq.eq_2,
      InterpolateLayer.FeedBackwardSeq.eq_2]
    rcases L.FeedBackward p with ⟨_ | r, L1⟩
    · rfl
    · simp only []
      rw [ih L1]
      rcases L1.FeedBackwardSeq ps with ⟨_ | rs, L2⟩
      · rfl
      · simp only []
        rcases L2.FeedBackwardSeq qs with ⟨_ | _, _⟩ <;> rfl

/-- After the forward calls `xs` from any state, the backward calls `gs` whose shapes are
the promoted shapes of `xs` in reverse order all succeed, return the three collapsed
gradients of the paired operands, and bring the layer back to the state it started
from. -/
theorem interpolate_seq_roundtrip (L : InterpolateLayer true α)
    (xs : List (Node α × Node α × Node α)) :
    (L.FeedForwardSeq SP (xs.map fun x => interpIn x.1 x.2.1 x.2.2)).1
      = .ok (xs.map fun x => outGrad (InterpolateLayer.FeedForwardCal SP x.1 x.2.1 x.2.2)) ∧
    ∀ gs : List (Node α),
      gs.map Node.Shape = (xs.map fun x => SP x.1.Shape x.2.1.Shape x.2.2.Shape).reverse →
      (L.FeedForwardSeq SP (xs.map fun x => interpIn x.1 x.2.1 x.2.2)).2.FeedBackwardSeq
          (gs.map outGrad)
        = (.ok (List.zipWith (fun g x => interpIn
              (.Collapse (.Multiply g (.Duplicate x.2.2 g.Shape)) x.1.Shape)
              (.Collapse (.Multiply g (.Duplicate (.SubstractFromNum 1 x.2.2) g.Shape))
                x.2.1.Shape)
              (.Collapse (.Multiply g
                (.Substract (.Duplicate x.1 g.Shape) (.Duplicate x.2.1 g.Shape))) x.2.2.Shape))
            gs xs.reverse), L) := by
  induction xs generalizing L with
  | nil =>
    refine ⟨rfl, ?_⟩
    intro gs hgs
    have : gs = [] := by simpa using hgs
    subst this
    rfl
  | cons x xs ih =>
    obtain ⟨v1, v2, lam⟩ := x
    obtain ⟨ihF, ihB⟩ := ih (L.FeedForward SP (interpIn v1 v2 lam)).2
    have hF : L.FeedForwardSeq SP (((v1, v2, lam) :: xs).map fun x => interpIn x.1 x.2.1 x.2.2)
        = (.ok (((v1, v2, lam) :: xs).map fun x =>
              outGrad (InterpolateLayer.FeedForwardCal SP x.1 x.2.1 x.2.2)),
            ((L.FeedForward SP (interpIn v1 v2 lam)).2.FeedForwardSeq SP
              (xs.map fun x => interpIn x.1 x.2.1 x.2.2)).2) := by
      rw [List.map_cons, InterpolateLayer.FeedForwardSeq,
        interpolate_feedForward_ok SP L v1 v2 lam]
      simp only []
      generalize hR : (L.FeedForward SP (interpIn v1 v2 lam)).2.FeedForwardSeq SP
        (xs.map fun x => interpIn x.1 x.2.1 x.2.2) = R at ihF
      rcases R with ⟨r, L1⟩
      simp only at ihF
      subst ihF
      rfl
    refine ⟨by rw [hF], ?_⟩
    intro gs hgs
    rw [hF]
    simp only [List.map_cons, List.reverse_cons] at hgs
    obtain ⟨gs1, g, rfl, hgs1, hg⟩ := map_eq_append_singleton _ gs _ _ hgs
    have hlen : gs1.length = xs.reverse.length := by
      have := congrArg List.length hgs1
      simpa using this
    rw [List.map_append, interpolate_feedBackwardSeq_append, ihB gs1 hgs1]
    simp only [List.map_singleton, InterpolateLayer.FeedBackwardSeq,
      interpolate_feedBackward_feedForward SP L v1 v2 lam g hg, List.reverse_cons]
    rw [List.zipWith_append _ _ _ _ _ hlen]
    rfl

end InterpolateLemmas

/-! ### InterpolateLayer: call histories -/

section InterpolateHistory

variable {α : Type}

/-- A forward call that returns pushes one entry on each of the seven stacks. -/
theorem interpolate_feedForward_push (SP : Shape → Shape → Shape → Shape)
    (T : InterpolateLayer true α) (p : InterpolateLayerInputCont α)
    (out : LayerOutputCont α) (T1 : InterpolateLayer true α)
    (h : T.FeedForward SP p = (.ok out, T1)) :
    ∃ a b l w1 w2 wl o, T1 = ⟨T.m_name, a :: T.m_input1Stack, b :: T.m_input2Stack,
      l :: T.m_lambdaStack, ⟨w1 :: T.m_weight1Shape.m_buffer⟩,
      ⟨w2 :: T.m_weight2Shape.m_buffer⟩, ⟨wl :: T.m_lambdaShape.m_buffer⟩,
      ⟨o :: T.m_outputShape.m_buffer⟩⟩ := by
  unfold InterpolateLayer.FeedForward at h
  split at h
  · simp only [if_true, Prod.mk.injEq] at h
    exact ⟨_, _, _, _, _, _, _, h.2.symm⟩
  · simp at h

/-- A backward call that returns pops one entry from each of the seven stacks. -/
theorem interpolate_feedBackward_pop (T : InterpolateLayer true α) (p : LayerOutputCont α)
    (r : InterpolateLayerInputCont α) (T1 : InterpolateLayer true α)
    (h : T.FeedBackward p = (.ok r, T1)) :
    ∃ a b l w1 w2 wl o, T = ⟨T1.m_name, a :: T1.m_input1Stack, b :: T1.m_input2Stack,
      l :: T1.m_lambdaStack, ⟨w1 :: T1.m_weight1Shape.m_buffer⟩,
      ⟨w2 :: T1.m_weight2Shape.m_buffer⟩, ⟨wl :: T1.m_lambdaShape.m_buffer⟩,
      ⟨o :: T1.m_outputShape.m_buffer⟩⟩ := by
  obtain ⟨name, s1, s2, sl, ⟨w1⟩, ⟨w2⟩, ⟨wl⟩, ⟨os⟩⟩ := T
  rcases s1 with _ | ⟨a, s1⟩
  · simp [InterpolateLayer.FeedBackward] at h
  rcases s2 with _ | ⟨b, s2⟩
  · simp [InterpolateLayer.FeedBackward] at h
  rcases sl with _ | ⟨l, sl⟩
  · simp [InterpolateLayer.FeedBackward] at h
  cases hp : p.LayerOutput with
  | none => simp [InterpolateLayer.FeedBackward, hp] at h
  | some grad =>
    simp only [InterpolateLayer.FeedBackward, if_true, hp, ShapeChecker.CheckAndPop] at h
    rcases os with _ | ⟨o, os⟩
    · simp at h
    · rcases w1 with _ | ⟨x1, w1⟩
      · by_cases c0 : o = grad.Shape <;> simp [c0] at h
      · rcases w2 with _ | ⟨x2, w2⟩
        · by_cases c0 : o = grad.Shape <;> by_cases c1 : x1 = a.Shape <;>
            simp [c0, c1, Node.Shape] at h
        · rcases wl with _ | ⟨xl, wl⟩
          · by_cases c0 : o = grad.Shape <;> by_cases c1 : x1 = a.Shape <;>
              by_cases c2 : x2 = b.Shape <;> simp [c0, c1, c2, Node.Shape] at h
          · by_cases c0 : o = grad.Shape <;> by_cases c1 : x1 = a.Shape <;>
              by_cases c2 : x2 = b.Shape <;> by_cases c3 : xl = l.Shape <;>
              simp [c0, c1, c2, c3, Node.Shape] at h
            obtain ⟨_, h⟩ := h
            subst h
            exact ⟨_, _, _, _, _, _, _, rfl⟩

/-- A history that returns normally, started with `c` entries on top of the stacks of `S`
and never matching a backward call below them, ends with as many entries on top of the
stacks of `S` as it leaves forward calls unmatched. -/
theorem interpolate_run_extends (SP : Shape → Shape → Shape → Shape)
    (S : InterpolateLayer true α) :
    ∀ (calls : List (LayerCall (InterpolateLayerInputCont α) α)) (c d : Nat)
      (T S1 : InterpolateLayer true α) (a b l : List (Node α)) (w1 w2 wl o : List Shape),
      (a.length = c ∧ b.length = c ∧ l.length = c ∧ w1.length = c ∧ w2.length = c ∧
        wl.length = c ∧ o.length = c) →
      T = ⟨S.m_name, a ++ S.m_input1Stack, b ++ S.m_input2Stack, l ++ S.m_lambdaStack,
        ⟨w1 ++ S.m_weight1Shape.m_buffer⟩, ⟨w2 ++ S.m_weight2Shape.m_buffer⟩,
        ⟨wl ++ S.m_lambdaShape.m_buffer⟩, ⟨o ++ S.m_outputShape.m_buffer⟩⟩ →
      LayerCall.Unmatched calls c = some d → T.Run SP calls = .ok S1 →
      ∃ (a1 b1 l1 : List (Node α)) (x1 x2 xl o1 : List Shape),
        (a1.length = d ∧ b1.length = d ∧ l1.length = d ∧ x1.length = d ∧ x2.length = d ∧
          xl.length = d ∧ o1.length = d) ∧
        S1 = ⟨S.m_name, a1 ++ S.m_input1Stack, b1 ++ S.m_input2Stack, l1 ++ S.m_lambdaStack,
          ⟨x1 ++ S.m_weight1Shape.m_buffer⟩, ⟨x2 ++ S.m_weight2Shape.m_buffer⟩,
          ⟨xl ++ S.m_lambdaShape.m_buffer⟩, ⟨o1 ++ S.m_outputShape.m_buffer⟩⟩ := by
  intro calls
  induction calls with
  | nil =>
    intro c d T S1 a b l w1 w2 wl o hlen hT hU hR
    simp only [LayerCall.Unmatched, Option.some.injEq] at hU
    simp only [InterpolateLayer.Run, Except.ok.injEq] at hR
    subst hU hR
    exact ⟨a, b, l, w1, w2, wl, o, hlen, hT⟩
  | cons call rest ih =>
    intro c d T S1 a b l w1 w2 wl o hlen hT hU hR
    cases call with
    | FeedForward p_in =>
      simp only [LayerCall.Unmatched] at hU
      simp only [InterpolateLayer.Run] at hR
      rcases hF : T.FeedForward SP p_in with ⟨_ | out, T1⟩
      · simp [hF] at hR
      · simp only [hF] at hR
        obtain ⟨a0, b0, l0, y1, y2, yl, o0, hT1⟩ :=
          interpolate_feedForward_push SP T p_in out T1 hF
        refine ih (c + 1) d T1 S1 (a0 :: a) (b0 :: b) (l0 :: l) (y1 :: w1) (y2 :: w2)
          (yl :: wl) (o0 :: o) (by simpa using hlen) ?_ hU hR
        rw [hT1, hT]
        rfl
    | FeedBackward p_grad =>
      cases c with
      | zero => simp [LayerCall.Unmatched] at hU
      | succ c =>
        simp only [LayerCall.Unmatched] at hU
        simp only [InterpolateLayer.Run] at hR
        rcases hB : T.FeedBackward p_grad with ⟨_ | r, T1⟩
        · simp [hB] at hR
        · simp only [hB] at hR
          obtain ⟨a0, b0, l0, y1, y2, yl, o0, hT1⟩ :=
            interpolate_feedBackward_pop T p_grad r T1 hB
          obtain ⟨ha, hb, hl, h1, h2, h3, ho⟩ := hlen
          rcases a with _ | ⟨a1, a⟩
          · simp at ha
          rcases b with _ | ⟨b1, b⟩
          · simp at hb
          rcases l with _ | ⟨l1, l⟩
          · simp at hl
          rcases w1 with _ | ⟨x1, w1⟩
          · simp at h1
          rcases w2 with _ | ⟨x2, w2⟩
          · simp at h2
          rcases wl with _ | ⟨xl, wl⟩
          · simp at h3
          rcases o with _ | ⟨o1, o⟩
          · simp at ho
          refine ih c d T1 S1 a b l w1 w2 wl o
            ⟨by simpa using ha, by simpa using hb, by simpa using hl, by simpa using h1,
              by simpa using h2, by simpa using h3, by simpa using ho⟩ ?_ hU hR
          rw [hT] at hT1
          obtain ⟨n1, d1, d2, d3, ⟨c1⟩, ⟨c2⟩, ⟨c3⟩, ⟨c4⟩⟩ := T1
          simp only [List.cons_append, InterpolateLayer.mk.injEq, List.cons.injEq,
            ShapeChecker.mk.injEq] at hT1
          obtain ⟨e0, e1, e2, e3, e4, e5, e6, e7⟩ := hT1
          rw [e0, ← e1.2, ← e2.2, ← e3.2, ← e4.2, ← e5.2, ← e6.2, ← e7.2]
    | NeutralInvariant =>
      simp only [LayerCall.Unmatched] at hU
      simp only [InterpolateLayer.Run] at hR
      rcases hN : T.NeutralInvariant with _ | u
      · simp [hN] at hR
      · simp only [hN] at hR
        exact ih c d T S1 a b l w1 w2 wl o hlen hT hU hR

/-- A history that returns normally and pairs all its calls leaves the layer in the state
it started from. -/
theorem interpolate_run_balanced (SP : Shape → Shape → Shape → Shape)
    (S S1 : InterpolateLayer true α)
    (calls : List (LayerCall (InterpolateLayerInputCont α) α))
    (hU : LayerCall.Unmatched calls 0 = some 0) (hR : S.Run SP calls = .ok S1) : S1 = S := by
  obtain ⟨a1, b1, l1, x1, x2, xl, o1, ⟨h1, h2, h3, h4, h5, h6, h7⟩, hS1⟩ :=
    interpolate_run_extends SP S calls 0 0 S S1 [] [] [] [] [] [] []
      ⟨rfl, rfl, rfl, rfl, rfl, rfl, rfl⟩ rfl hU hR
  rw [List.length_eq_zero] at h1 h2 h3 h4 h5 h6 h7
  subst h1 h2 h3 h4 h5 h6 h7
  rw [hS1]
  rfl

/-- A forward call that returns pushes the three operands themselves, their shapes and
the shape of the output. -/
theorem interpolate_feedForward_push_val (SP : Shape → Shape → Shape → Shape)
    (T : InterpolateLayer true α) (p : InterpolateLayerInputCont α)
    (out : LayerOutputCont α) (T1 : InterpolateLayer true α)
    (h : T.FeedForward SP p = (.ok out, T1)) :
    ∃ v1 v2 lam, T1 = ⟨T.m_name, v1 :: T.m_input1Stack, v2 :: T.m_input2Stack,
      lam :: T.m_lambdaStack, ⟨v1.Shape :: T.m_weight1Shape.m_buffer⟩,
      ⟨v2.Shape :: T.m_weight2Shape.m_buffer⟩, ⟨lam.Shape :: T.m_lambdaShape.m_buffer⟩,
      ⟨(InterpolateLayer.FeedForwardCal SP v1 v2 lam).Shape :: T.m_outputShape.m_buffer⟩⟩ := by
  unfold InterpolateLayer.FeedForward at h
  split at h
  · rename_i v1 v2 lam _ _ _
    simp only [if_true, Prod.mk.injEq] at h
    exact ⟨v1, v2, lam, h.2.symm⟩
  · simp at h

/-- The stacks of a layer hold, top first, the pending operand triples `ts`: the data
stacks the operands, the three input-side checkers their shapes, the output checker the
shapes of the outputs. A history that returns normally keeps this form, and the number
of pending triples moves with the forward and backward calls of the history. -/
theorem interpolate_run_invariant (SP : Shape → Shape → Shape → Shape) :
    ∀ (calls : List (LayerCall (InterpolateLayerInputCont α) α))
      (L L1 : InterpolateLayer true α) (ts : List (Node α × Node α × Node α)),
      (L.m_input1Stack = ts.map (fun t => t.1) ∧ L.m_input2Stack = ts.map (fun t => t.2.1) ∧
        L.m_lambdaStack = ts.map (fun t => t.2.2) ∧
        L.m_weight1Shape.m_buffer = ts.map (fun t => t.1.Shape) ∧
        L.m_weight2Shape.m_buffer = ts.map (fun t => t.2.1.Shape) ∧
        L.m_lambdaShape.m_buffer = ts.map (fun t => t.2.2.Shape) ∧
        L.m_outputShape.m_buffer
          = ts.map (fun t => (InterpolateLayer.FeedForwardCal SP t.1 t.2.1 t.2.2).Shape)) →
      L.Run SP calls = .ok L1 →
      ∃ ts1 : List (Node α × Node α × Node α),
        ts1.length + calls.countP LayerCall.IsBackward
          = ts.length + calls.countP LayerCall.IsForward ∧
        L1.m_input1Stack = ts1.map (fun t => t.1) ∧
        L1.m_input2Stack = ts1.map (fun t => t.2.1) ∧
        L1.m_lambdaStack = ts1.map (fun t => t.2.2) ∧
        L1.m_weight1Shape.m_buffer = ts1.map (fun t => t.1.Shape) ∧
        L1.m_weight2Shape.m_buffer = ts1.map (fun t => t.2.1.Shape) ∧
        L1.m_lambdaShape.m_buffer = ts1.map (fun t => t.2.2.Shape) ∧
        L1.m_outputShape.m_buffer
          = ts1.map (fun t => (InterpolateLayer.FeedForwardCal SP t.1 t.2.1 t.2.2).Shape) := by
  intro calls
  induction calls with
  | nil =>
    intro L L1 ts hinv hR
    simp only [InterpolateLayer.Run, Except.ok.injEq] at hR
    subst hR
    exact ⟨ts, by simp, hinv⟩
  | cons call rest ih =>
    intro L L1 ts hinv hR
    obtain ⟨h1, h2, h3, h4, h5, h6, h7⟩ := hinv
    cases call with
    | FeedForward p_in =>
      simp only [InterpolateLayer.Run] at hR
      rcases hF : L.FeedForward SP p_in with ⟨_ | out, T1⟩
      · simp [hF] at hR
      · simp only [hF] at hR
        obtain ⟨v1, v2, lam, hT1⟩ := interpolate_feedForward_push_val SP L p_in out T1 hF
        obtain ⟨ts1, hc, e⟩ := ih T1 L1 ((v1, v2, lam) :: ts)
          (by rw [hT1]; simp [h1, h2, h3, h4, h5, h6, h7]) hR
        refine ⟨ts1, ?_, e⟩
        simp only [List.countP_cons, LayerCall.IsForward, LayerCall.IsBackward,
          List.length_cons] at hc ⊢
        simp at hc ⊢
        omega
    | FeedBackward p_grad =>
      simp only [InterpolateLayer.Run] at hR
      rcases hB : L.FeedBackward p_grad with ⟨_ | r, T1⟩
      · simp [hB] at hR
      · simp only [hB] at hR
        obtain ⟨a0, b0, l0, y1, y2, yl, o0, hT⟩ :=
          interpolate_feedBackward_pop L p_grad r T1 hB
        cases ts with
        | nil => rw [hT] at h1; simp at h1
        | cons t ts =>
          rw [hT] at h1 h2 h3 h4 h5 h6 h7
          simp only [List.map_cons, List.cons.injEq] at h1 h2 h3 h4 h5 h6 h7
          obtain ⟨ts1, hc, e⟩ := ih T1 L1 ts
            ⟨h1.2, h2.2, h3.2, h4.2, h5.2, h6.2, h7.2⟩ hR
          refine ⟨ts1, ?_, e⟩
          simp only [List.countP_cons, LayerCall.IsForward, LayerCall.IsBackward,
            List.length_cons] at hc ⊢
          simp at hc ⊢
          omega
    | NeutralInvariant =>
      simp only [InterpolateLayer.Run] at hR
      rcases hN : L.NeutralInvariant with _ | u
      · simp [hN] at hR
      · simp only [hN] at hR
        obtain ⟨ts1, hc, e⟩ := ih L L1 ts ⟨h1, h2, h3, h4, h5, h6, h7⟩ hR
        refine ⟨ts1, ?_, e⟩
        simp only [List.countP_cons, LayerCall.IsForward, LayerCall.IsBackward] at hc ⊢
        simpa using hc

end InterpolateHistory

/-! ### The SigmoidGrad evaluation unit -/

section EvalLemmas

variable {α : Type}

/-- A raw read below the end of the buffer returns the cell. -/
theorem RawRead_of_lt (mem : List α) (i : Nat) (h : i < mem.length) :
    RawRead mem i = .ok (mem.get ⟨i, h⟩) ∧ mem[i]? = some (mem.get ⟨i, h⟩) := by
  have : mem[i]? = some (mem.get ⟨i, h⟩) := by simp [List.getElem?_eq_getElem h]
  exact ⟨by simp [RawRead, this], this⟩

/-- The loop of the SigmoidGrad unit, entered at index `i` with `n` iterations to go on an
Allocated output whose buffer, like both operand buffers, has at least `i + n` cells:
it ends normally, writes `g * y * (1 - y)` to the cells `i .. i + n - 1`, keeps the cells
below `i`, the shape, every other handle, and logs one write per index in order. -/
theorem sigmoidGrad_evalLoop_spec [Mul α] [Sub α] [One α]
    (mg mi : List α) (h : Nat) (n : Nat) :
    ∀ (i : Nat) (st : EvalState α) (t : Tensor α), st.handles h = .Allocated t →
      i + n ≤ t.mem.length → i + n ≤ mg.length → i + n ≤ mi.length →
      ∃ st1 mem1, OperSigmoidGrad.EvalUnit.EvalLoop mg mi h n i st = .ok st1 ∧
        st1.handles h = .Allocated ⟨t.shape, mem1⟩ ∧ mem1.length = t.mem.length ∧
        (∀ j, i ≤ j → j < i + n →
          ∃ g y, mg[j]? = some g ∧ mi[j]? = some y ∧ mem1[j]? = some (g * y * (1 - y))) ∧
        (∀ j, j < i → mem1[j]? = t.mem[j]?) ∧
        (∀ p, p ≠ h → st1.handles p = st.handles p) ∧
        st1.log = st.log ++ (List.range' i n).map (Event.Write h) := by
  induction n with
  | zero =>
    intro i st t hst _ _ _
    refine ⟨st, t.mem, rfl, ?_, rfl, ?_, ?_, ?_, ?_⟩
    · rw [hst]
    · intro j h1 h2; omega
    · intro j _; rfl
    · intro p _; rfl
    · simp
  | succ n ih =>
    intro i st t hst ht hg hi
    have hgi : i < mg.length := by omega
    have hii : i < mi.length := by omega
    have hti : i < t.mem.length := by omega
    obtain ⟨rg, eg⟩ := RawRead_of_lt mg i hgi
    obtain ⟨ri, ei⟩ := RawRead_of_lt mi i hii
    let v : α := mg.get ⟨i, hgi⟩ * mi.get ⟨i, hii⟩ * (1 - mi.get ⟨i, hii⟩)
    let st1 : EvalState α :=
      { handles := fun p =>
          if p = h then .Allocated { t with mem := t.mem.set i v } else st.handles p
        log := st.log ++ [.Write h i] }
    have hw : EvalHandle.RawWrite st h i v = .ok st1 := by
      simp only [EvalHandle.RawWrite, hst, hti, if_true]
    have hst1 : st1.handles h = .Allocated { t with mem := t.mem.set i v } := by
      simp [st1]
    obtain ⟨st2, mem2, hrun, hh, hlen, hcomp, hlow, hoth, hlog⟩ :=
      ih (i + 1) st1 { t with mem := t.mem.set i v } hst1
        (by simp only [List.length_set]; omega) (by omega) (by omega)
    refine ⟨st2, mem2, ?_, hh, ?_, ?_, ?_, ?_, ?_⟩
    · rw [OperSigmoidGrad.EvalUnit.EvalLoop, rg, ri]
      simp only []
      rw [hw]
      exact hrun
    · simpa using hlen
    · intro j h1 h2
      rcases Nat.eq_or_lt_of_le h1 with rfl | hlt
      · refine ⟨_, _, eg, ei, ?_⟩
        rw [hlow i (by omega)]
        simp [v, List.getElem?_set, hti]
      · exact hcomp j (by omega) (by omega)
    · intro j hj
      rw [hlow j (by omega)]
      simp only [List.getElem?_set]
      rw [if_neg (by omega)]
    · intro p hp
      rw [hoth p hp]
      simp [st1, hp]
    · rw [hlog]
      simp [st1, List.range'_succ]

/-- One run of `Eval` of the SigmoidGrad unit on Evaluated operands of equal shape whose
buffers have `Count` cells, with an Unallocated output handle: the run ends normally, the
output handle is Evaluated with the shape of the gradient and the cells
`grad[j] * in[j] * (1 - in[j])`, no other handle changes, and the log grows by the two
reads, `Allocate`, `MutableData`, one write per index in order, and `SetEval`. -/
theorem sigmoidGrad_eval_spec [Inhabited α] [Mul α] [Sub α] [One α]
    (u : OperSigmoidGrad.EvalUnit) (st : EvalState α) (G Y : Tensor α)
    (hG : st.handles u.m_gradHandle = .Evaluated G)
    (hY : st.handles u.m_inputHandle = .Evaluated Y)
    (hO : st.handles u.m_outputHandle = .Unallocated)
    (hshape : G.shape = Y.shape)
    (hGn : G.mem.length = G.shape.Count) (hYn : Y.mem.length = Y.shape.Count) :
    ∃ st1 mem1, u.Eval st = .ok st1 ∧
      st1.handles u.m_outputHandle = .Evaluated ⟨G.shape, mem1⟩ ∧
      mem1.length = G.shape.Count ∧
      (∀ j, j < G.shape.Count →
        ∃ g y, G.mem[j]? = some g ∧ Y.mem[j]? = some y ∧ mem1[j]? = some (g * y * (1 - y))) ∧
      (∀ p, p ≠ u.m_outputHandle → st1.handles p = st.handles p) ∧
      st1.log = st.log ++ [.Data u.m_gradHandle, .Data u.m_inputHandle,
          .Allocate u.m_outputHandle G.shape, .MutableData u.m_outputHandle]
        ++ (List.range' 0 G.shape.Count).map (Event.Write u.m_outputHandle)
        ++ [.SetEval u.m_outputHandle] := by
  obtain ⟨gshape, gmem⟩ := G
  obtain ⟨yshape, ymem⟩ := Y
  simp only at hshape hGn hYn
  subst hshape
  let out0 : Tensor α := ⟨gshape, List.replicate gshape.Count default⟩
  let st4 : EvalState α :=
    { handles := fun p => if p = u.m_outputHandle then .Allocated out0 else st.handles p
      log := st.log ++ [.Data u.m_gradHandle] ++ [.Data u.m_inputHandle]
        ++ [.Allocate u.m_outputHandle gshape] ++ [.MutableData u.m_outputHandle] }
  have h4 : st4.handles u.m_outputHandle = .Allocated out0 := by simp [st4]
  obtain ⟨st5, mem5, hrun, hh, hlen, hcomp, _, hoth, hlog⟩ :=
    sigmoidGrad_evalLoop_spec gmem ymem u.m_outputHandle gshape.Count 0 st4 out0
      h4 (by simp [out0]) (by omega) (by omega)
  refine ⟨{ handles := fun p =>
              if p = u.m_outputHandle then .Evaluated ⟨gshape, mem5⟩ else st5.handles p
            log := st5.log ++ [.SetEval u.m_outputHandle] }, mem5, ?_, ?_, ?_, ?_, ?_, ?_⟩
  · simp only [OperSigmoidGrad.EvalUnit.Eval, EvalHandle.Data, hG, hY,
      EvalHandle.Allocate, hO, EvalHandle.MutableData, ne_eq, not_true_eq_false, if_false,
      if_true]
    simp only [st4, out0] at hrun
    rw [hrun]
    simp only [EvalHandle.SetEval, hh]
  · simp
  · simpa [out0] using hlen
  · intro j hj
    exact hcomp j (Nat.zero_le j) (by simpa using hj)
  · intro p hp
    simp only [hp, if_false]
    rw [hoth p hp]
    simp [st4, hp]
  · simp [hlog, st4]

/-- The loop of the Negative unit, entered at index `i` with `n` iterations to go on an
Allocated output whose buffer, like the input buffer, has at least `i + n` cells: it ends
normally, writes `-x` to the cells `i .. i + n - 1`, keeps the cells below `i`, the shape,
every other handle, and logs one write per index in order. -/
theorem negative_evalLoop_spec [Neg α] (mi : List α) (h : Nat) (n : Nat) :
    ∀ (i : Nat) (st : EvalState α) (t : Tensor α), st.handles h = .Allocated t →
      i + n ≤ t.mem.length → i + n ≤ mi.length →
      ∃ st1 mem1, OperNegative.EvalUnit.EvalLoop mi h n i st = .ok st1 ∧
        st1.handles h = .Allocated ⟨t.shape, mem1⟩ ∧ mem1.length = t.mem.length ∧
        (∀ j, i ≤ j → j < i + n → ∃ x, mi[j]? = some x ∧ mem1[j]? = some (-x)) ∧
        (∀ j, j < i → mem1[j]? = t.mem[j]?) ∧
        (∀ p, p ≠ h → st1.handles p = st.handles p) ∧
        st1.log = st.log ++ (List.range' i n).map (Event.Write h) := by
  induction n with
  | zero =>
    intro i st t hst _ _
    refine ⟨st, t.mem, rfl, ?_, rfl, ?_, ?_, ?_, ?_⟩
    · rw [hst]
    · intro j h1 h2; omega
    · intro j _; rfl
    · intro p _; rfl
    · simp
  | succ n ih =>
    intro i st t hst ht hi
    have hii : i < mi.length := by omega
    have hti : i < t.mem.length := by omega
    obtain ⟨ri, ei⟩ := RawRead_of_lt mi i hii
    let v : α := -(mi.get ⟨i, hii⟩)
    let st1 : EvalState α :=
      { handles := fun p =>
          if p = h then .Allocated { t with mem := t.mem.set i v } else st.handles p
        log := st.log ++ [.Write h i] }
    have hw : EvalHandle.RawWrite st h i v = .ok st1 := by
      simp only [EvalHandle.RawWrite, hst, hti, if_true]
    have hst1 : st1.handles h = .Allocated { t with mem := t.mem.set i v } := by
      simp [st1]
    obtain ⟨st2, mem2, hrun, hh, hlen, hcomp, hlow, hoth, hlog⟩ :=
      ih (i + 1) st1 { t with mem := t.mem.set i v } hst1
        (by simp only [List.length_set]; omega) (by omega)
    refine ⟨st2, mem2, ?_, hh, ?_, ?_, ?_, ?_, ?_⟩
    · rw [OperNegative.EvalUnit.EvalLoop, ri]
      simp only []
      rw [hw]
      exact hrun
    · simpa using hlen
    · intro j h1 h2
      rcases Nat.eq_or_lt_of_le h1 with rfl | hlt
      · refine ⟨_, ei, ?_⟩
        rw [hlow i (by omega)]
        simp [v, List.getElem?_set, hti]
      · exact hcomp j (by omega) (by omega)
    · intro j hj
      rw [hlow j (by omega)]
      simp only [List.getElem?_set]
      rw [if_neg (by omega)]
    · intro p hp
      rw [hoth p hp]
      simp [st1, hp]
    · rw [hlog]
      simp [st1, List.range'_succ]

/-- One run of `Eval` of the Negative unit on an Evaluated input whose buffer has `Count`
cells, with an Unallocated output handle: the run ends normally, the output handle is
Evaluated with the shape of the input and the cells `-in[j]`, no other handle changes, and
the log grows by the read, `Allocate`, `MutableData`, one write per index in order, and
`SetEval`. -/
theorem negative_eval_spec [Inhabited α] [Neg α]
    (u : OperNegative.EvalUnit) (st : EvalState α) (X : Tensor α)
    (hX : st.handles u.m_inputHandle = .Evaluated X)
    (hO : st.handles u.m_outputHandle = .Unallocated)
    (hXn : X.mem.length = X.shape.Count) :
    ∃ st1 mem1, u.Eval st = .ok st1 ∧
      st1.handles u.m_outputHandle = .Evaluated ⟨X.shape, mem1⟩ ∧
      mem1.length = X.shape.Count ∧
      (∀ j, j < X.shape.Count → ∃ x, X.mem[j]? = some x ∧ mem1[j]? = some (-x)) ∧
      (∀ p, p ≠ u.m_outputHandle → st1.handles p = st.handles p) ∧
      st1.log = st.log ++ [.Data u.m_inputHandle,
          .Allocate u.m_outputHandle X.shape, .MutableData u.m_outputHandle]
        ++ (List.range' 0 X.shape.Count).map (Event.Write u.m_outputHandle)
        ++ [.SetEval u.m_outputHandle] := by
  obtain ⟨xshape, xmem⟩ := X
  simp only at hXn
  let out0 : Tensor α := ⟨xshape, List.replicate xshape.Count default⟩
  let st3 : EvalState α :=
    { handles := fun p => if p = u.m_outputHandle then .Allocated out0 else st.handles p
      log := st.log ++ [.Data u.m_inputHandle]
        ++ [.Allocate u.m_outputHandle xshape] ++ [.MutableData u.m_outputHandle] }
  have h3 : st3.handles u.m_outputHandle = .Allocated out0 := by simp [st3]
  obtain ⟨st4, mem4, hrun, hh, hlen, hcomp, _, hoth, hlog⟩ :=
    negative_evalLoop_spec xmem u.m_outputHandle xshape.Count 0 st3 out0
      h3 (by simp [out0]) (by omega)
  refine ⟨{ handles := fun p =>
              if p = u.m_outputHandle then .Evaluated ⟨xshape, mem4⟩ else st4.handles p
            log := st4.log ++ [.SetEval u.m_outputHandle] }, mem4, ?_, ?_, ?_, ?_, ?_, ?_⟩
  · simp only [OperNegative.EvalUnit.Eval, EvalHandle.Data, hX,
      EvalHandle.Allocate, hO, EvalHandle.MutableData, ne_eq, not_true_eq_false, if_false,
      if_true]
    simp only [st3, out0] at hrun
    rw [hrun]
    simp only [EvalHandle.SetEval, hh]
  · simp
  · simpa [out0] using hlen
  · intro j hj
    exact hcomp j (Nat.zero_le j) (by simpa using hj)
  · intro p hp
    simp only [hp, if_false]
    rw [hoth p hp]
    simp [st3, hp]
  · simp [hlog, st3]

/-- With an output handle that is not Unallocated, or an operand that is not Evaluated,
the SigmoidGrad unit stops at a handle operation: it never reaches an assertion or a raw
memory access with operands of equal shape. -/
theorem sigmoidGrad_eval_no_assert [Inhabited α] [Mul α] [Sub α] [One α]
    (u : OperSigmoidGrad.EvalUnit) (st : EvalState α) (G Y : Tensor α)
    (hG : st.handles u.m_gradHandle = .Evaluated G)
    (hY : st.handles u.m_inputHandle = .Evaluated Y)
    (hshape : G.shape = Y.shape)
    (hGn : G.mem.length = G.shape.Count) (hYn : Y.mem.length = Y.shape.Count) :
    u.Eval st ≠ .error .assertion ∧ u.Eval st ≠ .error .rawMemory := by
  cases hO : st.handles u.m_outputHandle with
  | Unallocated =>
    obtain ⟨st1, mem1, hrun, _⟩ := sigmoidGrad_eval_spec u st G Y hG hY hO hshape hGn hYn
    rw [hrun]
    exact ⟨by simp, by simp⟩
  | Allocated t =>
    have : u.Eval st = .error .handleState := by
      simp [OperSigmoidGrad.EvalUnit.Eval, EvalHandle.Data, hG, hY, hshape,
        EvalHandle.Allocate, hO]
    rw [this]
    exact ⟨by simp, by simp⟩
  | Evaluated t =>
    have : u.Eval st = .error .handleState := by
      simp [OperSigmoidGrad.EvalUnit.Eval, EvalHandle.Data, hG, hY, hshape,
        EvalHandle.Allocate, hO]
    rw [this]
    exact ⟨by simp, by simp⟩

/-- With an output handle that is not Unallocated the Negative unit stops at `Allocate`:
it never reaches its assertion or a raw memory access. -/
theorem negative_eval_no_assert [Inhabited α] [Neg α]
    (u : OperNegative.EvalUnit) (st : EvalState α) (X : Tensor α)
    (hX : st.handles u.m_inputHandle = .Evaluated X)
    (hXn : X.mem.length = X.shape.Count) :
    u.Eval st ≠ .error .assertion ∧ u.Eval st ≠ .error .rawMemory := by
  cases hO : st.handles u.m_outputHandle with
  | Unallocated =>
    obtain ⟨st1, mem1, hrun, _⟩ := negative_eval_spec u st X hX hO hXn
    rw [hrun]
    exact ⟨by simp, by simp⟩
  | Allocated t =>
    have : u.Eval st = .error .handleState := by
      simp [OperNegative.EvalUnit.Eval, EvalHandle.Data, hX, EvalHandle.Allocate, hO]
    rw [this]
    exact ⟨by simp, by simp⟩
  | Evaluated t =>
    have : u.Eval st = .error .handleState := by
      simp [OperNegative.EvalUnit.Eval, EvalHandle.Data, hX, EvalHandle.Allocate, hO]
    rw [this]
    exact ⟨by simp, by simp⟩

end EvalLemmas

/-! ### Evaluation plan -/

section PlanLemmas

variable {α : Type}

/-- A plan has no producer for an identity exactly when no row carries it. -/
theorem hasProducer_eq_false_iff (p : EvalPlan α) (d : Nat) :
    p.HasProducer d = false ↔ p.m_entries.filter (fun e => e.dataPtr == d) = [] := by
  simp [EvalPlan.HasProducer, List.filter_eq_nil_iff]

/-- The effect of `Calculator::EvalRegister` on a SigmoidGrad node: both operands are
registered, then the unit over their handles is offered to the plan. -/
theorem evalRegister_eq [Inhabited α] [Mul α] [Sub α] [One α]
    (reg : Node α → EvalPlan α → Nat × EvalPlan α) (evalRes : Nat) (g y : Node α)
    (p : EvalPlan α) :
    OperSigmoidGrad.Calculator.EvalRegister reg evalRes (.SigmoidGrad g y) p
      = (reg y (reg g p).2).2.Register
          (OperSigmoidGrad.EvalUnit.Eval ⟨(reg g p).1, (reg y (reg g p).2).1, evalRes⟩)
          evalRes [(reg g p).1, (reg y (reg g p).2).1] := by
  simp only [OperSigmoidGrad.Calculator.EvalRegister, Node.GetOperand]

/-- One registration: without a row for the output identity one row is added, with one
row already there nothing changes for that identity. -/
theorem evalRegister_filter [Inhabited α] [Mul α] [Sub α] [One α]
    (reg : Node α → EvalPlan α → Nat × EvalPlan α) (evalRes : Nat) (g y : Node α)
    (hA2 : ∀ node p, (reg node p).2.m_entries.filter (fun e => e.dataPtr == evalRes)
      = p.m_entries.filter (fun e => e.dataPtr == evalRes))
    (p : EvalPlan α) :
    (p.m_entries.filter (fun e => e.dataPtr == evalRes) = [] →
      (OperSigmoidGrad.Calculator.EvalRegister reg evalRes (.SigmoidGrad g y) p).m_entries.filter
          (fun e => e.dataPtr == evalRes)
        = [⟨OperSigmoidGrad.EvalUnit.Eval ⟨(reg g p).1, (reg y (reg g p).2).1, evalRes⟩,
            evalRes, [(reg g p).1, (reg y (reg g p).2).1]⟩]) ∧
    (∀ e, p.m_entries.filter (fun e => e.dataPtr == evalRes) = [e] →
      (OperSigmoidGrad.Calculator.EvalRegister reg evalRes (.SigmoidGrad g y) p).m_entries.filter
          (fun e => e.dataPtr == evalRes) = [e]) := by
  have hq : (reg y (reg g p).2).2.m_entries.filter (fun e => e.dataPtr == evalRes)
      = p.m_entries.filter (fun e => e.dataPtr == evalRes) := by rw [hA2, hA2]
  constructor
  · intro h
    rw [evalRegister_eq]
    have hp : (reg y (reg g p).2).2.HasProducer evalRes = false := by
      rw [hasProducer_eq_false_iff, hq, h]
    simp [EvalPlan.Register, hp, List.filter_append, hq, h]
  · intro e h
    rw [evalRegister_eq]
    have hp : (reg y (reg g p).2).2.HasProducer evalRes = true := by
      cases hc : (reg y (reg g p).2).2.HasProducer evalRes with
      | true => rfl
      | false => rw [hasProducer_eq_false_iff, hq, h] at hc; simp at hc
    simp [EvalPlan.Register, hp, hq, h]

/-- After one or more registrations the plan has exactly the row of the first one for the
output identity. -/
theorem evalRegister_iterate_filter [Inhabited α] [Mul α] [Sub α] [One α]
    (reg : Node α → EvalPlan α → Nat × EvalPlan α) (evalRes : Nat) (g y : Node α)
    (hA2 : ∀ node p, (reg node p).2.m_entries.filter (fun e => e.dataPtr == evalRes)
      = p.m_entries.filter (fun e => e.dataPtr == evalRes))
    (plan0 : EvalPlan α) (hA1 : plan0.HasProducer evalRes = false) (n : Nat) :
    ((OperSigmoidGrad.Calculator.EvalRegister reg evalRes (.SigmoidGrad g y))^[n + 1]
        plan0).m_entries.filter (fun e => e.dataPtr == evalRes)
      = [⟨OperSigmoidGrad.EvalUnit.Eval
            ⟨(reg g plan0).1, (reg y (reg g plan0).2).1, evalRes⟩,
          evalRes, [(reg g plan0).1, (reg y (reg g plan0).2).1]⟩] := by
  induction n with
  | zero =>
    rw [hasProducer_eq_false_iff] at hA1
    exact (evalRegister_filter reg evalRes g y hA2 plan0).1 hA1
  | succ n ih =>
    rw [Function.iterate_succ_apply']
    exact (evalRegister_filter reg evalRes g y hA2 _).2 _ ih

/-- The first element that passes a test is the head of the filtered list. -/
theorem find_of_filter_cons {β : Type} (q : β → Bool) :
    ∀ (l : List β) (e : β) (rest : List β), l.filter q = e :: rest → l.find? q = some e
  | [], e, rest, h => by simp at h
  | a :: l, e, rest, h => by
    by_cases ha : q a = true
    · simp only [List.filter_cons, ha, if_true, List.cons.injEq] at h
      rw [← h.1]
      simp [List.find?_cons, ha]
    · simp only [List.filter_cons, ha] at h
      simp only [List.find?_cons, ha]
      exact find_of_filter_cons q l e rest (by simpa using h)

/-- Forcing an Evaluated handle runs nothing. -/
theorem force_evaluated (P : EvalPlan α) (fuel d : Nat) (st : EvalState α) (t : Tensor α)
    (h : st.handles d = .Evaluated t) : P.Force (fuel + 1) d st = .ok st := by
  simp [EvalPlan.Force, h]

/-- Forcing a handle that is not Evaluated runs its producer on the state reached by
forcing its dependencies. -/
theorem force_run (P : EvalPlan α) (fuel d : Nat) (st st1 : EvalState α)
    (e : EvalPlanEntry α) (h : ∀ t, st.handles d ≠ .Evaluated t)
    (hfind : P.m_entries.find? (fun e => e.dataPtr == d) = some e)
    (hdeps : e.depVec.foldlM (fun s dep => P.Force fuel dep s) st = .ok st1) :
    P.Force (fuel + 1) d st = e.unit st1 := by
  cases hs : st.handles d with
  | Evaluated t => exact absurd hs (h t)
  | Unallocated => simp [EvalPlan.Force, hs, hfind, hdeps]
  | Allocated t => simp [EvalPlan.Force, hs, hfind, hdeps]

/-- When forcing a handle that is not Evaluated succeeds, the dependencies were forced
first and the producer ran on the state they left. -/
theorem force_ok_run (P : EvalPlan α) (fuel d : Nat) (st st2 : EvalState α)
    (e : EvalPlanEntry α) (h : ∀ t, st.handles d ≠ .Evaluated t)
    (hfind : P.m_entries.find? (fun e => e.dataPtr == d) = some e)
    (hF : P.Force (fuel + 1) d st = .ok st2) :
    ∃ st1, e.depVec.foldlM (fun s dep => P.Force fuel dep s) st = .ok st1 ∧
      e.unit st1 = .ok st2 := by
  cases hd : e.depVec.foldlM (fun s dep => P.Force fuel dep s) st with
  | error f =>
    cases hs : st.handles d with
    | Evaluated t => exact absurd hs (h t)
    | Unallocated => simp [EvalPlan.Force, hs, hfind, hd] at hF
    | Allocated t => simp [EvalPlan.Force, hs, hfind, hd] at hF
  | ok st1 =>
    refine ⟨st1, rfl, ?_⟩
    rw [← force_run P fuel d st st1 e h hfind hd]
    exact hF

/-- A run of the SigmoidGrad unit that ends normally found both operand handles
Evaluated. -/
theorem sigmoidGrad_eval_ok_operands [Inhabited α] [Mul α] [Sub α] [One α]
    (u : OperSigmoidGrad.EvalUnit) (st st1 : EvalState α) (h : u.Eval st = .ok st1) :
    ∃ G Y, st.handles u.m_gradHandle = .Evaluated G ∧
      st.handles u.m_inputHandle = .Evaluated Y := by
  cases hg : st.handles u.m_gradHandle with
  | Unallocated => simp [OperSigmoidGrad.EvalUnit.Eval, EvalHandle.Data, hg] at h
  | Allocated t => simp [OperSigmoidGrad.EvalUnit.Eval, EvalHandle.Data, hg] at h
  | Evaluated G =>
    cases hy : st.handles u.m_inputHandle with
    | Unallocated => simp [OperSigmoidGrad.EvalUnit.Eval, EvalHandle.Data, hg, hy] at h
    | Allocated t => simp [OperSigmoidGrad.EvalUnit.Eval, EvalHandle.Data, hg, hy] at h
    | Evaluated Y => exact ⟨G, Y, rfl, rfl⟩

end PlanLemmas

/-! ### Values of the hyperbolic tangent -/

/-- The hyperbolic tangent through the square of the exponential. -/
theorem tanh_eq_exp_sq (x : ℝ) :
    Real.tanh x = (Real.exp x ^ 2 - 1) / (Real.exp x ^ 2 + 1) := by
  have hpos : 0 < Real.exp x := Real.exp_pos x
  rw [Real.tanh_eq_sinh_div_cosh, Real.sinh_eq, Real.cosh_eq, Real.exp_neg]
  field_simp
  ring

/-- The exponential at 0.41, from nine terms of its series. -/
theorem exp_041_bounds : (1.5068177 : ℝ) < Real.exp 0.41 ∧ Real.exp 0.41 < 1.5068179 := by
  have h := Real.exp_bound (x := 0.41) (by rw [abs_le]; constructor <;> norm_num) (n := 9)
    (by norm_num)
  simp only [Finset.sum_range_succ, Finset.sum_range_zero, Nat.factorial] at h
  rw [abs_le] at h
  have habs : |(0.41 : ℝ)| = 0.41 := abs_of_pos (by norm_num)
  rw [habs] at h
  norm_num at h
  constructor <;> linarith [h.1, h.2]

/-- The exponential at 0.27, from nine terms of its series. -/
theorem exp_027_bounds : (1.3099644 : ℝ) < Real.exp 0.27 ∧ Real.exp 0.27 < 1.3099646 := by
  have h := Real.exp_bound (x := 0.27) (by rw [abs_le]; constructor <;> norm_num) (n := 9)
    (by norm_num)
  simp only [Finset.sum_range_succ, Finset.sum_range_zero, Nat.factorial] at h
  rw [abs_le] at h
  have habs : |(0.27 : ℝ)| = 0.27 := abs_of_pos (by norm_num)
  rw [habs] at h
  norm_num at h
  constructor <;> linarith [h.1, h.2]

/-- The hyperbolic tangent at 0.41 to seven digits. -/
theorem tanh_041_bounds : (0.3884726 : ℝ) < Real.tanh 0.41 ∧ Real.tanh 0.41 < 0.3884728 := by
  obtain ⟨h1, h2⟩ := exp_041_bounds
  rw [tanh_eq_exp_sq]
  have hpos : (0 : ℝ) < Real.exp 0.41 ^ 2 + 1 := by positivity
  constructor
  · rw [lt_div_iff₀ hpos]
    nlinarith
  · rw [div_lt_iff₀ hpos]
    nlinarith

/-- The hyperbolic tangent at 0.27 to six digits. -/
theorem tanh_027_bounds : (0.2636247 : ℝ) < Real.tanh 0.27 ∧ Real.tanh 0.27 < 0.2636250 := by
  obtain ⟨h1, h2⟩ := exp_027_bounds
  rw [tanh_eq_exp_sq]
  have hpos : (0 : ℝ) < Real.exp 0.27 ^ 2 + 1 := by positivity
  constructor
  · rw [lt_div_iff₀ hpos]
    nlinarith
  · rw [div_lt_iff₀ hpos]
    nlinarith

/-- The nodes a fresh `TanhLayer` returns for the sample input of the test and the sample
gradient. -/
theorem tanh_sample_eval :
    ((TanhLayer.new true ℝ "root").FeedForward
        (tanhIn (.tensor ⟨[2, 1], [-0.27, -0.41]⟩))).1
      = .ok (outGrad (.Tanh (.tensor ⟨[2, 1], [-0.27, -0.41]⟩))) ∧
    (((TanhLayer.new true ℝ "root").FeedForward
        (tanhIn (.tensor ⟨[2, 1], [-0.27, -0.41]⟩))).2.FeedBackward
        (outGrad (.tensor ⟨[2, 1], [0.1, 0.3]⟩))).1
      = .ok (tanhIn (.TanhGrad (.tensor ⟨[2, 1], [0.1, 0.3]⟩)
          (.Tanh (.tensor ⟨[2, 1], [-0.27, -0.41]⟩)))) :=
  ⟨tanh_feedForward_fst _ _, by
    rw [tanh_feedBackward_feedForward (TanhLayer.new true ℝ "root")
      (.tensor ⟨[2, 1], [-0.27, -0.41]⟩) (.tensor ⟨[2, 1], [0.1, 0.3]⟩) rfl]⟩

/-! ### List helpers for paired results -/

/-- Mapping over a `zipWith` whose image depends on the left element only. -/
theorem zipWith_map_left {β γ δ ε : Type} (f : β → γ → δ) (k : δ → ε) (f1 : β → ε)
    (h : ∀ b c, k (f b c) = f1 b) :
    ∀ (bs : List β) (cs : List γ), bs.length = cs.length →
      (List.zipWith f bs cs).map k = bs.map f1
  | [], [], _ => rfl
  | [], _ :: _, hl => by simp at hl
  | _ :: _, [], hl => by simp at hl
  | b :: bs, c :: cs, hl => by
    simp only [List.zipWith_cons_cons, List.map_cons, h]
    rw [zipWith_map_left f k f1 h bs cs (by simpa using hl)]

/-- Mapping over a `zipWith` whose image depends on the right element only. -/
theorem zipWith_map_right {β γ δ ε : Type} (f : β → γ → δ) (k : δ → ε) (f2 : γ → ε)
    (h : ∀ b c, k (f b c) = f2 c) :
    ∀ (bs : List β) (cs : List γ), bs.length = cs.length →
      (List.zipWith f bs cs).map k = cs.map f2
  | [], [], _ => rfl
  | [], _ :: _, hl => by simp at hl
  | _ :: _, [], hl => by simp at hl
  | b :: bs, c :: cs, hl => by
    simp only [List.zipWith_cons_cons, List.map_cons, h]
    rw [zipWith_map_right f k f2 h bs cs (by simpa using hl)]

/-- Lists with equal images have equal lengths. -/
theorem length_eq_of_map_eq {β γ δ : Type} (f : β → δ) (k : γ → δ) (bs : List β)
    (cs : List γ) (h : bs.map f = cs.map k) : bs.length = cs.length := by
  have := congrArg List.length h
  simpa using this

/-! ### Claims -/

section Claims

variable {α : Type}

/-- C1: a feedback-enabled `SigmoidLayer`, freshly constructed, receives the forward calls
`xs` and then as many backward calls `gs`, the j-th gradient having the shape of the output
of the forward call it is paired with (reverse order). Then every forward call returns its
output, every backward call returns a result, afterwards `NeutralInvariant` returns
normally, and the j-th backward result has the shape of the paired forward input. -/
theorem sigmoid_forward_backward_neutral (name : String) (xs gs : List (Node α))
    (hgs : gs.map Node.Shape
      = (xs.map fun x => (SigmoidLayer.FeedForwardCal x).Shape).reverse) :
    ((SigmoidLayer.new true α name).FeedForwardSeq (xs.map sigIn)).1
      = .ok (xs.map fun x => outGrad (SigmoidLayer.FeedForwardCal x)) ∧
    (∃ rs, (((SigmoidLayer.new true α name).FeedForwardSeq (xs.map sigIn)).2.FeedBackwardSeq
          (gs.map outGrad)).1 = .ok rs ∧
        rs.length = xs.length ∧
        rs.map (fun r => r.LayerInput.map Node.Shape)
          = (xs.map fun x => some x.Shape).reverse) ∧
    (((SigmoidLayer.new true α name).FeedForwardSeq (xs.map sigIn)).2.FeedBackwardSeq
        (gs.map outGrad)).2.NeutralInvariant = .ok () := by
  have hgs1 : gs.map Node.Shape = (xs.map Node.Shape).reverse := by
    simpa [SigmoidLayer.FeedForwardCal, Node.Shape] using hgs
  obtain ⟨hF, hB⟩ := sigmoid_seq_roundtrip (SigmoidLayer.new true α name) xs
  have hlen : gs.length = xs.reverse.length := by
    rw [← List.map_reverse] at hgs1
    exact length_eq_of_map_eq _ _ _ _ hgs1
  refine ⟨hF, ⟨_, by rw [hB gs hgs1], ?_, ?_⟩, ?_⟩
  · simp [List.length_zipWith, hlen]
  · rw [zipWith_map_left (fun g x => sigIn (Node.SigmoidGrad g (Node.Sigmoid x)))
      (fun r => r.LayerInput.map Node.Shape) (fun g => some g.Shape) (fun _ _ => rfl)
      gs xs.reverse hlen]
    have : gs.map (fun g => some g.Shape) = (gs.map Node.Shape).map some := by simp
    rw [this, hgs1]
    simp [List.map_reverse]
  · rw [hB gs hgs1]
    rfl

/-- Witness for C1: two forward calls with a 2 x 1 and a 1 x 3 input, then two backward
calls with a 1 x 3 and a 2 x 1 gradient. -/
theorem sigmoid_forward_backward_neutral_witness :
    [sampleG2, sampleG1].map Node.Shape
      = ([sampleX1, sampleX2].map fun x => (SigmoidLayer.FeedForwardCal x).Shape).reverse ∧
    (∃ rs, (((SigmoidLayer.new true Int "root").FeedForwardSeq
          ([sampleX1, sampleX2].map sigIn)).2.FeedBackwardSeq
          ([sampleG2, sampleG1].map outGrad)).1 = .ok rs ∧
        rs.length = [sampleX1, sampleX2].length ∧
        rs.map (fun r => r.LayerInput.map Node.Shape)
          = ([sampleX1, sampleX2].map fun x => some x.Shape).reverse) ∧
    (((SigmoidLayer.new true Int "root").FeedForwardSeq
        ([sampleX1, sampleX2].map sigIn)).2.FeedBackwardSeq
        ([sampleG2, sampleG1].map outGrad)).2.NeutralInvariant = .ok () :=
  ⟨by decide,
    (sigmoid_forward_backward_neutral "root" [sampleX1, sampleX2] [sampleG2, sampleG1]
      (by decide)).2⟩

/-- C2: a feedback-enabled `InterpolateLayer`, freshly constructed, receives the forward
calls `xs` (operand triples `v1, v2, lambda`) and then as many backward calls `gs`, the j-th
gradient having the shape of the output of the forward call it is paired with (reverse
order), which is the promoted shape. Then every forward call returns its output, every
backward call returns a result, afterwards `NeutralInvariant` returns normally, and the
three gradients of the j-th backward result have the shapes of the operands `v1`, `v2`,
`lambda` of the paired forward call. -/
theorem interpolate_forward_backward_neutral (SP : Shape → Shape → Shape → Shape)
    (name : String) (xs : List (Node α × Node α × Node α)) (gs : List (Node α))
    (hgs : gs.map Node.Shape
      = (xs.map fun x => (InterpolateLayer.FeedForwardCal SP x.1 x.2.1 x.2.2).Shape).reverse) :
    ((InterpolateLayer.new true α name).FeedForwardSeq SP
        (xs.map fun x => interpIn x.1 x.2.1 x.2.2)).1
      = .ok (xs.map fun x => outGrad (InterpolateLayer.FeedForwardCal SP x.1 x.2.1 x.2.2)) ∧
    (∃ rs, (((InterpolateLayer.new true α name).FeedForwardSeq SP
          (xs.map fun x => interpIn x.1 x.2.1 x.2.2)).2.FeedBackwardSeq
          (gs.map outGrad)).1 = .ok rs ∧
        rs.length = xs.length ∧
        rs.map (fun r => (r.InterpolateLayerWeight1.map Node.Shape,
            r.InterpolateLayerWeight2.map Node.Shape, r.InterpolateLayerLambda.map Node.Shape))
          = (xs.map fun x => (some x.1.Shape, some x.2.1.Shape, some x.2.2.Shape)).reverse) ∧
    (((InterpolateLayer.new true α name).FeedForwardSeq SP
        (xs.map fun x => interpIn x.1 x.2.1 x.2.2)).2.FeedBackwardSeq
        (gs.map outGrad)).2.NeutralInvariant = .ok () := by
  have hgs1 : gs.map Node.Shape
      = (xs.map fun x => SP x.1.Shape x.2.1.Shape x.2.2.Shape).reverse := by
    simpa [interpolate_feedForwardCal_shape] using hgs
  obtain ⟨hF, hB⟩ := interpolate_seq_roundtrip SP (InterpolateLayer.new true α name) xs
  have hlen : gs.length = xs.reverse.length := by
    rw [← List.map_reverse] at hgs1
    exact length_eq_of_map_eq _ _ _ _ hgs1
  refine ⟨hF, ⟨_, by rw [hB gs hgs1], ?_, ?_⟩, ?_⟩
  · simp [List.length_zipWith, hlen]
  · rw [zipWith_map_right
      (fun (g : Node α) (x : Node α × Node α × Node α) => interpIn
        (Node.Collapse (Node.Multiply g (Node.Duplicate x.2.2 g.Shape)) x.1.Shape)
        (Node.Collapse (Node.Multiply g
          (Node.Duplicate (Node.SubstractFromNum 1 x.2.2) g.Shape)) x.2.1.Shape)
        (Node.Collapse (Node.Multiply g
          (Node.Substract (Node.Duplicate x.1 g.Shape) (Node.Duplicate x.2.1 g.Shape)))
          x.2.2.Shape))
      (fun r => (r.InterpolateLayerWeight1.map Node.Shape,
        r.InterpolateLayerWeight2.map Node.Shape, r.InterpolateLayerLambda.map Node.Shape))
      (fun x => (some x.1.Shape, some x.2.1.Shape, some x.2.2.Shape)) (fun _ _ => rfl)
      gs xs.reverse hlen, List.map_reverse]
  · rw [hB gs hgs1]
    rfl

/-- Witness for C2: two forward calls whose promoted shapes are 2 x 1 and 1 x 3, then two
backward calls with a 1 x 3 and a 2 x 1 gradient. -/
theorem interpolate_forward_backward_neutral_witness :
    [sampleG2, sampleG1].map Node.Shape
      = ([(sampleX1, sampleG1, sampleLambda), (sampleLambda, sampleX2, sampleG2)].map
          fun x => (InterpolateLayer.FeedForwardCal ShapePromoteByRank x.1 x.2.1 x.2.2).Shape
        ).reverse ∧
    (((InterpolateLayer.new true Int "root").FeedForwardSeq ShapePromoteByRank
        ([(sampleX1, sampleG1, sampleLambda), (sampleLambda, sampleX2, sampleG2)].map
          fun x => interpIn x.1 x.2.1 x.2.2)).2.FeedBackwardSeq
        ([sampleG2, sampleG1].map outGrad)).2.NeutralInvariant = .ok () :=
  ⟨by decide,
    (interpolate_forward_backward_neutral ShapePromoteByRank "root"
      [(sampleX1, sampleG1, sampleLambda), (sampleLambda, sampleX2, sampleG2)]
      [sampleG2, sampleG1] (by decide)).2.2⟩

/-- C3: a feedback-enabled `SigmoidLayer` or `InterpolateLayer` with no unmatched forward
call, that is a fresh layer after `k` forward calls and `k` matching backward calls
(`k = 0` is the fresh layer itself): `FeedBackward` throws for every gradient bundle,
so it returns no gradient bundle, and the layer is left as it was, with every data stack
and every shape checker empty. -/
theorem feedBackward_without_forward (SP : Shape → Shape → Shape → Shape)
    (name : String) (xs gs : List (Node α))
    (ys : List (Node α × Node α × Node α)) (hs : List (Node α))
    (hgs : gs.map Node.Shape
      = (xs.map fun x => (SigmoidLayer.FeedForwardCal x).Shape).reverse)
    (hhs : hs.map Node.Shape
      = (ys.map fun y => (InterpolateLayer.FeedForwardCal SP y.1 y.2.1 y.2.2).Shape).reverse)
    (p_grad : LayerOutputCont α) :
    (∀ S : SigmoidLayer true α,
      S = (((SigmoidLayer.new true α name).FeedForwardSeq (xs.map sigIn)).2.FeedBackwardSeq
            (gs.map outGrad)).2 →
      S.FeedBackward p_grad = (.error .cannotFeedBackSigmoid, S) ∧
      S.m_data = [] ∧ S.m_inputShape.m_buffer = [] ∧ S.m_outputShape.m_buffer = []) ∧
    (∀ I : InterpolateLayer true α,
      I = (((InterpolateLayer.new true α name).FeedForwardSeq SP
            (ys.map fun y => interpIn y.1 y.2.1 y.2.2)).2.FeedBackwardSeq
            (hs.map outGrad)).2 →
      I.FeedBackward p_grad = (.error .cannotFeedBackInterpolate, I) ∧
      I.m_input1Stack = [] ∧ I.m_input2Stack = [] ∧ I.m_lambdaStack = [] ∧
      I.m_weight1Shape.m_buffer = [] ∧ I.m_weight2Shape.m_buffer = [] ∧
      I.m_lambdaShape.m_buffer = [] ∧ I.m_outputShape.m_buffer = []) := by
  have hgs1 : gs.map Node.Shape = (xs.map Node.Shape).reverse := by
    simpa [SigmoidLayer.FeedForwardCal, Node.Shape] using hgs
  have hhs1 : hs.map Node.Shape
      = (ys.map fun y => SP y.1.Shape y.2.1.Shape y.2.2.Shape).reverse := by
    simpa [interpolate_feedForwardCal_shape] using hhs
  constructor
  · intro S hS
    rw [(sigmoid_seq_roundtrip (SigmoidLayer.new true α name) xs).2 gs hgs1] at hS
    subst hS
    exact ⟨rfl, rfl, rfl, rfl⟩
  · intro I hI
    rw [(interpolate_seq_roundtrip SP (InterpolateLayer.new true α name) ys).2 hs hhs1]
      at hI
    subst hI
    exact ⟨rfl, rfl, rfl, rfl, rfl, rfl, rfl, rfl⟩

/-- Witness for C3: both layers after two forward calls and the two matching backward
calls, then called backward once more with a 2 x 1 gradient. -/
theorem feedBackward_without_forward_witness :
    ([sampleG2, sampleG1].map Node.Shape
      = ([sampleX1, sampleX2].map fun x => (SigmoidLayer.FeedForwardCal x).Shape).reverse ∧
    [sampleG2, sampleG1].map Node.Shape
      = ([(sampleX1, sampleG1, sampleLambda), (sampleLambda, sampleX2, sampleG2)].map
          fun y => (InterpolateLayer.FeedForwardCal ShapePromoteByRank y.1 y.2.1 y.2.2).Shape
        ).reverse) ∧
    ((((SigmoidLayer.new true Int "root").FeedForwardSeq
          ([sampleX1, sampleX2].map sigIn)).2.FeedBackwardSeq
          ([sampleG2, sampleG1].map outGrad)).2.FeedBackward (outGrad sampleG1)).1
      = .error .cannotFeedBackSigmoid ∧
    ((((InterpolateLayer.new true Int "root").FeedForwardSeq ShapePromoteByRank
          ([(sampleX1, sampleG1, sampleLambda), (sampleLambda, sampleX2, sampleG2)].map
            fun y => interpIn y.1 y.2.1 y.2.2)).2.FeedBackwardSeq
          ([sampleG2, sampleG1].map outGrad)).2.FeedBackward (outGrad sampleG1)).1
      = .error .cannotFeedBackInterpolate :=
  ⟨⟨by decide, by decide⟩,
    by
      rw [((feedBackward_without_forward ShapePromoteByRank "root" [sampleX1, sampleX2]
        [sampleG2, sampleG1]
        [(sampleX1, sampleG1, sampleLambda), (sampleLambda, sampleX2, sampleG2)]
        [sampleG2, sampleG1] (by decide) (by decide) (outGrad sampleG1)).1 _ rfl).1],
    by
      rw [((feedBackward_without_forward ShapePromoteByRank "root" [sampleX1, sampleX2]
        [sampleG2, sampleG1]
        [(sampleX1, sampleG1, sampleLambda), (sampleLambda, sampleX2, sampleG2)]
        [sampleG2, sampleG1] (by decide) (by decide) (outGrad sampleG1)).2 _ rfl).1]⟩

/-- C4: a layer with `IsFeedbackOutput = false` (`SigmoidLayer`, `InterpolateLayer`), in
any state and so after any sequence of forward calls: `FeedForward` leaves every stack as
it was, the state after any sequence of forward calls on a fresh layer is still the fresh
state, `FeedBackward` returns the empty gradient bundle for every argument and leaves the
layer unchanged, and `NeutralInvariant` returns normally. -/
theorem feedback_disabled_is_stateless (SP : Shape → Shape → Shape → Shape)
    (S : SigmoidLayer false α) (I : InterpolateLayer false α) (name : String)
    (sins : List (SigmoidLayerInputCont α)) (iins : List (InterpolateLayerInputCont α))
    (s_in : SigmoidLayerInputCont α) (i_in : InterpolateLayerInputCont α)
    (p_grad : LayerOutputCont α) :
    ((S.FeedForward s_in).2 = S ∧
      ((SigmoidLayer.new false α name).FeedForwardSeq sins).2 = SigmoidLayer.new false α name ∧
      S.FeedBackward p_grad = (.ok {}, S) ∧
      S.NeutralInvariant = .ok ()) ∧
    ((I.FeedForward SP i_in).2 = I ∧
      ((InterpolateLayer.new false α name).FeedForwardSeq SP iins).2
        = InterpolateLayer.new false α name ∧
      I.FeedBackward p_grad = (.ok {}, I) ∧
      I.NeutralInvariant = .ok ()) := by
  have hS : ∀ (L : SigmoidLayer false α) p, (L.FeedForward p).2 = L := by
    intro L p
    unfold SigmoidLayer.FeedForward
    split <;> simp
  have hI : ∀ (L : InterpolateLayer false α) p, (L.FeedForward SP p).2 = L := by
    intro L p
    unfold InterpolateLayer.FeedForward
    split <;> simp
  have hSs : ∀ (ps : List (SigmoidLayerInputCont α)) (L : SigmoidLayer false α),
      (L.FeedForwardSeq ps).2 = L := by
    intro ps
    induction ps with
    | nil => intro L; rfl
    | cons p ps ih =>
      intro L
      have h1 := hS L p
      have h2 := ih (L.FeedForward p).2
      rw [SigmoidLayer.FeedForwardSeq]
      rcases hp : L.FeedForward p with ⟨_ | out, L1⟩
      · rw [hp] at h1; exact h1
      · rw [hp] at h1 h2
        simp only at h1 h2 ⊢
        rcases hq : L1.FeedForwardSeq ps with ⟨_ | outs, L2⟩
        · rw [hq] at h2; simp only at h2 ⊢; rw [h2, h1]
        · rw [hq] at h2; simp only at h2 ⊢; rw [h2, h1]
  have hIs : ∀ (ps : List (InterpolateLayerInputCont α)) (L : InterpolateLayer false α),
      (L.FeedForwardSeq SP ps).2 = L := by
    intro ps
    induction ps with
    | nil => intro L; rfl
    | cons p ps ih =>
      intro L
      have h1 := hI L p
      have h2 := ih (L.FeedForward SP p).2
      rw [InterpolateLayer.FeedForwardSeq]
      rcases hp : L.FeedForward SP p with ⟨_ | out, L1⟩
      · rw [hp] at h1; exact h1
      · rw [hp] at h1 h2
        simp only at h1 h2 ⊢
        rcases hq : L1.FeedForwardSeq SP ps with ⟨_ | outs, L2⟩
        · rw [hq] at h2; simp only at h2 ⊢; rw [h2, h1]
        · rw [hq] at h2; simp only at h2 ⊢; rw [h2, h1]
  exact ⟨⟨hS S s_in, hSs sins _, rfl, rfl⟩, ⟨hI I i_in, hIs iins _, rfl, rfl⟩⟩

/-- C5: the SigmoidGrad evaluation unit, run on Evaluated operands `G` (gradient handle,
operand 0) and `Y` (input handle, operand 1: the forward output) of equal shape with `n`
elements each and an output handle not yet allocated, ends normally with the output
handle Evaluated, of the shape of `G`, with `n` elements, element `i` being
`G[i] * Y[i] * (1 - Y[i])` in the arithmetic of the element type. -/
theorem sigmoidGrad_eval_computes [Inhabited α] [Mul α] [Sub α] [One α]
    (u : OperSigmoidGrad.EvalUnit) (st : EvalState α) (G Y : Tensor α) (n : Nat)
    (hG : st.handles u.m_gradHandle = .Evaluated G)
    (hY : st.handles u.m_inputHandle = .Evaluated Y)
    (hO : st.handles u.m_outputHandle = .Unallocated)
    (hshape : G.shape = Y.shape) (hcount : G.shape.Count = n)
    (hGn : G.mem.length = n) (hYn : Y.mem.length = n) :
    ∃ st1 out, u.Eval st = .ok st1 ∧
      st1.handles u.m_outputHandle = .Evaluated out ∧
      out.shape = G.shape ∧ out.mem.length = n ∧
      ∀ i, i < n →
        ∃ g y, G.mem[i]? = some g ∧ Y.mem[i]? = some y ∧
          out.mem[i]? = some (g * y * (1 - y)) := by
  subst hcount
  obtain ⟨st1, mem1, hrun, hout, hlen, hcomp, _, _⟩ :=
    sigmoidGrad_eval_spec u st G Y hG hY hO hshape hGn
      (by rw [hYn, ← hshape])
  exact ⟨st1, ⟨G.shape, mem1⟩, hrun, hout, rfl, hlen, hcomp⟩

/-- Witness for C5: a 2 x 1 gradient `[3, 4]` and a 2 x 1 forward output `[5, 6]`; the unit
writes `[3 * 5 * (1 - 5), 4 * 6 * (1 - 6)]`. -/
theorem sigmoidGrad_eval_computes_witness :
    (sampleEvalState.handles 1 = .Evaluated ⟨[2, 1], [3, 4]⟩ ∧
      sampleEvalState.handles 2 = .Evaluated ⟨[2, 1], [5, 6]⟩ ∧
      sampleEvalState.handles 3 = .Unallocated) ∧
    ∃ st1 out, (⟨1, 2, 3⟩ : OperSigmoidGrad.EvalUnit).Eval sampleEvalState = .ok st1 ∧
      st1.handles 3 = .Evaluated out ∧
      out.shape = [2, 1] ∧ out.mem.length = 2 ∧
      ∀ i, i < 2 →
        ∃ g y, [(3 : Int), 4][i]? = some g ∧ [(5 : Int), 6][i]? = some y ∧
          out.mem[i]? = some (g * y * (1 - y)) :=
  ⟨⟨by decide, by decide, by decide⟩,
    sigmoidGrad_eval_computes ⟨1, 2, 3⟩ sampleEvalState
      ⟨[2, 1], [3, 4]⟩ ⟨[2, 1], [5, 6]⟩ 2 (by decide) (by decide) (by decide)
      (by decide) (by decide) (by decide) (by decide)⟩

/-- C6: a feedback-enabled `SigmoidLayer` in any state receives the forward calls `xs`; the
i-th call returns the node `Sigmoid(x_i)`. The j-th backward call that follows, with a
gradient `g` of the shape of the paired forward output, returns the node
`SigmoidGrad(g, y)` whose operand 1 is that forward output `y = Sigmoid(x)` of the paired
call (last forward first), not the forward input. Registering such a node for an output
slot without producer adds one unit that reads the handle of `g` as gradient and the
handle of `y` as input, and that unit, run on the values `G` and `Y` of the two handles,
produces the elements `G[i] * Y[i] * (1 - Y[i])`. -/
theorem sigmoid_feedBackward_returns_sigmoidGrad [Inhabited α] [Mul α] [Sub α] [One α]
    (L : SigmoidLayer true α) (xs gs : List (Node α))
    (hgs : gs.map Node.Shape
      = (xs.map fun x => (SigmoidLayer.FeedForwardCal x).Shape).reverse) :
    (L.FeedForwardSeq (xs.map sigIn)).1 = .ok (xs.map fun x => outGrad (.Sigmoid x)) ∧
    ((L.FeedForwardSeq (xs.map sigIn)).2.FeedBackwardSeq (gs.map outGrad)).1
      = .ok (List.zipWith (fun g y => sigIn (.SigmoidGrad g y)) gs
          (xs.map fun x => Node.Sigmoid x).reverse) ∧
    (∀ (OperandEvalRegister : Node α → EvalPlan α → Nat × EvalPlan α) (evalRes : Nat)
        (plan : EvalPlan α) (g y : Node α),
      (OperandEvalRegister y (OperandEvalRegister g plan).2).2.HasProducer evalRes = false →
      ∃ e, (OperSigmoidGrad.Calculator.EvalRegister OperandEvalRegister evalRes
            (.SigmoidGrad g y) plan).m_entries
          = (OperandEvalRegister y (OperandEvalRegister g plan).2).2.m_entries ++ [e] ∧
        e.dataPtr = evalRes ∧
        e.depVec = [(OperandEvalRegister g plan).1,
          (OperandEvalRegister y (OperandEvalRegister g plan).2).1] ∧
        e.unit = OperSigmoidGrad.EvalUnit.Eval
          ⟨(OperandEvalRegister g plan).1,
            (OperandEvalRegister y (OperandEvalRegister g plan).2).1, evalRes⟩) ∧
    ∀ (u : OperSigmoidGrad.EvalUnit) (st : EvalState α) (G Y : Tensor α),
      st.handles u.m_gradHandle = .Evaluated G →
      st.handles u.m_inputHandle = .Evaluated Y →
      st.handles u.m_outputHandle = .Unallocated →
      G.shape = Y.shape → G.mem.length = G.shape.Count → Y.mem.length = Y.shape.Count →
      ∃ st1 out, u.Eval st = .ok st1 ∧
        st1.handles u.m_outputHandle = .Evaluated out ∧ out.shape = G.shape ∧
        out.mem = List.zipWith (fun g y => g * y * (1 - y)) G.mem Y.mem := by
  have hgs1 : gs.map Node.Shape = (xs.map Node.Shape).reverse := by
    simpa [SigmoidLayer.FeedForwardCal, Node.Shape] using hgs
  obtain ⟨hF, hB⟩ := sigmoid_seq_roundtrip L xs
  refine ⟨hF, ?_, ?_, ?_⟩
  · rw [hB gs hgs1, ← List.map_reverse, List.zipWith_map_right]
  · intro reg evalRes plan g y hprod
    refine ⟨⟨OperSigmoidGrad.EvalUnit.Eval
      ⟨(reg g plan).1, (reg y (reg g plan).2).1, evalRes⟩, evalRes,
      [(reg g plan).1, (reg y (reg g plan).2).1]⟩, ?_, rfl, rfl, rfl⟩
    simp only [OperSigmoidGrad.Calculator.EvalRegister, Node.GetOperand, EvalPlan.Register,
      hprod]
    rfl
  · intro u st G Y hG hY hO hshape hGn hYn
    obtain ⟨st1, mem1, hrun, hout, hlen, hcomp, _, _⟩ :=
      sigmoidGrad_eval_spec u st G Y hG hY hO hshape hGn hYn
    refine ⟨st1, ⟨G.shape, mem1⟩, hrun, hout, rfl, ?_⟩
    apply List.ext_getElem?
    intro i
    by_cases hi : i < G.shape.Count
    · obtain ⟨g, y, h1, h2, h3⟩ := hcomp i hi
      simp [h3, List.getElem?_zipWith, h1, h2]
    · have hYc : Y.mem.length = G.shape.Count := by rw [hYn, hshape]
      rw [List.getElem?_eq_none (by simp only; omega),
        List.getElem?_eq_none (by simp only [List.length_zipWith]; omega)]

/-- Witness for C6: two forward calls with a 2 x 1 and a 1 x 3 input, then two backward
calls with a 1 x 3 and a 2 x 1 gradient; the first backward result is over the output
of the second forward call. -/
theorem sigmoid_feedBackward_returns_sigmoidGrad_witness :
    [sampleG2, sampleG1].map Node.Shape
      = ([sampleX1, sampleX2].map fun x => (SigmoidLayer.FeedForwardCal x).Shape).reverse ∧
    (((SigmoidLayer.new true Int "root").FeedForwardSeq
        ([sampleX1, sampleX2].map sigIn)).2.FeedBackwardSeq
        ([sampleG2, sampleG1].map outGrad)).1
      = .ok [sigIn (.SigmoidGrad sampleG2 (.Sigmoid sampleX2)),
          sigIn (.SigmoidGrad sampleG1 (.Sigmoid sampleX1))] :=
  ⟨by decide,
    (sigmoid_feedBackward_returns_sigmoidGrad (SigmoidLayer.new true Int "root")
      [sampleX1, sampleX2] [sampleG2, sampleG1] (by decide)).2.1⟩

/-- C7: a feedback-enabled `InterpolateLayer` in any state receives a forward call with the
operands `v1, v2, lambda`, followed by any history of calls that return normally and are
all paired among themselves, so that this forward call is the most recent unmatched one.
Then `FeedBackward` with a gradient `g` of the promoted shape `S` returns under
`InterpolateLayerWeight1` the node `Collapse(g * Duplicate(lambda, S), shape(v1))`, under
`InterpolateLayerWeight2` the node `Collapse(g * Duplicate(1 - lambda, S), shape(v2))` and
under `InterpolateLayerLambda` the node
`Collapse(g * (Duplicate(v1, S) - Duplicate(v2, S)), shape(lambda))`, and the layer is
back in the state before that forward call. -/
theorem interpolate_feedBackward_returns (SP : Shape → Shape → Shape → Shape)
    (L L1 : InterpolateLayer true α) (v1 v2 lam g : Node α)
    (calls : List (LayerCall (InterpolateLayerInputCont α) α))
    (hU : LayerCall.Unmatched calls 0 = some 0)
    (hR : (L.FeedForward SP (interpIn v1 v2 lam)).2.Run SP calls = .ok L1)
    (hg : g.Shape = SP v1.Shape v2.Shape lam.Shape) :
    ∃ r, L1.FeedBackward (outGrad g) = (.ok r, L) ∧
      r.InterpolateLayerWeight1
        = some (.Collapse
            (.Multiply g (.Duplicate lam (SP v1.Shape v2.Shape lam.Shape))) v1.Shape) ∧
      r.InterpolateLayerWeight2
        = some (.Collapse
            (.Multiply g (.Duplicate (.SubstractFromNum 1 lam) (SP v1.Shape v2.Shape lam.Shape)))
            v2.Shape) ∧
      r.InterpolateLayerLambda
        = some (.Collapse
            (.Multiply g (.Substract (.Duplicate v1 (SP v1.Shape v2.Shape lam.Shape))
              (.Duplicate v2 (SP v1.Shape v2.Shape lam.Shape))))
            lam.Shape) := by
  rw [interpolate_run_balanced SP _ L1 calls hU hR,
    interpolate_feedBackward_feedForward SP L v1 v2 lam g hg]
  refine ⟨_, rfl, ?_, ?_, ?_⟩ <;> rw [hg] <;> rfl

/-- Witness for C7: operands of shapes 2 x 1, 2 x 1 and 1, one further matched pair of
calls, then a 2 x 1 gradient. -/
theorem interpolate_feedBackward_returns_witness :
    (LayerCall.Unmatched
        [LayerCall.FeedForward (interpIn sampleLambda sampleX2 sampleG2),
          LayerCall.FeedBackward (outGrad sampleG2)] 0 = some 0 ∧
      ((InterpolateLayer.new true Int "root").FeedForward ShapePromoteByRank
          (interpIn sampleX1 sampleG1 sampleLambda)).2.Run ShapePromoteByRank
        [LayerCall.FeedForward (interpIn sampleLambda sampleX2 sampleG2),
          LayerCall.FeedBackward (outGrad sampleG2)]
        = .ok ((InterpolateLayer.new true Int "root").FeedForward ShapePromoteByRank
            (interpIn sampleX1 sampleG1 sampleLambda)).2 ∧
      sampleG1.Shape = ShapePromoteByRank sampleX1.Shape sampleG1.Shape sampleLambda.Shape) ∧
    ∃ r, ((InterpolateLayer.new true Int "root").FeedForward ShapePromoteByRank
          (interpIn sampleX1 sampleG1 sampleLambda)).2.FeedBackward (outGrad sampleG1)
        = (.ok r, InterpolateLayer.new true Int "root") ∧
      r.InterpolateLayerWeight1
        = some (.Collapse (.Multiply sampleG1 (.Duplicate sampleLambda [2, 1])) [2, 1]) ∧
      r.InterpolateLayerWeight2
        = some (.Collapse
            (.Multiply sampleG1 (.Duplicate (.SubstractFromNum 1 sampleLambda) [2, 1]))
            [2, 1]) ∧
      r.InterpolateLayerLambda
        = some (.Collapse
            (.Multiply sampleG1 (.Substract (.Duplicate sampleX1 [2, 1])
              (.Duplicate sampleG1 [2, 1])))
            [1]) :=
  ⟨⟨by decide, by decide, by decide⟩,
    interpolate_feedBackward_returns ShapePromoteByRank
      (InterpolateLayer.new true Int "root") _ sampleX1 sampleG1 sampleLambda sampleG1
      [LayerCall.FeedForward (interpIn sampleLambda sampleX2 sampleG2),
        LayerCall.FeedBackward (outGrad sampleG2)] (by decide) (by decide) (by decide)⟩

/-- C8: `InterpolateLayer.FeedForward` on the operands `v1, v2, lambda`, with or without
feedback, returns under `LayerOutput` the node
`Interpolate(Duplicate(v1, S), Duplicate(v2, S), Duplicate(lambda, S))` with
`S = ShapePromote(shape(v1), shape(v2), shape(lambda))`; the node reports the shape `S`;
its value is `lambda * v1 + (1 - lambda) * v2` element by element over the values of the
three promoted operands, `lambda` weighting `v1`; and with feedback enabled the layer
pushes the operands `v1`, `v2`, `lambda` themselves, not their promoted nodes, on the
three data stacks. -/
theorem interpolate_feedForward_returns [Add α] [Mul α] [Sub α] [One α]
    (SP : Shape → Shape → Shape → Shape) (fb : Bool) (L : InterpolateLayer fb α)
    (Lt : InterpolateLayer true α) (v1 v2 lam : Node α) (value : Node α → Tensor α) :
    (L.FeedForward SP (interpIn v1 v2 lam)).1
      = .ok (outGrad (.Interpolate (.Duplicate v1 (SP v1.Shape v2.Shape lam.Shape))
          (.Duplicate v2 (SP v1.Shape v2.Shape lam.Shape))
          (.Duplicate lam (SP v1.Shape v2.Shape lam.Shape)))) ∧
    (Node.Interpolate (.Duplicate v1 (SP v1.Shape v2.Shape lam.Shape))
        (.Duplicate v2 (SP v1.Shape v2.Shape lam.Shape))
        (.Duplicate lam (SP v1.Shape v2.Shape lam.Shape))).Shape
      = SP v1.Shape v2.Shape lam.Shape ∧
    (Node.Interpolate (.Duplicate v1 (SP v1.Shape v2.Shape lam.Shape))
        (.Duplicate v2 (SP v1.Shape v2.Shape lam.Shape))
        (.Duplicate lam (SP v1.Shape v2.Shape lam.Shape))).EvaluateInterpolate value
      = some ⟨(value (.Duplicate v1 (SP v1.Shape v2.Shape lam.Shape))).shape,
          List.zipWith3 (fun a b l => l * a + (1 - l) * b)
            (value (.Duplicate v1 (SP v1.Shape v2.Shape lam.Shape))).mem
            (value (.Duplicate v2 (SP v1.Shape v2.Shape lam.Shape))).mem
            (value (.Duplicate lam (SP v1.Shape v2.Shape lam.Shape))).mem⟩ ∧
    (Lt.FeedForward SP (interpIn v1 v2 lam)).2.m_input1Stack = v1 :: Lt.m_input1Stack ∧
    (Lt.FeedForward SP (interpIn v1 v2 lam)).2.m_input2Stack = v2 :: Lt.m_input2Stack ∧
    (Lt.FeedForward SP (interpIn v1 v2 lam)).2.m_lambdaStack = lam :: Lt.m_lambdaStack := by
  refine ⟨?_, rfl, rfl, ?_, ?_, ?_⟩
  · simp [InterpolateLayer.FeedForward, InterpolateLayer.FeedForwardCal,
      InterpolateLayerInputCont.SetWeight1, InterpolateLayerInputCont.SetWeight2,
      InterpolateLayerInputCont.SetLambda]
  all_goals
    simp [InterpolateLayer.FeedForward, InterpolateLayerInputCont.SetWeight1,
      InterpolateLayerInputCont.SetWeight2, InterpolateLayerInputCont.SetLambda]

/-- C9: the builder `SigmoidGrad(grad, input)` throws exactly when the two shapes differ;
the throw is the outcome of the builder call itself, so whatever would follow it in the
caller (registering or running an evaluation unit for the node) is not executed;
otherwise the builder returns the SigmoidGrad node whose operand 0 is `grad` and whose
operand 1 is `input`. -/
theorem SigmoidGrad_builder (grad input : Node α) :
    ((∃ e, SigmoidGrad grad input = .error e) ↔ grad.Shape ≠ input.Shape) ∧
    (SigmoidGrad grad input
      = if grad.Shape = input.Shape then .ok (.SigmoidGrad grad input)
        else .error .sigmoidGradShapeMismatch) ∧
    (∀ (β : Type) (k : Node α → Except Error β), grad.Shape ≠ input.Shape →
      (SigmoidGrad grad input >>= k) = .error .sigmoidGradShapeMismatch) ∧
    (∀ r, SigmoidGrad grad input = .ok r →
      r.GetOperand 0 = some grad ∧ r.GetOperand 1 = some input) := by
  by_cases h : grad.Shape = input.Shape
  · refine ⟨?_, ?_, ?_, ?_⟩
    · simp [SigmoidGrad, h]
    · simp [SigmoidGrad, h]
    · intro β k hne; exact absurd h hne
    · intro r hr
      simp only [SigmoidGrad, h, ne_eq, not_true_eq_false, if_false, Except.ok.injEq] at hr
      subst hr
      exact ⟨rfl, rfl⟩
  · refine ⟨?_, ?_, ?_, ?_⟩
    · simp [SigmoidGrad, h]
    · simp [SigmoidGrad, h]
    · intro β k _
      simp [SigmoidGrad, h, bind, Except.bind]
    · intro r hr
      simp [SigmoidGrad, h] at hr

/-- Witness for C9: a 2 x 1 gradient with a 1 x 3 input is refused, with a 2 x 1 input it
is accepted. -/
theorem SigmoidGrad_builder_witness :
    sampleG1.Shape ≠ sampleX2.Shape ∧
    SigmoidGrad sampleG1 sampleX2 = .error .sigmoidGradShapeMismatch ∧
    SigmoidGrad sampleG1 sampleX1 = .ok (.SigmoidGrad sampleG1 sampleX1) :=
  ⟨by decide,
    by rw [(SigmoidGrad_builder sampleG1 sampleX2).2.1]; decide,
    by rw [(SigmoidGrad_builder sampleG1 sampleX1).2.1]; decide⟩

/-- C10: a feedback-enabled `SigmoidLayer` or `InterpolateLayer` in any state receives a
forward call, followed by any history of calls that return normally and are all paired
among themselves, so that this forward call is the most recent unmatched one.
`FeedBackward` with a gradient whose shape differs from the shape of the output that
forward call returned throws the shape-mismatch error and returns no gradient bundle. -/
theorem feedBackward_shape_mismatch (SP : Shape → Shape → Shape → Shape)
    (S S1 : SigmoidLayer true α) (x g : Node α)
    (scalls : List (LayerCall (SigmoidLayerInputCont α) α))
    (I I1 : InterpolateLayer true α) (v1 v2 lam h : Node α)
    (icalls : List (LayerCall (InterpolateLayerInputCont α) α))
    (hSU : LayerCall.Unmatched scalls 0 = some 0)
    (hSR : (S.FeedForward (sigIn x)).2.Run scalls = .ok S1)
    (hIU : LayerCall.Unmatched icalls 0 = some 0)
    (hIR : (I.FeedForward SP (interpIn v1 v2 lam)).2.Run SP icalls = .ok I1)
    (hg : g.Shape ≠ (SigmoidLayer.FeedForwardCal x).Shape)
    (hh : h.Shape ≠ (InterpolateLayer.FeedForwardCal SP v1 v2 lam).Shape) :
    (S.FeedForward (sigIn x)).1 = .ok (outGrad (SigmoidLayer.FeedForwardCal x)) ∧
    (S1.FeedBackward (outGrad g)).1 = .error .shapeMismatch ∧
    (I.FeedForward SP (interpIn v1 v2 lam)).1
      = .ok (outGrad (InterpolateLayer.FeedForwardCal SP v1 v2 lam)) ∧
    (I1.FeedBackward (outGrad h)).1 = .error .shapeMismatch := by
  refine ⟨sigmoid_feedForward_fst S x, ?_,
    interpolate_feedForward_fst SP I v1 v2 lam, ?_⟩
  · rw [sigmoid_run_balanced _ S1 scalls hSU hSR]
    have hg1 : ¬ x.Shape = g.Shape := by
      intro e; exact hg (by simp [SigmoidLayer.FeedForwardCal, Node.Shape, e])
    simp [SigmoidLayer.FeedForward, SigmoidLayer.FeedForwardCal, SigmoidLayer.FeedBackward,
      SigmoidLayerInputCont.SetLayerInput, LayerOutputCont.SetLayerOutput,
      ShapeChecker.Push, ShapeChecker.CheckAndPop, Node.Shape, hg1]
  · rw [interpolate_run_balanced SP _ I1 icalls hIU hIR]
    have hh1 : ¬ SP v1.Shape v2.Shape lam.Shape = h.Shape := by
      intro e; exact hh (by rw [interpolate_feedForwardCal_shape, e])
    simp [InterpolateLayer.FeedForward, InterpolateLayer.FeedForwardCal,
      InterpolateLayer.FeedBackward, InterpolateLayerInputCont.SetWeight1,
      InterpolateLayerInputCont.SetWeight2, InterpolateLayerInputCont.SetLambda,
      LayerOutputCont.SetLayerOutput, ShapeChecker.Push, ShapeChecker.CheckAndPop,
      Node.Shape, hh1]

/-- Witness for C10: after a forward call whose output is 2 x 1 and one further matched
pair of calls, a 1 x 3 gradient is refused by both layers. -/
theorem feedBackward_shape_mismatch_witness :
    (LayerCall.Unmatched
        [LayerCall.FeedForward (sigIn sampleX2), LayerCall.FeedBackward (outGrad sampleG2)] 0
        = some 0 ∧
      ((SigmoidLayer.new true Int "root").FeedForward (sigIn sampleX1)).2.Run
        [LayerCall.FeedForward (sigIn sampleX2), LayerCall.FeedBackward (outGrad sampleG2)]
        = .ok ((SigmoidLayer.new true Int "root").FeedForward (sigIn sampleX1)).2 ∧
      LayerCall.Unmatched
        [LayerCall.FeedForward (interpIn sampleLambda sampleX2 sampleG2),
          LayerCall.FeedBackward (outGrad sampleG2)] 0 = some 0 ∧
      ((InterpolateLayer.new true Int "root").FeedForward ShapePromoteByRank
          (interpIn sampleX1 sampleG1 sampleLambda)).2.Run ShapePromoteByRank
        [LayerCall.FeedForward (interpIn sampleLambda sampleX2 sampleG2),
          LayerCall.FeedBackward (outGrad sampleG2)]
        = .ok ((InterpolateLayer.new true Int "root").FeedForward ShapePromoteByRank
            (interpIn sampleX1 sampleG1 sampleLambda)).2 ∧
      sampleG2.Shape ≠ (SigmoidLayer.FeedForwardCal sampleX1).Shape ∧
      sampleG2.Shape
        ≠ (InterpolateLayer.FeedForwardCal ShapePromoteByRank sampleX1 sampleG1
            sampleLambda).Shape) ∧
    (((SigmoidLayer.new true Int "root").FeedForward (sigIn sampleX1)).2.FeedBackward
        (outGrad sampleG2)).1 = .error .shapeMismatch ∧
    (((InterpolateLayer.new true Int "root").FeedForward ShapePromoteByRank
        (interpIn sampleX1 sampleG1 sampleLambda)).2.FeedBackward (outGrad sampleG2)).1
      = .error .shapeMismatch :=
  ⟨⟨by decide, by decide, by decide, by decide, by decide, by decide⟩,
    (feedBackward_shape_mismatch ShapePromoteByRank (SigmoidLayer.new true Int "root")
      ((SigmoidLayer.new true Int "root").FeedForward (sigIn sampleX1)).2
      sampleX1 sampleG2
      [LayerCall.FeedForward (sigIn sampleX2), LayerCall.FeedBackward (outGrad sampleG2)]
      (InterpolateLayer.new true Int "root")
      ((InterpolateLayer.new true Int "root").FeedForward ShapePromoteByRank
        (interpIn sampleX1 sampleG1 sampleLambda)).2
      sampleX1 sampleG1 sampleLambda sampleG2
      [LayerCall.FeedForward (interpIn sampleLambda sampleX2 sampleG2),
        LayerCall.FeedBackward (outGrad sampleG2)]
      (by decide) (by decide) (by decide) (by decide) (by decide) (by decide)).2.1,
    (feedBackward_shape_mismatch ShapePromoteByRank (SigmoidLayer.new true Int "root")
      ((SigmoidLayer.new true Int "root").FeedForward (sigIn sampleX1)).2
      sampleX1 sampleG2
      [LayerCall.FeedForward (sigIn sampleX2), LayerCall.FeedBackward (outGrad sampleG2)]
      (InterpolateLayer.new true Int "root")
      ((InterpolateLayer.new true Int "root").FeedForward ShapePromoteByRank
        (interpIn sampleX1 sampleG1 sampleLambda)).2
      sampleX1 sampleG1 sampleLambda sampleG2
      [LayerCall.FeedForward (interpIn sampleLambda sampleX2 sampleG2),
        LayerCall.FeedBackward (outGrad sampleG2)]
      (by decide) (by decide) (by decide) (by decide) (by decide) (by decide)).2.2.2⟩

/-- C12: the Negative evaluation unit, run on an Evaluated input `X` with `n` elements and
an output handle not yet allocated, ends normally with the output handle Evaluated, of the
shape of `X`, with `n` elements, element `i` being `-X[i]`; the input handle still holds
`X`, so the input buffer is not modified. -/
theorem negative_eval_computes [Inhabited α] [Neg α]
    (u : OperNegative.EvalUnit) (st : EvalState α) (X : Tensor α) (n : Nat)
    (hX : st.handles u.m_inputHandle = .Evaluated X)
    (hO : st.handles u.m_outputHandle = .Unallocated)
    (hcount : X.shape.Count = n) (hXn : X.mem.length = n) :
    ∃ st1 out, u.Eval st = .ok st1 ∧
      st1.handles u.m_outputHandle = .Evaluated out ∧
      out.shape = X.shape ∧ out.mem.length = n ∧
      (∀ i, i < n → ∃ x, X.mem[i]? = some x ∧ out.mem[i]? = some (-x)) ∧
      st1.handles u.m_inputHandle = .Evaluated X := by
  subst hcount
  obtain ⟨st1, mem1, hrun, hout, hlen, hcomp, hoth, _⟩ :=
    negative_eval_spec u st X hX hO hXn
  refine ⟨st1, ⟨X.shape, mem1⟩, hrun, hout, rfl, hlen, hcomp, ?_⟩
  have hne : u.m_inputHandle ≠ u.m_outputHandle := by
    intro e
    rw [e, hO] at hX
    cases hX
  rw [hoth _ hne, hX]

/-- Witness for C12: the 2 x 1 input `[3, -4]`; the unit writes `[-3, 4]`. -/
theorem negative_eval_computes_witness :
    (sampleNegativeState.handles 1 = .Evaluated ⟨[2, 1], [3, -4]⟩ ∧
      sampleNegativeState.handles 2 = .Unallocated) ∧
    ∃ st1 out, (⟨1, 2⟩ : OperNegative.EvalUnit).Eval sampleNegativeState = .ok st1 ∧
      st1.handles 2 = .Evaluated out ∧
      out.shape = [2, 1] ∧ out.mem.length = 2 ∧
      (∀ i, i < 2 → ∃ x, [(3 : Int), -4][i]? = some x ∧ out.mem[i]? = some (-x)) ∧
      st1.handles 1 = .Evaluated ⟨[2, 1], [3, -4]⟩ :=
  ⟨⟨by decide, by decide⟩,
    negative_eval_computes ⟨1, 2⟩ sampleNegativeState ⟨[2, 1], [3, -4]⟩ 2
      (by decide) (by decide) (by decide) (by decide)⟩

/-- C16: one run of `Eval` of the SigmoidGrad unit (`us`, operands `G`, `Y`) and of the
Negative unit (`un`, input `X`), each started with Evaluated operands and an Unallocated
output handle. The run ends normally; the operations it performs are, in this order: the
reads of the operand handles, one `Allocate` of the output handle with the shape of the
gradient (of the input for Negative), `MutableData`, one write per output index
`0 .. count - 1`, and one `SetEval` of the output handle as the last step. The writes reach
the storage: the output handle ends Evaluated with the shape given to `Allocate`, `count`
cells, and in every cell `j` the value the loop assigns there, `grad[j] * in[j] * (1 - in[j])`
(`-in[j]` for Negative). Every handle other than the output is in the state it had before
the run, so the operand handles still hold their values. A run whose operand handle is not
Evaluated stops with the UndefinedValue fault. -/
theorem eval_handle_protocol [Inhabited α] [Mul α] [Sub α] [One α] [Neg α]
    (us : OperSigmoidGrad.EvalUnit) (sts : EvalState α) (G Y : Tensor α)
    (un : OperNegative.EvalUnit) (stn : EvalState α) (X : Tensor α)
    (hG : sts.handles us.m_gradHandle = .Evaluated G)
    (hY : sts.handles us.m_inputHandle = .Evaluated Y)
    (hO : sts.handles us.m_outputHandle = .Unallocated)
    (hshape : G.shape = Y.shape)
    (hGn : G.mem.length = G.shape.Count) (hYn : Y.mem.length = Y.shape.Count)
    (hX : stn.handles un.m_inputHandle = .Evaluated X)
    (hOn : stn.handles un.m_outputHandle = .Unallocated)
    (hXn : X.mem.length = X.shape.Count) :
    (∃ st1 out, us.Eval sts = .ok st1 ∧
      st1.log = sts.log ++ [.Data us.m_gradHandle, .Data us.m_inputHandle,
          .Allocate us.m_outputHandle G.shape, .MutableData us.m_outputHandle]
        ++ (List.range' 0 G.shape.Count).map (Event.Write us.m_outputHandle)
        ++ [.SetEval us.m_outputHandle] ∧
      st1.handles us.m_outputHandle = .Evaluated out ∧
      st1.handles us.m_gradHandle = .Evaluated G ∧
      st1.handles us.m_inputHandle = .Evaluated Y ∧
      out.shape = G.shape ∧ out.mem.length = G.shape.Count ∧
      (∀ j, j < G.shape.Count →
        ∃ g y, G.mem[j]? = some g ∧ Y.mem[j]? = some y ∧
          out.mem[j]? = some (g * y * (1 - y))) ∧
      (∀ p, p ≠ us.m_outputHandle → st1.handles p = sts.handles p)) ∧
    (∃ st1 out, un.Eval stn = .ok st1 ∧
      st1.log = stn.log ++ [.Data un.m_inputHandle,
          .Allocate un.m_outputHandle X.shape, .MutableData un.m_outputHandle]
        ++ (List.range' 0 X.shape.Count).map (Event.Write un.m_outputHandle)
        ++ [.SetEval un.m_outputHandle] ∧
      st1.handles un.m_outputHandle = .Evaluated out ∧
      st1.handles un.m_inputHandle = .Evaluated X ∧
      out.shape = X.shape ∧ out.mem.length = X.shape.Count ∧
      (∀ j, j < X.shape.Count → ∃ x, X.mem[j]? = some x ∧ out.mem[j]? = some (-x)) ∧
      (∀ p, p ≠ un.m_outputHandle → st1.handles p = stn.handles p)) ∧
    (∀ st : EvalState α,
      ((∀ t, st.handles us.m_gradHandle ≠ .Evaluated t) ∨
        (∀ t, st.handles us.m_inputHandle ≠ .Evaluated t)) →
      us.Eval st = .error .undefinedValue) ∧
    (∀ st : EvalState α, (∀ t, st.handles un.m_inputHandle ≠ .Evaluated t) →
      un.Eval st = .error .undefinedValue) := by
  refine ⟨?_, ?_, ?_, ?_⟩
  · obtain ⟨st1, mem1, hrun, hout, hlen, hcomp, hoth, hlog⟩ :=
      sigmoidGrad_eval_spec us sts G Y hG hY hO hshape hGn hYn
    have hne1 : us.m_gradHandle ≠ us.m_outputHandle := by
      intro e; rw [e, hO] at hG; cases hG
    have hne2 : us.m_inputHandle ≠ us.m_outputHandle := by
      intro e; rw [e, hO] at hY; cases hY
    exact ⟨st1, ⟨G.shape, mem1⟩, hrun, hlog, hout, by rw [hoth _ hne1, hG],
      by rw [hoth _ hne2, hY], rfl, hlen, hcomp, hoth⟩
  · obtain ⟨st1, mem1, hrun, hout, hlen, hcomp, hoth, hlog⟩ :=
      negative_eval_spec un stn X hX hOn hXn
    have hne : un.m_inputHandle ≠ un.m_outputHandle := by
      intro e; rw [e, hOn] at hX; cases hX
    exact ⟨st1, ⟨X.shape, mem1⟩, hrun, hlog, hout, by rw [hoth _ hne, hX], rfl, hlen,
      hcomp, hoth⟩
  · intro st h
    rcases h with h | h
    · cases hg : st.handles us.m_gradHandle with
      | Evaluated t => exact absurd hg (h t)
      | Unallocated => simp [OperSigmoidGrad.EvalUnit.Eval, EvalHandle.Data, hg]
      | Allocated t => simp [OperSigmoidGrad.EvalUnit.Eval, EvalHandle.Data, hg]
    · cases hg : st.handles us.m_gradHandle with
      | Evaluated t =>
        cases hy : st.handles us.m_inputHandle with
        | Evaluated t2 => exact absurd hy (h t2)
        | Unallocated => simp [OperSigmoidGrad.EvalUnit.Eval, EvalHandle.Data, hg, hy]
        | Allocated t2 => simp [OperSigmoidGrad.EvalUnit.Eval, EvalHandle.Data, hg, hy]
      | Unallocated => simp [OperSigmoidGrad.EvalUnit.Eval, EvalHandle.Data, hg]
      | Allocated t => simp [OperSigmoidGrad.EvalUnit.Eval, EvalHandle.Data, hg]
  · intro st h
    cases hx : st.handles un.m_inputHandle with
    | Evaluated t => exact absurd hx (h t)
    | Unallocated => simp [OperNegative.EvalUnit.Eval, EvalHandle.Data, hx]
    | Allocated t => simp [OperNegative.EvalUnit.Eval, EvalHandle.Data, hx]

/-- Witness for C16: the SigmoidGrad unit on the 2 x 1 samples and the Negative unit on
the 2 x 1 sample; each log is reads, `Allocate`, `MutableData`, two writes, `SetEval`, and
the output holds the two cells the loop assigned. -/
theorem eval_handle_protocol_witness :
    (sampleEvalState.handles 1 = .Evaluated ⟨[2, 1], [3, 4]⟩ ∧
      sampleEvalState.handles 2 = .Evaluated ⟨[2, 1], [5, 6]⟩ ∧
      sampleEvalState.handles 3 = .Unallocated ∧
      sampleNegativeState.handles 1 = .Evaluated ⟨[2, 1], [3, -4]⟩ ∧
      sampleNegativeState.handles 2 = .Unallocated) ∧
    (∃ st1 out, (⟨1, 2, 3⟩ : OperSigmoidGrad.EvalUnit).Eval sampleEvalState = .ok st1 ∧
      st1.log = [.Data 1, .Data 2, .Allocate 3 [2, 1], .MutableData 3, .Write 3 0,
        .Write 3 1, .SetEval 3] ∧
      st1.handles 3 = .Evaluated out ∧
      st1.handles 1 = .Evaluated ⟨[2, 1], [3, 4]⟩ ∧
      st1.handles 2 = .Evaluated ⟨[2, 1], [5, 6]⟩ ∧
      out.shape = [2, 1] ∧ out.mem.length = 2 ∧
      (∀ j, j < 2 →
        ∃ g y, [(3 : Int), 4][j]? = some g ∧ [(5 : Int), 6][j]? = some y ∧
          out.mem[j]? = some (g * y * (1 - y))) ∧
      (∀ p, p ≠ 3 → st1.handles p = sampleEvalState.handles p)) ∧
    (∃ st1 out, (⟨1, 2⟩ : OperNegative.EvalUnit).Eval sampleNegativeState = .ok st1 ∧
      st1.log = [.Data 1, .Allocate 2 [2, 1], .MutableData 2, .Write 2 0, .Write 2 1,
        .SetEval 2] ∧
      st1.handles 2 = .Evaluated out ∧
      st1.handles 1 = .Evaluated ⟨[2, 1], [3, -4]⟩ ∧
      out.shape = [2, 1] ∧ out.mem.length = 2 ∧
      (∀ j, j < 2 → ∃ x, [(3 : Int), -4][j]? = some x ∧ out.mem[j]? = some (-x)) ∧
      (∀ p, p ≠ 2 → st1.handles p = sampleNegativeState.handles p)) :=
  ⟨⟨by decide, by decide, by decide, by decide, by decide⟩,
    (eval_handle_protocol ⟨1, 2, 3⟩ sampleEvalState ⟨[2, 1], [3, 4]⟩ ⟨[2, 1], [5, 6]⟩
      ⟨1, 2⟩ sampleNegativeState ⟨[2, 1], [3, -4]⟩ (by decide) (by decide) (by decide)
      (by decide) (by decide) (by decide) (by decide) (by decide) (by decide)).1,
    (eval_handle_protocol ⟨1, 2, 3⟩ sampleEvalState ⟨[2, 1], [3, 4]⟩ ⟨[2, 1], [5, 6]⟩
      ⟨1, 2⟩ sampleNegativeState ⟨[2, 1], [3, -4]⟩ (by decide) (by decide) (by decide)
      (by decide) (by decide) (by decide) (by decide) (by decide) (by decide)).2.1⟩

/-- C20: the assertions of the evaluation units hold for nodes built by the builder. Let
`SigmoidGrad(g, y)` return a node, and let the unit read Evaluated operands `G`, `Y` with
the shapes `g` and `y` reported at build time, each buffer holding `Count` elements. Then
`G.shape = Y.shape` (the first assertion), the run of `Eval` never stops at an assertion
or at a raw memory access past a buffer, and with an Unallocated output handle it ends
normally with an output of `count` elements, `count` being at most the length of each of
the three buffers. The same holds for the Negative unit on an Evaluated input `X`. -/
theorem eval_assertions_hold [Inhabited α] [Mul α] [Sub α] [One α] [Neg α]
    (g y r : Node α) (us : OperSigmoidGrad.EvalUnit) (sts : EvalState α) (G Y : Tensor α)
    (un : OperNegative.EvalUnit) (stn : EvalState α) (X : Tensor α)
    (hr : SigmoidGrad g y = .ok r)
    (hG : sts.handles us.m_gradHandle = .Evaluated G)
    (hY : sts.handles us.m_inputHandle = .Evaluated Y)
    (hGs : G.shape = g.Shape) (hYs : Y.shape = y.Shape)
    (hGn : G.mem.length = G.shape.Count) (hYn : Y.mem.length = Y.shape.Count)
    (hX : stn.handles un.m_inputHandle = .Evaluated X)
    (hXn : X.mem.length = X.shape.Count) :
    (r.GetOperand 0 = some g ∧ r.GetOperand 1 = some y ∧ G.shape = Y.shape) ∧
    (us.Eval sts ≠ .error .assertion ∧ us.Eval sts ≠ .error .rawMemory) ∧
    (sts.handles us.m_outputHandle = .Unallocated →
      ∃ st1 out, us.Eval sts = .ok st1 ∧
        st1.handles us.m_outputHandle = .Evaluated out ∧
        Y.shape.Count = out.shape.Count ∧
        Y.shape.Count ≤ G.mem.length ∧ Y.shape.Count ≤ Y.mem.length ∧
        Y.shape.Count ≤ out.mem.length) ∧
    (un.Eval stn ≠ .error .assertion ∧ un.Eval stn ≠ .error .rawMemory) ∧
    (stn.handles un.m_outputHandle = .Unallocated →
      ∃ st1 out, un.Eval stn = .ok st1 ∧
        st1.handles un.m_outputHandle = .Evaluated out ∧
        X.shape.Count = out.shape.Count ∧
        X.shape.Count ≤ X.mem.length ∧ X.shape.Count ≤ out.mem.length) := by
  have hgy : g.Shape = y.Shape := by
    by_contra hne
    simp [SigmoidGrad, hne] at hr
  have hrn : r = .SigmoidGrad g y := by
    simp only [SigmoidGrad, hgy, ne_eq, not_true_eq_false, if_false, Except.ok.injEq] at hr
    exact hr.symm
  have hshape : G.shape = Y.shape := by rw [hGs, hYs, hgy]
  refine ⟨⟨by rw [hrn]; rfl, by rw [hrn]; rfl, hshape⟩,
    sigmoidGrad_eval_no_assert us sts G Y hG hY hshape hGn hYn, ?_,
    negative_eval_no_assert un stn X hX hXn, ?_⟩
  · intro hO
    obtain ⟨st1, mem1, hrun, hout, hlen, _, _, _⟩ :=
      sigmoidGrad_eval_spec us sts G Y hG hY hO hshape hGn hYn
    refine ⟨st1, ⟨G.shape, mem1⟩, hrun, hout, ?_, ?_, ?_, ?_⟩
    · simp only [hshape]
    · rw [hGn, hshape]
    · rw [hYn]
    · simp only [hlen, hshape]; exact Nat.le_refl _
  · intro hO
    obtain ⟨st1, mem1, hrun, hout, hlen, _, _, _⟩ :=
      negative_eval_spec un stn X hX hO hXn
    exact ⟨st1, ⟨X.shape, mem1⟩, hrun, hout, rfl, by rw [hXn], by simp only [hlen]; exact Nat.le_refl _⟩

/-- Witness for C20: the node `SigmoidGrad(sampleG1, sampleX1)` with the 2 x 1 sample
values, and the Negative unit on the 2 x 1 sample. -/
theorem eval_assertions_hold_witness :
    (SigmoidGrad sampleG1 sampleX1 = .ok (.SigmoidGrad sampleG1 sampleX1) ∧
      sampleEvalState.handles 1 = .Evaluated ⟨[2, 1], [3, 4]⟩ ∧
      sampleEvalState.handles 2 = .Evaluated ⟨[2, 1], [5, 6]⟩ ∧
      sampleNegativeState.handles 1 = .Evaluated ⟨[2, 1], [3, -4]⟩) ∧
    ((⟨1, 2, 3⟩ : OperSigmoidGrad.EvalUnit).Eval sampleEvalState ≠ .error .assertion ∧
      (⟨1, 2, 3⟩ : OperSigmoidGrad.EvalUnit).Eval sampleEvalState ≠ .error .rawMemory) ∧
    ((⟨1, 2⟩ : OperNegative.EvalUnit).Eval sampleNegativeState ≠ .error .assertion ∧
      (⟨1, 2⟩ : OperNegative.EvalUnit).Eval sampleNegativeState ≠ .error .rawMemory) :=
  ⟨⟨by decide, by decide, by decide, by decide⟩,
    (eval_assertions_hold sampleG1 sampleX1 (.SigmoidGrad sampleG1 sampleX1) ⟨1, 2, 3⟩
      sampleEvalState ⟨[2, 1], [3, 4]⟩ ⟨[2, 1], [5, 6]⟩ ⟨1, 2⟩ sampleNegativeState
      ⟨[2, 1], [3, -4]⟩ (by decide) (by decide) (by decide) (by decide) (by decide)
      (by decide) (by decide) (by decide) (by decide)).2.1,
    (eval_assertions_hold sampleG1 sampleX1 (.SigmoidGrad sampleG1 sampleX1) ⟨1, 2, 3⟩
      sampleEvalState ⟨[2, 1], [3, 4]⟩ ⟨[2, 1], [5, 6]⟩ ⟨1, 2⟩ sampleNegativeState
      ⟨[2, 1], [3, -4]⟩ (by decide) (by decide) (by decide) (by decide) (by decide)
      (by decide) (by decide) (by decide) (by decide)).2.2.2.1⟩

/-- C17: every state of a feedback-enabled layer reached from a fresh layer by a history
of `FeedForward`, `FeedBackward` and `NeutralInvariant` calls that all return normally.
`SigmoidLayer`: the three stacks have one depth, which is the number of forward calls
minus the number of backward calls of the history; entry `i` of the output checker is the
shape of the buffered output `i`, and entry `i` of the input checker is the shape of the
input `x` whose output `Sigmoid(x)` is buffered at `i`, which is the shape of that output. `InterpolateLayer`: the three
data stacks and the four checkers have that one depth; entry `i` of each input-side
checker is the shape of the operand buffered at `i` of its data stack, and entry `i` of
the output checker is the shape of the output built from the three operands at `i`. -/
theorem layer_stacks_invariant (SP : Shape → Shape → Shape → Shape) (name : String)
    (scalls : List (LayerCall (SigmoidLayerInputCont α) α)) (S : SigmoidLayer true α)
    (icalls : List (LayerCall (InterpolateLayerInputCont α) α)) (I : InterpolateLayer true α)
    (hS : (SigmoidLayer.new true α name).Run scalls = .ok S)
    (hI : (InterpolateLayer.new true α name).Run SP icalls = .ok I) :
    (S.m_data.length + scalls.countP LayerCall.IsBackward
        = scalls.countP LayerCall.IsForward ∧
      S.m_inputShape.m_buffer.length = S.m_data.length ∧
      S.m_outputShape.m_buffer.length = S.m_data.length ∧
      S.m_outputShape.m_buffer = S.m_data.map Node.Shape ∧
      S.m_inputShape.m_buffer = S.m_data.map Node.Shape ∧
      ∃ xs : List (Node α), S.m_data = xs.map Node.Sigmoid ∧
        S.m_inputShape.m_buffer = xs.map Node.Shape) ∧
    (I.m_input1Stack.length + icalls.countP LayerCall.IsBackward
        = icalls.countP LayerCall.IsForward ∧
      I.m_input2Stack.length = I.m_input1Stack.length ∧
      I.m_lambdaStack.length = I.m_input1Stack.length ∧
      I.m_weight1Shape.m_buffer = I.m_input1Stack.map Node.Shape ∧
      I.m_weight2Shape.m_buffer = I.m_input2Stack.map Node.Shape ∧
      I.m_lambdaShape.m_buffer = I.m_lambdaStack.map Node.Shape ∧
      I.m_outputShape.m_buffer.length = I.m_input1Stack.length ∧
      ∃ ts : List (Node α × Node α × Node α),
        I.m_input1Stack = ts.map (fun t => t.1) ∧ I.m_input2Stack = ts.map (fun t => t.2.1) ∧
        I.m_lambdaStack = ts.map (fun t => t.2.2) ∧
        I.m_outputShape.m_buffer
          = ts.map (fun t => (InterpolateLayer.FeedForwardCal SP t.1 t.2.1 t.2.2).Shape)) := by
  constructor
  · obtain ⟨xs, hc, e1, e2, e3⟩ :=
      sigmoid_run_invariant scalls (SigmoidLayer.new true α name) S [] rfl rfl rfl hS
    refine ⟨?_, ?_, ?_, ?_, ?_, xs, e1, e2⟩
    · rw [e1]; simpa using hc
    · rw [e1, e2]; simp
    · rw [e1, e3]; simp
    · rw [e1, e3]; simp
    · rw [e1, e2]; simp [Function.comp_def, Node.Shape]
  · obtain ⟨ts, hc, e1, e2, e3, e4, e5, e6, e7⟩ :=
      interpolate_run_invariant SP icalls (InterpolateLayer.new true α name) I []
        ⟨rfl, rfl, rfl, rfl, rfl, rfl, rfl⟩ hI
    refine ⟨?_, ?_, ?_, ?_, ?_, ?_, ?_, ts, e1, e2, e3, e7⟩
    · rw [e1]; simpa using hc
    · rw [e1, e2]; simp
    · rw [e1, e3]; simp
    · rw [e1, e4]; simp
    · rw [e2, e5]; simp
    · rw [e3, e6]; simp
    · rw [e1, e7]; simp

/-- Witness for C17: two forward calls and one matching backward call on each layer; one
entry is left on every stack. -/
theorem layer_stacks_invariant_witness :
    ((SigmoidLayer.new true Int "root").Run
        [LayerCall.FeedForward (sigIn sampleX1), LayerCall.FeedForward (sigIn sampleX2),
          LayerCall.FeedBackward (outGrad sampleG2)]
        = .ok ((SigmoidLayer.new true Int "root").FeedForward (sigIn sampleX1)).2 ∧
      (InterpolateLayer.new true Int "root").Run ShapePromoteByRank
        [LayerCall.FeedForward (interpIn sampleX1 sampleG1 sampleLambda),
          LayerCall.FeedForward (interpIn sampleLambda sampleX2 sampleG2),
          LayerCall.FeedBackward (outGrad sampleG2)]
        = .ok ((InterpolateLayer.new true Int "root").FeedForward ShapePromoteByRank
            (interpIn sampleX1 sampleG1 sampleLambda)).2) ∧
    ((SigmoidLayer.new true Int "root").FeedForward (sigIn sampleX1)).2.m_data.length + 1
      = 2 :=
  ⟨⟨by decide, by decide⟩,
    (layer_stacks_invariant ShapePromoteByRank "root"
      [LayerCall.FeedForward (sigIn sampleX1), LayerCall.FeedForward (sigIn sampleX2),
        LayerCall.FeedBackward (outGrad sampleG2)]
      ((SigmoidLayer.new true Int "root").FeedForward (sigIn sampleX1)).2
      [LayerCall.FeedForward (interpIn sampleX1 sampleG1 sampleLambda),
        LayerCall.FeedForward (interpIn sampleLambda sampleX2 sampleG2),
        LayerCall.FeedBackward (outGrad sampleG2)]
      ((InterpolateLayer.new true Int "root").FeedForward ShapePromoteByRank
        (interpIn sampleX1 sampleG1 sampleLambda)).2 (by decide) (by decide)).1.1⟩

/-- C18: in every state reached from a fresh feedback-enabled layer by a history of calls
that all return normally. `SigmoidLayer`: when `m_outputShape.CheckAndPop(grad.Shape())`
passes, the shape of the gradient is the shape of the buffered output on top of `m_data`,
so the builder `SigmoidGrad(grad, input)` returns its node, and no call of `FeedBackward`
ends with the shape-mismatch error of the builder. `InterpolateLayer`: when the three
data stacks are non-empty, so are the four shape checkers, and no call of `FeedBackward`
ends with the "empty" error of a shape checker. -/
theorem feedBackward_unreachable_errors (SP : Shape → Shape → Shape → Shape) (name : String)
    (scalls : List (LayerCall (SigmoidLayerInputCont α) α)) (S : SigmoidLayer true α)
    (icalls : List (LayerCall (InterpolateLayerInputCont α) α)) (I : InterpolateLayer true α)
    (hS : (SigmoidLayer.new true α name).Run scalls = .ok S)
    (hI : (InterpolateLayer.new true α name).Run SP icalls = .ok I) :
    (∀ (y : Node α) (rest : List (Node α)) (grad : Node α), S.m_data = y :: rest →
      (S.m_outputShape.CheckAndPop grad.Shape).1 = .ok () →
      grad.Shape = y.Shape ∧ SigmoidGrad grad y = .ok (.SigmoidGrad grad y)) ∧
    (∀ p_grad, (S.FeedBackward p_grad).1 ≠ .error .sigmoidGradShapeMismatch) ∧
    (I.m_input1Stack ≠ [] → I.m_input2Stack ≠ [] → I.m_lambdaStack ≠ [] →
      I.m_weight1Shape.m_buffer ≠ [] ∧ I.m_weight2Shape.m_buffer ≠ [] ∧
      I.m_lambdaShape.m_buffer ≠ [] ∧ I.m_outputShape.m_buffer ≠ []) ∧
    (∀ p_grad, (I.FeedBackward p_grad).1 ≠ .error .shapeStackEmpty) := by
  obtain ⟨xs, _, e1, e2, e3⟩ :=
    sigmoid_run_invariant scalls (SigmoidLayer.new true α name) S [] rfl rfl rfl hS
  obtain ⟨ts, _, f1, f2, f3, f4, f5, f6, f7⟩ :=
    interpolate_run_invariant SP icalls (InterpolateLayer.new true α name) I []
      ⟨rfl, rfl, rfl, rfl, rfl, rfl, rfl⟩ hI
  refine ⟨?_, ?_, ?_, ?_⟩
  · intro y rest grad hy hc
    cases xs with
    | nil => rw [e1] at hy; simp at hy
    | cons x xs =>
      rw [e1] at hy
      simp only [List.map_cons, List.cons.injEq] at hy
      have hgy : grad.Shape = y.Shape := by
        rw [← hy.1]
        by_contra hne
        have hne1 : ¬ (Node.Sigmoid x).Shape = grad.Shape := fun e => hne e.symm
        simp [ShapeChecker.CheckAndPop, e3, hne1] at hc
      exact ⟨hgy, by simp [SigmoidGrad, hgy]⟩
  · intro p_grad
    obtain ⟨n, d, ⟨ins⟩, ⟨outs⟩⟩ := S
    simp only at e1 e2 e3
    subst e1 e2 e3
    cases xs with
    | nil => simp [SigmoidLayer.FeedBackward]
    | cons x xs =>
      cases hp : p_grad.LayerOutput with
      | none => simp [SigmoidLayer.FeedBackward, hp]
      | some grad =>
        by_cases hc : x.Shape = grad.Shape
        · simp [SigmoidLayer.FeedBackward, hp, ShapeChecker.CheckAndPop, Node.Shape, hc,
            SigmoidGrad]
        · simp [SigmoidLayer.FeedBackward, hp, ShapeChecker.CheckAndPop, Node.Shape, hc]
  · intro h1 _ _
    cases ts with
    | nil => rw [f1] at h1; simp at h1
    | cons t ts =>
      rw [f4, f5, f6, f7]
      simp
  · intro p_grad
    obtain ⟨n, s1, s2, sl, ⟨w1⟩, ⟨w2⟩, ⟨wl⟩, ⟨os⟩⟩ := I
    simp only at f1 f2 f3 f4 f5 f6 f7
    subst f1 f2 f3 f4 f5 f6 f7
    cases ts with
    | nil => simp [InterpolateLayer.FeedBackward]
    | cons t ts =>
      cases hp : p_grad.LayerOutput with
      | none => simp [InterpolateLayer.FeedBackward, hp]
      | some grad =>
        by_cases hc : SP t.1.Shape t.2.1.Shape t.2.2.Shape = grad.Shape
        · simp [InterpolateLayer.FeedBackward, hp, ShapeChecker.CheckAndPop, Node.Shape, hc,
            InterpolateLayer.FeedForwardCal]
        · simp [InterpolateLayer.FeedBackward, hp, ShapeChecker.CheckAndPop, Node.Shape, hc,
            InterpolateLayer.FeedForwardCal]

/-- Witness for C18: both layers after two forward calls and one matching backward call,
then called backward with a gradient of the wrong shape, of the right shape, or with an
empty bundle. -/
theorem feedBackward_unreachable_errors_witness :
    ((SigmoidLayer.new true Int "root").Run
        [LayerCall.FeedForward (sigIn sampleX1), LayerCall.FeedForward (sigIn sampleX2),
          LayerCall.FeedBackward (outGrad sampleG2)]
        = .ok ((SigmoidLayer.new true Int "root").FeedForward (sigIn sampleX1)).2 ∧
      (InterpolateLayer.new true Int "root").Run ShapePromoteByRank
        [LayerCall.FeedForward (interpIn sampleX1 sampleG1 sampleLambda),
          LayerCall.FeedForward (interpIn sampleLambda sampleX2 sampleG2),
          LayerCall.FeedBackward (outGrad sampleG2)]
        = .ok ((InterpolateLayer.new true Int "root").FeedForward ShapePromoteByRank
            (interpIn sampleX1 sampleG1 sampleLambda)).2) ∧
    (∀ p_grad, (((SigmoidLayer.new true Int "root").FeedForward
        (sigIn sampleX1)).2.FeedBackward p_grad).1 ≠ .error .sigmoidGradShapeMismatch) ∧
    (∀ p_grad, (((InterpolateLayer.new true Int "root").FeedForward ShapePromoteByRank
        (interpIn sampleX1 sampleG1 sampleLambda)).2.FeedBackward p_grad).1
      ≠ .error .shapeStackEmpty) :=
  ⟨⟨by decide, by decide⟩,
    (feedBackward_unreachable_errors ShapePromoteByRank "root"
      [LayerCall.FeedForward (sigIn sampleX1), LayerCall.FeedForward (sigIn sampleX2),
        LayerCall.FeedBackward (outGrad sampleG2)]
      ((SigmoidLayer.new true Int "root").FeedForward (sigIn sampleX1)).2
      [LayerCall.FeedForward (interpIn sampleX1 sampleG1 sampleLambda),
        LayerCall.FeedForward (interpIn sampleLambda sampleX2 sampleG2),
        LayerCall.FeedBackward (outGrad sampleG2)]
      ((InterpolateLayer.new true Int "root").FeedForward ShapePromoteByRank
        (interpIn sampleX1 sampleG1 sampleLambda)).2 (by decide) (by decide)).2.1,
    (feedBackward_unreachable_errors ShapePromoteByRank "root"
      [LayerCall.FeedForward (sigIn sampleX1), LayerCall.FeedForward (sigIn sampleX2),
        LayerCall.FeedBackward (outGrad sampleG2)]
      ((SigmoidLayer.new true Int "root").FeedForward (sigIn sampleX1)).2
      [LayerCall.FeedForward (interpIn sampleX1 sampleG1 sampleLambda),
        LayerCall.FeedForward (interpIn sampleLambda sampleX2 sampleG2),
        LayerCall.FeedBackward (outGrad sampleG2)]
      ((InterpolateLayer.new true Int "root").FeedForward ShapePromoteByRank
        (interpIn sampleX1 sampleG1 sampleLambda)).2 (by decide) (by decide)).2.2.2⟩

/-- C19: a feedback-enabled `SigmoidLayer` or `InterpolateLayer` in any state receives a
forward call, followed by any history of calls that return normally and are all paired
among themselves. `FeedBackward` with a gradient whose shape differs from the shape of
the output of that forward call throws the shape-mismatch error, and in the state it
leaves behind the buffered forward values are not consumed: `m_data` and `m_inputShape`
of the `SigmoidLayer`, and `m_input1Stack`, `m_input2Stack`, `m_lambdaStack`,
`m_weight1Shape`, `m_weight2Shape`, `m_lambdaShape` of the `InterpolateLayer`, are as
before the call, still holding what the forward call pushed. -/
theorem feedBackward_mismatch_keeps_buffers (SP : Shape → Shape → Shape → Shape)
    (S S1 : SigmoidLayer true α) (x g : Node α)
    (scalls : List (LayerCall (SigmoidLayerInputCont α) α))
    (I I1 : InterpolateLayer true α) (v1 v2 lam h : Node α)
    (icalls : List (LayerCall (InterpolateLayerInputCont α) α))
    (hSU : LayerCall.Unmatched scalls 0 = some 0)
    (hSR : (S.FeedForward (sigIn x)).2.Run scalls = .ok S1)
    (hIU : LayerCall.Unmatched icalls 0 = some 0)
    (hIR : (I.FeedForward SP (interpIn v1 v2 lam)).2.Run SP icalls = .ok I1)
    (hg : g.Shape ≠ (SigmoidLayer.FeedForwardCal x).Shape)
    (hh : h.Shape ≠ (InterpolateLayer.FeedForwardCal SP v1 v2 lam).Shape) :
    (∃ S2, S1.FeedBackward (outGrad g) = (.error .shapeMismatch, S2) ∧
      S2.m_data = S1.m_data ∧ S2.m_inputShape = S1.m_inputShape ∧
      S1.m_data = Node.Sigmoid x :: S.m_data ∧
      S1.m_inputShape.m_buffer = x.Shape :: S.m_inputShape.m_buffer) ∧
    (∃ I2, I1.FeedBackward (outGrad h) = (.error .shapeMismatch, I2) ∧
      I2.m_input1Stack = I1.m_input1Stack ∧ I2.m_input2Stack = I1.m_input2Stack ∧
      I2.m_lambdaStack = I1.m_lambdaStack ∧ I2.m_weight1Shape = I1.m_weight1Shape ∧
      I2.m_weight2Shape = I1.m_weight2Shape ∧ I2.m_lambdaShape = I1.m_lambdaShape ∧
      I1.m_input1Stack = v1 :: I.m_input1Stack ∧ I1.m_input2Stack = v2 :: I.m_input2Stack ∧
      I1.m_lambdaStack = lam :: I.m_lambdaStack) := by
  constructor
  · rw [sigmoid_run_balanced _ S1 scalls hSU hSR]
    have hg1 : ¬ x.Shape = g.Shape := by
      intro e; exact hg (by simp [SigmoidLayer.FeedForwardCal, Node.Shape, e])
    refine ⟨((S.FeedForward (sigIn x)).2.FeedBackward (outGrad g)).2, ?_, ?_, ?_, ?_, ?_⟩
    · simp [SigmoidLayer.FeedForward, SigmoidLayer.FeedForwardCal, SigmoidLayer.FeedBackward,
        SigmoidLayerInputCont.SetLayerInput, LayerOutputCont.SetLayerOutput,
        ShapeChecker.Push, ShapeChecker.CheckAndPop, Node.Shape, hg1]
    · simp [SigmoidLayer.FeedForward, SigmoidLayer.FeedForwardCal, SigmoidLayer.FeedBackward,
        SigmoidLayerInputCont.SetLayerInput, LayerOutputCont.SetLayerOutput,
        ShapeChecker.Push, ShapeChecker.CheckAndPop, Node.Shape, hg1]
    · simp [SigmoidLayer.FeedForward, SigmoidLayer.FeedForwardCal, SigmoidLayer.FeedBackward,
        SigmoidLayerInputCont.SetLayerInput, LayerOutputCont.SetLayerOutput,
        ShapeChecker.Push, ShapeChecker.CheckAndPop, Node.Shape, hg1]
    · simp [SigmoidLayer.FeedForward, SigmoidLayerInputCont.SetLayerInput,
        SigmoidLayer.FeedForwardCal]
    · simp [SigmoidLayer.FeedForward, SigmoidLayerInputCont.SetLayerInput,
        ShapeChecker.Push]
  · rw [interpolate_run_balanced SP _ I1 icalls hIU hIR]
    have hh1 : ¬ SP v1.Shape v2.Shape lam.Shape = h.Shape := by
      intro e; exact hh (by rw [interpolate_feedForwardCal_shape, e])
    refine ⟨((I.FeedForward SP (interpIn v1 v2 lam)).2.FeedBackward (outGrad h)).2,
      ?_, ?_, ?_, ?_, ?_, ?_, ?_, ?_, ?_, ?_⟩
    all_goals
      simp [InterpolateLayer.FeedForward, InterpolateLayer.FeedForwardCal,
        InterpolateLayer.FeedBackward, InterpolateLayerInputCont.SetWeight1,
        InterpolateLayerInputCont.SetWeight2, InterpolateLayerInputCont.SetLambda,
        LayerOutputCont.SetLayerOutput, ShapeChecker.Push, ShapeChecker.CheckAndPop,
        Node.Shape, hh1]

/-- Witness for C19: after a forward call whose output is 2 x 1 and one further matched
pair of calls, a 1 x 3 gradient is refused by both layers and the buffered values stay. -/
theorem feedBackward_mismatch_keeps_buffers_witness :
    (LayerCall.Unmatched
        [LayerCall.FeedForward (sigIn sampleX2), LayerCall.FeedBackward (outGrad sampleG2)] 0
        = some 0 ∧
      ((SigmoidLayer.new true Int "root").FeedForward (sigIn sampleX1)).2.Run
        [LayerCall.FeedForward (sigIn sampleX2), LayerCall.FeedBackward (outGrad sampleG2)]
        = .ok ((SigmoidLayer.new true Int "root").FeedForward (sigIn sampleX1)).2 ∧
      LayerCall.Unmatched
        [LayerCall.FeedForward (interpIn sampleLambda sampleX2 sampleG2),
          LayerCall.FeedBackward (outGrad sampleG2)] 0 = some 0 ∧
      ((InterpolateLayer.new true Int "root").FeedForward ShapePromoteByRank
          (interpIn sampleX1 sampleG1 sampleLambda)).2.Run ShapePromoteByRank
        [LayerCall.FeedForward (interpIn sampleLambda sampleX2 sampleG2),
          LayerCall.FeedBackward (outGrad sampleG2)]
        = .ok ((InterpolateLayer.new true Int "root").FeedForward ShapePromoteByRank
            (interpIn sampleX1 sampleG1 sampleLambda)).2 ∧
      sampleG2.Shape ≠ (SigmoidLayer.FeedForwardCal sampleX1).Shape ∧
      sampleG2.Shape
        ≠ (InterpolateLayer.FeedForwardCal ShapePromoteByRank sampleX1 sampleG1
            sampleLambda).Shape) ∧
    (∃ S2, ((SigmoidLayer.new true Int "root").FeedForward (sigIn sampleX1)).2.FeedBackward
          (outGrad sampleG2) = (.error .shapeMismatch, S2) ∧
      S2.m_data = ((SigmoidLayer.new true Int "root").FeedForward (sigIn sampleX1)).2.m_data ∧
      S2.m_inputShape
        = ((SigmoidLayer.new true Int "root").FeedForward (sigIn sampleX1)).2.m_inputShape ∧
      ((SigmoidLayer.new true Int "root").FeedForward (sigIn sampleX1)).2.m_data
        = [Node.Sigmoid sampleX1] ∧
      ((SigmoidLayer.new true Int "root").FeedForward (sigIn sampleX1)).2.m_inputShape.m_buffer
        = [[2, 1]]) :=
  ⟨⟨by decide, by decide, by decide, by decide, by decide, by decide⟩,
    (feedBackward_mismatch_keeps_buffers ShapePromoteByRank
      (SigmoidLayer.new true Int "root")
      ((SigmoidLayer.new true Int "root").FeedForward (sigIn sampleX1)).2
      sampleX1 sampleG2
      [LayerCall.FeedForward (sigIn sampleX2), LayerCall.FeedBackward (outGrad sampleG2)]
      (InterpolateLayer.new true Int "root")
      ((InterpolateLayer.new true Int "root").FeedForward ShapePromoteByRank
        (interpIn sampleX1 sampleG1 sampleLambda)).2
      sampleX1 sampleG1 sampleLambda sampleG2
      [LayerCall.FeedForward (interpIn sampleLambda sampleX2 sampleG2),
        LayerCall.FeedBackward (outGrad sampleG2)]
      (by decide) (by decide) (by decide) (by decide) (by decide) (by decide)).1⟩

/-- C11: for a feedback-enabled `SigmoidLayer` or `InterpolateLayer` in any state,
`NeutralInvariant` throws exactly when at least one data stack or shape checker of the
layer is non-empty. After `k` forward calls followed by `m < k` backward calls on a fresh
layer, all returning normally, it throws. It takes the layer and returns no new state:
a history that consists of a normally returning `NeutralInvariant` ends in the state it
started from. -/
theorem neutralInvariant_raises_iff (SP : Shape → Shape → Shape → Shape) (name : String)
    (S S1 : SigmoidLayer true α) (I I1 : InterpolateLayer true α)
    (sins : List (SigmoidLayerInputCont α)) (iins : List (InterpolateLayerInputCont α))
    (sgrads igrads : List (LayerOutputCont α))
    (hS : (SigmoidLayer.new true α name).Run
      (sins.map LayerCall.FeedForward ++ sgrads.map LayerCall.FeedBackward) = .ok S1)
    (hSlt : sgrads.length < sins.length)
    (hI : (InterpolateLayer.new true α name).Run SP
      (iins.map LayerCall.FeedForward ++ igrads.map LayerCall.FeedBackward) = .ok I1)
    (hIlt : igrads.length < iins.length) :
    ((∃ e, S.NeutralInvariant = .error e) ↔
      (S.m_data ≠ [] ∨ S.m_inputShape.m_buffer ≠ [] ∨ S.m_outputShape.m_buffer ≠ [])) ∧
    ((∃ e, I.NeutralInvariant = .error e) ↔
      (I.m_input1Stack ≠ [] ∨ I.m_input2Stack ≠ [] ∨ I.m_lambdaStack ≠ [] ∨
        I.m_weight1Shape.m_buffer ≠ [] ∨ I.m_weight2Shape.m_buffer ≠ [] ∨
        I.m_lambdaShape.m_buffer ≠ [] ∨ I.m_outputShape.m_buffer ≠ [])) ∧
    S1.NeutralInvariant = .error .neutralInvariantFail ∧
    I1.NeutralInvariant = .error .neutralInvariantFail ∧
    (∀ S2, S.Run [LayerCall.NeutralInvariant] = .ok S2 → S2 = S) ∧
    (∀ I2, I.Run SP [LayerCall.NeutralInvariant] = .ok I2 → I2 = I) := by
  have hcF : ∀ {In : Type} (l : List In) (m : List (LayerOutputCont α)),
      (l.map (LayerCall.FeedForward : In → LayerCall In α)
        ++ m.map LayerCall.FeedBackward).countP LayerCall.IsForward = l.length := by
    intro In l m
    induction l with
    | nil =>
      induction m with
      | nil => rfl
      | cons b m ihm => simp [List.countP_cons, LayerCall.IsForward]
    | cons a l ih => simpa [List.countP_cons, LayerCall.IsForward] using ih
  have hcB : ∀ {In : Type} (l : List In) (m : List (LayerOutputCont α)),
      (l.map (LayerCall.FeedForward : In → LayerCall In α)
        ++ m.map LayerCall.FeedBackward).countP LayerCall.IsBackward = m.length := by
    intro In l m
    induction l with
    | nil =>
      induction m with
      | nil => rfl
      | cons b m ihm => simp [List.countP_cons, LayerCall.IsBackward]
    | cons a l ih => simpa [List.countP_cons, LayerCall.IsBackward] using ih
  refine ⟨?_, ?_, ?_, ?_, ?_, ?_⟩
  · obtain ⟨n, d, ⟨ins⟩, ⟨outs⟩⟩ := S
    cases d <;> cases ins <;> cases outs <;>
      simp [SigmoidLayer.NeutralInvariant, ShapeChecker.AssertEmpty]
  · obtain ⟨n, s1, s2, sl, ⟨w1⟩, ⟨w2⟩, ⟨wl⟩, ⟨os⟩⟩ := I
    cases s1 <;> cases s2 <;> cases sl <;> cases w1 <;> cases w2 <;> cases wl <;> cases os <;>
      simp [InterpolateLayer.NeutralInvariant, ShapeChecker.AssertEmpty]
  · obtain ⟨xs, hc, e1, _, _⟩ :=
      sigmoid_run_invariant _ (SigmoidLayer.new true α name) S1 [] rfl rfl rfl hS
    rw [hcF, hcB] at hc
    cases xs with
    | nil => simp at hc; omega
    | cons x xs =>
      simp [SigmoidLayer.NeutralInvariant, e1]
  · obtain ⟨ts, hc, e1, _⟩ :=
      interpolate_run_invariant SP _ (InterpolateLayer.new true α name) I1 []
        ⟨rfl, rfl, rfl, rfl, rfl, rfl, rfl⟩ hI
    rw [hcF, hcB] at hc
    cases ts with
    | nil => simp at hc; omega
    | cons t ts =>
      simp [InterpolateLayer.NeutralInvariant, e1]
  · intro S2 h
    simp only [SigmoidLayer.Run] at h
    rcases hN : S.NeutralInvariant with _ | u
    · simp [hN] at h
    · simp only [hN, Except.ok.injEq] at h
      exact h.symm
  · intro I2 h
    simp only [InterpolateLayer.Run] at h
    rcases hN : I.NeutralInvariant with _ | u
    · simp [hN] at h
    · simp only [hN, Except.ok.injEq] at h
      exact h.symm

/-- Witness for C11: two forward calls and one backward call on each fresh layer. -/
theorem neutralInvariant_raises_iff_witness :
    ((SigmoidLayer.new true Int "root").Run
        ([sigIn sampleX1, sigIn sampleX2].map LayerCall.FeedForward
          ++ [outGrad sampleG2].map LayerCall.FeedBackward)
        = .ok ((SigmoidLayer.new true Int "root").FeedForward (sigIn sampleX1)).2 ∧
      [outGrad sampleG2].length < [sigIn sampleX1, sigIn sampleX2].length ∧
      (InterpolateLayer.new true Int "root").Run ShapePromoteByRank
        ([interpIn sampleX1 sampleG1 sampleLambda,
            interpIn sampleLambda sampleX2 sampleG2].map LayerCall.FeedForward
          ++ [outGrad sampleG2].map LayerCall.FeedBackward)
        = .ok ((InterpolateLayer.new true Int "root").FeedForward ShapePromoteByRank
            (interpIn sampleX1 sampleG1 sampleLambda)).2) ∧
    ((SigmoidLayer.new true Int "root").FeedForward (sigIn sampleX1)).2.NeutralInvariant
      = .error .neutralInvariantFail ∧
    ((InterpolateLayer.new true Int "root").FeedForward ShapePromoteByRank
        (interpIn sampleX1 sampleG1 sampleLambda)).2.NeutralInvariant
      = .error .neutralInvariantFail :=
  ⟨⟨by decide, by decide, by decide⟩,
    (neutralInvariant_raises_iff ShapePromoteByRank "root"
      (SigmoidLayer.new true Int "root")
      ((SigmoidLayer.new true Int "root").FeedForward (sigIn sampleX1)).2
      (InterpolateLayer.new true Int "root")
      ((InterpolateLayer.new true Int "root").FeedForward ShapePromoteByRank
        (interpIn sampleX1 sampleG1 sampleLambda)).2
      [sigIn sampleX1, sigIn sampleX2]
      [interpIn sampleX1 sampleG1 sampleLambda, interpIn sampleLambda sampleX2 sampleG2]
      [outGrad sampleG2] [outGrad sampleG2] (by decide) (by decide) (by decide)
      (by decide)).2.2.1,
    (neutralInvariant_raises_iff ShapePromoteByRank "root"
      (SigmoidLayer.new true Int "root")
      ((SigmoidLayer.new true Int "root").FeedForward (sigIn sampleX1)).2
      (InterpolateLayer.new true Int "root")
      ((InterpolateLayer.new true Int "root").FeedForward ShapePromoteByRank
        (interpIn sampleX1 sampleG1 sampleLambda)).2
      [sigIn sampleX1, sigIn sampleX2]
      [interpIn sampleX1 sampleG1 sampleLambda, interpIn sampleLambda sampleX2 sampleG2]
      [outGrad sampleG2] [outGrad sampleG2] (by decide) (by decide) (by decide)
      (by decide)).2.2.2.1⟩

/-- C15: the same SigmoidGrad node `SigmoidGrad(g, y)` is registered `n + 1` times for the
output identity `evalRes` in a plan without producer for it, the operand registration
leaving rows of that identity alone. The plan `P` then has exactly one row for `evalRes`:
the unit over the handles `h1`, `h2` of the two operands, with dependency identities
`[h1, h2]`. Forcing `evalRes` in a state where forcing the two operands leaves them
Evaluated (equal shapes, buffers of `Count` cells) runs `Eval` of that unit once, after
the operands were forced, and forcing it again runs nothing: the state, log included,
stays as it is. Whenever forcing `evalRes` succeeds from a state where it is not
Evaluated, the unit ran on a state in which both operand handles were Evaluated. -/
theorem sigmoidGrad_registered_once_run_once [Inhabited α] [Mul α] [Sub α] [One α]
    (reg : Node α → EvalPlan α → Nat × EvalPlan α) (evalRes : Nat) (plan0 P : EvalPlan α)
    (g y : Node α) (n h1 h2 fuel : Nat) (st st1 : EvalState α) (G Y : Tensor α)
    (hA1 : plan0.HasProducer evalRes = false)
    (hA2 : ∀ node p, (reg node p).2.m_entries.filter (fun e => e.dataPtr == evalRes)
      = p.m_entries.filter (fun e => e.dataPtr == evalRes))
    (hh1 : h1 = (reg g plan0).1) (hh2 : h2 = (reg y (reg g plan0).2).1)
    (hP : P = (OperSigmoidGrad.Calculator.EvalRegister reg evalRes (.SigmoidGrad g y))^[n + 1]
      plan0)
    (hst : ∀ t, st.handles evalRes ≠ .Evaluated t)
    (hdeps : [h1, h2].foldlM (fun s dep => P.Force fuel dep s) st = .ok st1)
    (hG : st1.handles h1 = .Evaluated G) (hY : st1.handles h2 = .Evaluated Y)
    (hO : st1.handles evalRes = .Unallocated)
    (hshape : G.shape = Y.shape)
    (hGn : G.mem.length = G.shape.Count) (hYn : Y.mem.length = Y.shape.Count) :
    (∃ e, P.m_entries.filter (fun e => e.dataPtr == evalRes) = [e] ∧
      e.dataPtr = evalRes ∧ e.depVec = [h1, h2] ∧
      e.unit = OperSigmoidGrad.EvalUnit.Eval ⟨h1, h2, evalRes⟩) ∧
    (∃ st2 out, P.Force (fuel + 1) evalRes st = .ok st2 ∧
      st2.handles evalRes = .Evaluated out ∧
      st2.log = st1.log ++ [.Data h1, .Data h2, .Allocate evalRes G.shape,
          .MutableData evalRes]
        ++ (List.range' 0 G.shape.Count).map (Event.Write evalRes) ++ [.SetEval evalRes] ∧
      P.Force (fuel + 1) evalRes st2 = .ok st2) ∧
    (∀ (fuel1 : Nat) (sta stb : EvalState α), (∀ t, sta.handles evalRes ≠ .Evaluated t) →
      P.Force (fuel1 + 1) evalRes sta = .ok stb →
      ∃ stm G1 Y1, [h1, h2].foldlM (fun s dep => P.Force fuel1 dep s) sta = .ok stm ∧
        stm.handles h1 = .Evaluated G1 ∧ stm.handles h2 = .Evaluated Y1 ∧
        (⟨h1, h2, evalRes⟩ : OperSigmoidGrad.EvalUnit).Eval stm = .ok stb) := by
  have hfilter := evalRegister_iterate_filter reg evalRes g y hA2 plan0 hA1 n
  rw [← hP, ← hh1, ← hh2] at hfilter
  have hfind := find_of_filter_cons _ _ _ _ hfilter
  refine ⟨⟨_, hfilter, rfl, rfl, rfl⟩, ?_, ?_⟩
  · obtain ⟨st2, mem2, hrun, hout, _, _, _, hlog⟩ :=
      sigmoidGrad_eval_spec ⟨h1, h2, evalRes⟩ st1 G Y hG hY hO hshape hGn hYn
    refine ⟨st2, _, ?_, hout, hlog, force_evaluated P fuel evalRes st2 _ hout⟩
    rw [force_run P fuel evalRes st st1 _ hst hfind hdeps]
    exact hrun
  · intro fuel1 sta stb hsta hF
    obtain ⟨stm, hd, hu⟩ := force_ok_run P fuel1 evalRes sta stb _ hsta hfind hF
    obtain ⟨G1, Y1, e1, e2⟩ := sigmoidGrad_eval_ok_operands ⟨h1, h2, evalRes⟩ stm stb hu
    exact ⟨stm, G1, Y1, hd, e1, e2, hu⟩

/-- Witness for C15: the node over two evaluated 2 x 1 operands is registered twice for the
identity 3; forcing 3 runs the unit once, and forcing again changes nothing. -/
theorem sigmoidGrad_registered_once_run_once_witness :
    (({} : EvalPlan Int).HasProducer 3 = false ∧
      sampleEvalState.handles 1 = .Evaluated ⟨[2, 1], [3, 4]⟩ ∧
      sampleEvalState.handles 2 = .Evaluated ⟨[2, 1], [5, 6]⟩ ∧
      sampleEvalState.handles 3 = .Unallocated) ∧
    ∃ st2 out,
      ((OperSigmoidGrad.Calculator.EvalRegister sampleOperandEvalRegister 3
          (.SigmoidGrad sampleG1 (.Sigmoid sampleX1)))^[1 + 1] {}).Force (1 + 1) 3
          sampleEvalState = .ok st2 ∧
      st2.handles 3 = .Evaluated out ∧
      st2.log = [.Data 1, .Data 2, .Allocate 3 [2, 1], .MutableData 3, .Write 3 0,
        .Write 3 1, .SetEval 3] ∧
      ((OperSigmoidGrad.Calculator.EvalRegister sampleOperandEvalRegister 3
          (.SigmoidGrad sampleG1 (.Sigmoid sampleX1)))^[1 + 1] {}).Force (1 + 1) 3 st2
        = .ok st2 :=
  ⟨⟨by decide, by decide, by decide, by decide⟩,
    (sigmoidGrad_registered_once_run_once sampleOperandEvalRegister 3 {} _
      sampleG1 (.Sigmoid sampleX1) 1 1 2 1 sampleEvalState sampleEvalState
      ⟨[2, 1], [3, 4]⟩ ⟨[2, 1], [5, 6]⟩ (by decide) (fun _ _ => rfl) rfl rfl rfl
      (fun t h => by cases h) rfl (by decide) (by decide) (by decide) (by decide) (by decide)
      (by decide)).2.1⟩

/-- C13: a fresh feedback-enabled `TanhLayer` satisfies `NeutralInvariant`; it then receives
forward calls with the materialized inputs `xs`, of any shapes, and the i-th output
evaluates to `tanh(x_i)` elementwise with the shape of `x_i`; the backward calls `gs` that
follow, the j-th gradient having the shape of the input it is paired with (last forward
first), return results that evaluate to `g * (1 - tanh(x) * tanh(x))` elementwise over the
paired input `x`; afterwards `NeutralInvariant` holds again. `tanh` is any function on
the element type, in exact arithmetic. -/
theorem tanh_forward_backward_lifo [Mul α] [Sub α] [One α] (tanh : α → α) (name : String)
    (xs gs : List (Tensor α))
    (hgs : gs.map (fun g => g.shape) = (xs.map fun x => x.shape).reverse) :
    (TanhLayer.new true α name).NeutralInvariant = .ok () ∧
    (∃ outs, ((TanhLayer.new true α name).FeedForwardSeq
          (xs.map fun x => tanhIn (.tensor x))).1 = .ok outs ∧
      outs.map (fun o => o.LayerOutput.bind (Node.Evaluate tanh))
        = xs.map (fun x => some ⟨x.shape, x.mem.map tanh⟩)) ∧
    (∃ rs, (((TanhLayer.new true α name).FeedForwardSeq
          (xs.map fun x => tanhIn (.tensor x))).2.FeedBackwardSeq
          (gs.map fun g => outGrad (.tensor g))).1 = .ok rs ∧
      rs.map (fun r => r.LayerInput.bind (Node.Evaluate tanh))
        = List.zipWith (fun g x => some ⟨g.shape,
            List.zipWith (fun gi xi => gi * (1 - tanh xi * tanh xi)) g.mem x.mem⟩)
          gs xs.reverse) ∧
    (((TanhLayer.new true α name).FeedForwardSeq
        (xs.map fun x => tanhIn (.tensor x))).2.FeedBackwardSeq
        (gs.map fun g => outGrad (.tensor g))).2.NeutralInvariant = .ok () := by
  have hgs1 : (gs.map Node.tensor).map Node.Shape
      = ((xs.map Node.tensor).map Node.Shape).reverse := by
    simpa [List.map_map, Function.comp_def, Node.Shape] using hgs
  obtain ⟨hF, hB⟩ := tanh_seq_roundtrip (TanhLayer.new true α name) (xs.map Node.tensor)
  simp only [List.map_map, Function.comp_def] at hF hB
  have hB1 := hB (gs.map Node.tensor) (by simpa [List.map_map, Function.comp_def] using hgs1)
  simp only [List.map_map, Function.comp_def] at hB1
  refine ⟨rfl, ⟨_, hF, ?_⟩, ⟨_, by rw [hB1], ?_⟩, by rw [hB1]; rfl⟩
  · simp [List.map_map, Function.comp_def, LayerOutputCont.SetLayerOutput, Node.Evaluate]
  · rw [← List.map_reverse, List.zipWith_map_left, List.zipWith_map_right, List.map_zipWith]
    congr 1
    funext g x
    simp [TanhLayerInputCont.SetLayerInput, Node.Evaluate, List.zipWith_map_right]

/-- Witness for C13: forward calls with a 1 x 3 and a 2 x 3 real input, then backward calls
with a 2 x 3 and a 1 x 3 gradient, over the real hyperbolic tangent. -/
theorem tanh_forward_backward_lifo_witness :
    [(⟨[2, 3], [1, 1, 1, 2, 2, 2]⟩ : Tensor ℝ), ⟨[1, 3], [3, 3, 3]⟩].map (fun g => g.shape)
      = ([(⟨[1, 3], [1, 2, 3]⟩ : Tensor ℝ), ⟨[2, 3], [1, 2, 3, 4, 5, 6]⟩].map
          fun x => x.shape).reverse ∧
    (((TanhLayer.new true ℝ "root").FeedForwardSeq
        ([(⟨[1, 3], [1, 2, 3]⟩ : Tensor ℝ), ⟨[2, 3], [1, 2, 3, 4, 5, 6]⟩].map
          fun x => tanhIn (.tensor x))).2.FeedBackwardSeq
        ([(⟨[2, 3], [1, 1, 1, 2, 2, 2]⟩ : Tensor ℝ), ⟨[1, 3], [3, 3, 3]⟩].map
          fun g => outGrad (.tensor g))).2.NeutralInvariant = .ok () :=
  ⟨rfl,
    (tanh_forward_backward_lifo Real.tanh "root"
      [⟨[1, 3], [1, 2, 3]⟩, ⟨[2, 3], [1, 2, 3, 4, 5, 6]⟩]
      [⟨[2, 3], [1, 1, 1, 2, 2, 2]⟩, ⟨[1, 3], [3, 3, 3]⟩] rfl).2.2.2⟩

/-- C14, amended: for the input `x = [-0.27, -0.41]` a fresh feedback-enabled `TanhLayer`
returns a forward output whose values over the reals are within 1e-4 of -0.2636 and
within 1e-3 of -0.3889, and for the gradient `g = [0.1, 0.3]` a backward result whose
values are within 1e-4 of `0.1 * (1 - 0.2636^2)` and `0.3 * (1 - 0.3889^2)`. -/
theorem tanh_sample_values :
    ∃ (out : LayerOutputCont ℝ) (r : TanhLayerInputCont ℝ) (y0 y1 b0 b1 : ℝ),
      ((TanhLayer.new true ℝ "root").FeedForward
          (tanhIn (.tensor ⟨[2, 1], [-0.27, -0.41]⟩))).1 = .ok out ∧
      out.LayerOutput.bind (Node.Evaluate Real.tanh) = some ⟨[2, 1], [y0, y1]⟩ ∧
      (((TanhLayer.new true ℝ "root").FeedForward
          (tanhIn (.tensor ⟨[2, 1], [-0.27, -0.41]⟩))).2.FeedBackward
          (outGrad (.tensor ⟨[2, 1], [0.1, 0.3]⟩))).1 = .ok r ∧
      r.LayerInput.bind (Node.Evaluate Real.tanh) = some ⟨[2, 1], [b0, b1]⟩ ∧
      |y0 - (-0.2636)| < 0.0001 ∧ |y1 - (-0.3889)| < 0.001 ∧
      |b0 - 0.1 * (1 - 0.2636 ^ 2)| < 0.0001 ∧ |b1 - 0.3 * (1 - 0.3889 ^ 2)| < 0.0001 := by
  obtain ⟨hF, hB⟩ := tanh_sample_eval
  obtain ⟨a1, a2⟩ := tanh_027_bounds
  obtain ⟨c1, c2⟩ := tanh_041_bounds
  refine ⟨_, _, Real.tanh (-0.27), Real.tanh (-0.41),
    0.1 * (1 - Real.tanh (-0.27) * Real.tanh (-0.27)),
    0.3 * (1 - Real.tanh (-0.41) * Real.tanh (-0.41)), hF, ?_, hB, ?_, ?_, ?_, ?_, ?_⟩
  · simp [LayerOutputCont.SetLayerOutput, Node.Evaluate]
  · simp [TanhLayerInputCont.SetLayerInput, Node.Evaluate]
  · rw [Real.tanh_neg, abs_lt]; constructor <;> linarith
  · rw [Real.tanh_neg, abs_lt]; constructor <;> linarith
  · rw [Real.tanh_neg, abs_lt]; constructor <;> nlinarith
  · rw [Real.tanh_neg, abs_lt]; constructor <;> nlinarith

/-- C14 as stated fails: with the tolerance 1e-4 on all four values there is no such
forward output and backward result, because `tanh(-0.41) = -0.38847...` is more than
1e-4 away from -0.3889. -/
theorem tanh_sample_values_counterexample :
    ¬ ∃ (out : LayerOutputCont ℝ) (r : TanhLayerInputCont ℝ) (y0 y1 b0 b1 : ℝ),
      ((TanhLayer.new true ℝ "root").FeedForward
          (tanhIn (.tensor ⟨[2, 1], [-0.27, -0.41]⟩))).1 = .ok out ∧
      out.LayerOutput.bind (Node.Evaluate Real.tanh) = some ⟨[2, 1], [y0, y1]⟩ ∧
      (((TanhLayer.new true ℝ "root").FeedForward
          (tanhIn (.tensor ⟨[2, 1], [-0.27, -0.41]⟩))).2.FeedBackward
          (outGrad (.tensor ⟨[2, 1], [0.1, 0.3]⟩))).1 = .ok r ∧
      r.LayerInput.bind (Node.Evaluate Real.tanh) = some ⟨[2, 1], [b0, b1]⟩ ∧
      |y0 - (-0.2636)| < 0.0001 ∧ |y1 - (-0.3889)| < 0.0001 ∧
      |b0 - 0.1 * (1 - 0.2636 ^ 2)| < 0.0001 ∧ |b1 - 0.3 * (1 - 0.3889 ^ 2)| < 0.0001 := by
  rintro ⟨out, r, y0, y1, b0, b1, hF, hy, _, _, _, h1, _, _⟩
  obtain ⟨c1, c2⟩ := tanh_041_bounds
  rw [tanh_sample_eval.1] at hF
  simp only [Except.ok.injEq] at hF
  subst hF
  simp [LayerOutputCont.SetLayerOutput, Node.Evaluate] at hy
  rw [← hy.2, abs_lt] at h1
  linarith [h1.1, h1.2]

end Claims

end MetaNN
